import Mathlib

/-!
# rebuilder-tools: download scheduler, provider fallback and build pipeline

A shallow embedding of `rebuilder/downloader.go`, `rebuilder/rebuilder.go` and
`rebuilder/mcs/mcs.go`.

* Every call that leaves the process (file system, aria2 agent, lotus node,
  graphsplit, MCS bucket) is recorded in a trace of `Call`s.  The answers of
  the outside world are given by oracles of an `Env`; an oracle sees the trace
  so far, so the same call may be answered differently at different times.
* `Downloader.checkDownload` is a `select` loop fed by goroutines.  It is
  embedded as a step function on the scheduler state; an `Event` names which
  communication the Go runtime lets proceed and carries the answer of the
  aria2 agent for the call made in that step.
* Go slices of pointers are lists of values; a `*DownloadInfo` travelling
  through a channel is the key of its record in `statusMap`.
* Calls of the `log` package are not modelled.
-/

namespace RebuilderTools

/-! ## Trace of external calls -/

/-- One call that leaves the process, with its arguments and, where the
program looks at it, its answer.  A Go `error` is an `Option String`
(`none` is `nil`). `retrieveFile` and `uploadFile` mark the entry of
`Rebuilder.RetrieveFile` and `BucketClient.UploadFile`. -/
inductive Call where
  | stat (path : String) (isDir : Bool) (err : Option String)
  | mkdirAll (path : String) (err : Option String)
  | downloadFile (uri outDir outFilename gid : String) (err : Option String)
  | downloadStatus (key gid : String) (ok : Bool) (err : Option String)
  | retrieveFile (cid miner wallet savePath : String)
  | retrieveData (minerId dataCid savePath wallet : String) (err : Option String)
  | carTo (carPath outputDir : String) (parallel : Int)
  | merge (outputDir : String) (parallel : Int) (flag : Bool)
  | walkDir (root : String)
  | uploadFile (path : String) (replace : Bool)
  | sdkUploadFile (bucket name path : String) (replace : Bool) (err : Option String)
  | sdkGetFile (bucket name : String) (payloadCid : String) (err : Option String)
  | sdkGetGateway (gateway : String) (err : Option String)
deriving DecidableEq, Repr

/-- One visit of `filepath.WalkDir`: the arguments handed to the callback. -/
structure WalkEntry where
  path : String
  isDir : Bool
  err : Option String
deriving DecidableEq, Repr

/-- The outside world.  `Base`, `Join` and `UrlJoinPath` stand for the library
functions `filepath.Base`, `filepath.Join` and `url.JoinPath` (which returns
the empty string together with its error); the other fields answer a call
given the trace so far. -/
structure Env where
  Base : String → String
  Join : String → String → String
  UrlJoinPath : String → List String → Except String String
  Stat : List Call → String → Bool × Option String
  MkdirAll : List Call → String → Option String
  RetrieveData : List Call → String → String → String → String → Option String
  WalkDir : List Call → String → List WalkEntry
  SdkUploadFile : List Call → String → String → String → Bool → Option String
  SdkGetFile : List Call → String → String → String × Option String
  SdkGetGateway : List Call → String × Option String

/-! ## downloader.go -/

/-- The record `DownloadInfo` of downloader.go. -/
structure DownloadInfo where
  DirPath : String
  FileURL : String
  Gid : String
  Status : Int
  Err : Option String
deriving DecidableEq, Repr

/-- Where the goroutine running `checkDownload` stands. -/
inductive PC where
  /-- at the `select` of the loop -/
  | select
  /-- in the `finishChan` case, at `info := <-downloader.preChan` -/
  | recvPre
  /-- in the `finishChan` case, at `downloader.inChan <- info` -/
  | sendIn (key : String)
  /-- in the ticker case, with these elements of `temp` still to send -/
  | tickSend (rest : List String)
  /-- the function `checkDownload` has returned this error -/
  | returned (err : Option String)
  /-- a run-time panic (close of a closed channel, nil record) stopped the process -/
  | panicked
deriving DecidableEq, Repr

/-- The `Downloader` struct together with the locals of the goroutines of one
`DownloadFiles` call: `fileURLs`, `feedIdx` (the `i` of the sending goroutine),
`feederDone`; `temp`, `finishTokens` (goroutines waiting to send on
`finishChan`) and `pc` of `checkDownload`; and the trace. A channel is the list
of the keys queued in it; `exitClosed` says whether `exit` has been closed. -/
structure Downloader where
  total : Int
  maxNum : Int
  preChan : List String
  inChan : List String
  exitClosed : Bool
  statusMap : List (String × DownloadInfo)
  fileURLs : List String
  feedIdx : Nat
  feederDone : Bool
  temp : List String
  finishTokens : Nat
  pc : PC
  trace : List Call
deriving Repr

/-- Lookup `m[k]` in a Go map kept as an association list. -/
def mapGet (m : List (String × DownloadInfo)) (k : String) : Option DownloadInfo :=
  m.lookup k

/-- Assignment `m[k] = v`. -/
def mapSet : List (String × DownloadInfo) → String → DownloadInfo → List (String × DownloadInfo)
  | [], k, v => [(k, v)]
  | (k', v') :: m, k, v => if k' = k then (k, v) :: m else (k', v') :: mapSet m k v

/-- Update through the pointer stored under `k`. -/
def mapModify (m : List (String × DownloadInfo)) (k : String) (f : DownloadInfo → DownloadInfo) :
    List (String × DownloadInfo) :=
  m.map (fun p => if p.1 = k then (p.1, f p.2) else p)

/-- Function `NewDownloader`: `make(chan, max)` panics for a negative size (`none`). -/
def NewDownloader (max : Int) : Option Downloader :=
  if max < 0 then none
  else some
    { total := 0, maxNum := max, preChan := [], inChan := [], exitClosed := false,
      statusMap := [], fileURLs := [], feedIdx := 0, feederDone := false,
      temp := [], finishTokens := 0, pc := PC.select, trace := [] }

/-- Lines 49-58 of `DownloadFiles` and the entry of `checkDownload`: the
records are created, the sending goroutine is started at `i = 0`, and one
goroutine waits to send on `finishChan`. -/
def DownloadFiles_init (d : Downloader) (dirPath : String) (fileURLs : List String)
    (t : List Call) : Downloader :=
  { d with
    total := fileURLs.length
    statusMap := fileURLs.foldl
      (fun m fileURL => mapSet m fileURL
        { DirPath := dirPath, FileURL := fileURL, Gid := "", Status := 0, Err := none }) []
    fileURLs := fileURLs
    feedIdx := 0
    feederDone := false
    temp := []
    finishTokens := 1
    pc := PC.select
    trace := t }

/-- What the Go runtime lets happen next.  `recvPre` and `recvIn` carry the
answer of the aria2 agent to the call made in that step. -/
inductive Event where
  /-- the sending goroutine passes `downloader.preChan <- downloader.statusMap[fileURL]` -/
  | feed
  /-- the sending goroutine returns (`i >= len(fileURLs)` or `<-downloader.exit`) -/
  | feederExit
  /-- the loop takes `case <-finishChan` -/
  | recvFinish
  /-- the loop passes `info := <-downloader.preChan` and calls `downloadFile`,
  answered `(gid, err)` -/
  | recvPre (gid : String) (err : Option String)
  /-- the loop passes `downloader.inChan <- info` of the `finishChan` case -/
  | sendIn
  /-- the loop takes `case info := <-downloader.inChan` and calls `downloadStatus`,
  answered `(ok, err)` -/
  | recvIn (ok : Bool) (err : Option String)
  /-- the loop takes `case <-ticker.C` -/
  | tick
  /-- one round of `for _, info := range temp`, or its end and `temp = temp[:0]` -/
  | tickSend
  /-- the loop takes `case <-downloader.exit` -/
  | recvExit
deriving DecidableEq, Repr

/-- Return from `checkDownload` with the local `exit` still false: the deferred
function closes `downloader.exit`. -/
def doReturn (s : Downloader) (err : Option String) : Downloader :=
  if s.exitClosed then { s with pc := PC.panicked }
  else { s with exitClosed := true, pc := PC.returned err }

/-- Method `downloadFile` with `format = ".car"`: the request sent to the agent. -/
def downloadFile (env : Env) (dirPath fileURL gid : String) (err : Option String) : Call :=
  Call.downloadFile fileURL dirPath (env.Base fileURL ++ ".car") gid err

/-- One step of the goroutines of `DownloadFiles`; `none` when the event
cannot happen in this state. -/
def step (env : Env) (s : Downloader) : Event → Option Downloader
  | Event.feed =>
    if s.feederDone then none
    else match s.fileURLs[s.feedIdx]? with
      | none => none
      | some fileURL =>
        if (s.preChan.length : Int) < s.maxNum ∨ (s.pc = PC.recvPre ∧ s.preChan = []) then
          some { s with preChan := s.preChan ++ [fileURL], feedIdx := s.feedIdx + 1 }
        else none
  | Event.feederExit =>
    if s.feederDone then none
    else if s.fileURLs.length ≤ s.feedIdx ∨ s.exitClosed then some { s with feederDone := true }
    else none
  | Event.recvFinish =>
    if s.pc = PC.select ∧ 0 < s.finishTokens then
      let s := { s with finishTokens := s.finishTokens - 1 }
      if s.total = 0 then some (doReturn s none)
      else some { s with pc := PC.recvPre }
    else none
  | Event.recvPre gid err =>
    if s.pc = PC.recvPre then
      match s.preChan with
      | [] => none
      | key :: rest =>
        match mapGet s.statusMap key with
        | none => some { s with pc := PC.panicked }
        | some info =>
          let s := { s with
            preChan := rest
            statusMap := mapModify s.statusMap key (fun i => { i with Gid := gid, Err := err })
            trace := s.trace ++ [downloadFile env info.DirPath info.FileURL gid err] }
          if err.isSome then some (doReturn s err)
          else some { s with pc := PC.sendIn key }
    else none
  | Event.sendIn =>
    match s.pc with
    | PC.sendIn key =>
      if (s.inChan.length : Int) < s.maxNum then
        some { s with inChan := s.inChan ++ [key], pc := PC.select }
      else none
    | _ => none
  | Event.recvIn ok err =>
    if s.pc = PC.select then
      match s.inChan with
      | [] => none
      | key :: rest =>
        match mapGet s.statusMap key with
        | none => some { s with pc := PC.panicked }
        | some info =>
          let s := { s with
            inChan := rest
            trace := s.trace ++ [Call.downloadStatus key info.Gid ok err] }
          if !ok && err.isNone then some { s with temp := s.temp ++ [key] }
          else if err.isSome then
            some (doReturn
              { s with statusMap :=
                  mapModify s.statusMap key (fun i => { i with Status := -1, Err := err }) } err)
          else
            some { s with
              statusMap := mapModify s.statusMap key (fun i => { i with Status := 1 })
              total := s.total - 1
              finishTokens := s.finishTokens + 1 }
    else none
  | Event.tick =>
    if s.pc = PC.select then some { s with pc := PC.tickSend s.temp } else none
  | Event.tickSend =>
    match s.pc with
    | PC.tickSend [] => some { s with temp := [], pc := PC.select }
    | PC.tickSend (key :: rest) =>
      if (s.inChan.length : Int) < s.maxNum then
        some { s with inChan := s.inChan ++ [key], pc := PC.tickSend rest }
      else none
    | _ => none
  | Event.recvExit =>
    if s.pc = PC.select ∧ s.exitClosed then some { s with pc := PC.returned (some "exit") }
    else none

/-- Run a schedule: the events happen in order; `none` if one of them cannot. -/
def run (env : Env) (s : Downloader) : List Event → Option Downloader
  | [] => some s
  | e :: es => (step env s e).bind (fun s' => run env s' es)

/-- Method `Downloader.DownloadFiles` under a schedule of its goroutines: the status
map (`none` is the nil map), the error and the trace, or `none` when the
schedule does not bring `checkDownload` to return. -/
def DownloadFiles (env : Env) (d : Downloader) (dirPath : String) (fileURLs : List String)
    (sched : List Event) (t : List Call) :
    Option (Option (List (String × DownloadInfo)) × Option String × List Call) :=
  let info := env.Stat t dirPath
  let t := t ++ [Call.stat dirPath info.1 info.2]
  if info.2.isSome then some (none, info.2, t)
  else if !info.1 then some (none, some "dir path is not a directory", t)
  else
    match run env (DownloadFiles_init d dirPath fileURLs t) sched with
    | none => none
    | some s =>
      match s.pc with
      | PC.returned e => some (some s.statusMap, e, s.trace)
      | _ => none

/-! ## mcs.go -/

/-- The struct `BucketClient`; the SDK client behind it is part of `Env`. -/
structure BucketClient where
  bucketName : String
deriving DecidableEq, Repr

/-- Method `BucketClient.UploadFile`: upload, look the file up, ask for the
gateway, and join the download URL.  Every early return leaves the named
result `downloadURL` empty. -/
def BucketClient.UploadFile (env : Env) (bc : BucketClient) (path : String) (replace : Bool)
    (t : List Call) : (String × Option String) × List Call :=
  let t := t ++ [Call.uploadFile path replace]
  let name := env.Base path
  let err := env.SdkUploadFile t bc.bucketName name path replace
  let t := t ++ [Call.sdkUploadFile bc.bucketName name path replace err]
  if err.isSome then (("", err), t)
  else
    let ossFile := env.SdkGetFile t bc.bucketName name
    let t := t ++ [Call.sdkGetFile bc.bucketName name ossFile.1 ossFile.2]
    if ossFile.2.isSome then (("", ossFile.2), t)
    else
      let gateway := env.SdkGetGateway t
      let t := t ++ [Call.sdkGetGateway gateway.1 gateway.2]
      if gateway.2.isSome then (("", gateway.2), t)
      else
        match env.UrlJoinPath gateway.1 ["ipfs", ossFile.1] with
        | Except.ok url => ((url, none), t)
        | Except.error e => (("", some e), t)

/-! ## rebuilder.go -/

/-- The struct `CarDeal`. -/
structure CarDeal where
  DealId : Int
  DealCid : String
  MinerFid : String
deriving DecidableEq, Repr

/-- The struct `CarInfo`. -/
structure CarInfo where
  CarFileUrl : String
  CID : String
  Deals : List CarDeal
deriving DecidableEq, Repr

/-- The handle `*lotus.Client`. -/
structure LotusClient where
  nodeApi : String
deriving DecidableEq, Repr

/-- The struct `Rebuilder`.  `lotusClient = none` is the nil client.  The
field `aria2Client` is left out: the answers of the agent come with the
events of the scheduler. -/
structure Rebuilder where
  inputPath : String
  outputPath : String
  parallel : Int
  bucketClient : BucketClient
  lotusClient : Option LotusClient
  wallet : String
deriving DecidableEq, Repr

/-- The callback of `filepath.WalkDir` in `RestoreAndUpload`, run over the
visits of the walk: an error handed to the callback or returned by an upload
stops the walk; `url` is the named result `downloadURL`. -/
def uploadWalk (env : Env) (bc : BucketClient) :
    List WalkEntry → String → List Call → (String × Option String) × List Call
  | [], url, t => ((url, none), t)
  | entry :: rest, url, t =>
    match entry.err with
    | some err => ((url, some err), t)
    | none =>
      if entry.isDir then uploadWalk env bc rest url t
      else
        match BucketClient.UploadFile env bc entry.path true t with
        | ((url', some err), t') => ((url', some err), t')
        | ((url', none), t') => uploadWalk env bc rest url' t'

/-- Method `Rebuilder.RestoreAndUpload`. -/
def RestoreAndUpload (env : Env) (r : Rebuilder) (carPath outputDir : String) (t : List Call) :
    (String × Option String) × List Call :=
  let t := t ++ [Call.carTo carPath outputDir r.parallel]
  let t := t ++ [Call.merge outputDir r.parallel true]
  let entries := env.WalkDir t outputDir
  let t := t ++ [Call.walkDir outputDir]
  uploadWalk env r.bucketClient entries "" t

/-- Method `Rebuilder.RetrieveFile`. -/
def RetrieveFile (env : Env) (r : Rebuilder) (cid miner wallet savePath : String)
    (t : List Call) : Option String × List Call :=
  let t := t ++ [Call.retrieveFile cid miner wallet savePath]
  if r.lotusClient.isNone then (some "conf net set lotus", t)
  else if cid = "" ∨ miner = "" then (some "invalid empty cid or miner", t)
  else
    let wallet := if wallet = "" then r.wallet else wallet
    let path := env.Join savePath (miner ++ "-" ++ cid ++ ".car")
    let err := env.RetrieveData t miner cid path wallet
    (err, t ++ [Call.retrieveData miner cid path wallet err])

/-- The loop `for _, deal := range info.Deals` of `Retrieve`: the value of
`success` after it. -/
def retrieveDeals (env : Env) (r : Rebuilder) (cid wallet carDir : String) :
    List CarDeal → List Call → Bool × List Call
  | [], t => (false, t)
  | deal :: rest, t =>
    match RetrieveFile env r cid deal.MinerFid wallet carDir t with
    | (none, t') => (true, t')
    | (some _, t') => retrieveDeals env r cid wallet carDir rest t'

/-- The loop `for _, info := range carInfos` of `Retrieve`: the error it
returns with, or `none` when it runs to its end. -/
def retrieveInfos (env : Env) (r : Rebuilder) (wallet carDir : String) :
    List CarInfo → List Call → Option String × List Call
  | [], t => (none, t)
  | info :: rest, t =>
    if info.CID = "" ∨ info.Deals.length = 0 then (some "invalid empty cid or miners", t)
    else
      match retrieveDeals env r info.CID wallet carDir info.Deals t with
      | (false, t') => (some ("retrieve failed with file :" ++ info.CID), t')
      | (true, t') => retrieveInfos env r wallet carDir rest t'

/-- The local `path` of `Retrieve`: `r.outputPath`, replaced by `savePath[0]`
when the variadic argument is given and not empty. -/
def Retrieve_path (r : Rebuilder) (savePath : List String) : String :=
  match savePath with
  | p :: _ => if p ≠ "" then p else r.outputPath
  | [] => r.outputPath

/-- Method `Rebuilder.Retrieve`; `savePath` is the variadic argument. -/
def Retrieve (env : Env) (r : Rebuilder) (name : String) (carInfos : List CarInfo)
    (wallet : String) (savePath : List String) (t : List Call) :
    (String × Option String) × List Call :=
  if carInfos.length = 0 then (("", some "invalid empty carInfos"), t)
  else
    let carDir := env.Join r.inputPath name
    let err := env.MkdirAll t carDir
    let t := t ++ [Call.mkdirAll carDir err]
    if err.isSome then (("", err), t)
    else
      match retrieveInfos env r wallet carDir carInfos t with
      | (some e, t') => (("", some e), t')
      | (none, t') =>
        let path := Retrieve_path r savePath
        let sourceDir := env.Join path name
        let err := env.MkdirAll t' sourceDir
        let t' := t' ++ [Call.mkdirAll sourceDir err]
        if err.isSome then (("", err), t')
        else RestoreAndUpload env r carDir sourceDir t'

/-- Method `Rebuilder.Build` under a schedule of the goroutines of its
download; `none` when `NewDownloader` panics or the schedule does not bring
`DownloadFiles` to return. -/
def Build (env : Env) (r : Rebuilder) (name : String) (fileURLs : List String)
    (sched : List Event) (t : List Call) : Option ((String × Option String) × List Call) :=
  match fileURLs with
  | [] => some (("", some "no file URLs"), t)
  | first :: _ =>
    if r.inputPath = r.outputPath then
      some (("", some "input path not be same with output path"), t)
    else
      let name := if name = "" then env.Base first else name
      let sourceDir := env.Join r.outputPath name
      let err := env.MkdirAll t sourceDir
      let t := t ++ [Call.mkdirAll sourceDir err]
      if err.isSome then some (("", err), t)
      else
        let carDir := env.Join r.inputPath name
        let err := env.MkdirAll t carDir
        let t := t ++ [Call.mkdirAll carDir err]
        if err.isSome then some (("", err), t)
        else
          match NewDownloader r.parallel with
          | none => none
          | some downloader =>
            match DownloadFiles env downloader carDir fileURLs sched t with
            | none => none
            | some (_, some err, t') => some (("", some err), t')
            | some (_, none, t') => some (RestoreAndUpload env r carDir sourceDir t')

/-! ## Reading the trace of the scheduler -/

/-- A start call that the agent accepted: the job is now on the agent. -/
def isStarted : Call → Bool
  | Call.downloadFile _ _ _ _ none => true
  | _ => false

/-- A status poll after which the loop marks the job succeeded
(`info.Status = 1`, `downloader.total--`). -/
def isSucceeded : Call → Bool
  | Call.downloadStatus _ _ true none => true
  | _ => false

/-- A status poll after which the loop marks the job failed (`info.Status = -1`). -/
def isFailed : Call → Bool
  | Call.downloadStatus _ _ _ (some _) => true
  | _ => false

/-- Number of jobs started on the agent. -/
def startedCount (t : List Call) : Nat := t.countP isStarted

/-- Number of jobs marked succeeded. -/
def succeededCount (t : List Call) : Nat := t.countP isSucceeded

/-- Number of jobs marked failed. -/
def failedCount (t : List Call) : Nat := t.countP isFailed

/-- Jobs started on the agent that have not reached a terminal state. -/
def activeJobs (t : List Call) : Nat := startedCount t - (succeededCount t + failedCount t)

/-- Keys held by the loop outside the channels. -/
def pcKeys (s : Downloader) : List String :=
  match s.pc with
  | PC.sendIn key => key :: s.temp
  | PC.tickSend rest => rest
  | _ => s.temp

/-- Started jobs the loop still tracks. -/
def inflight (s : Downloader) : Nat := s.inChan.length + (pcKeys s).length

/-- One if the loop is committed to starting a job. -/
def waiting (s : Downloader) : Nat := if s.pc = PC.recvPre then 1 else 0

/-- Invariant of the loop: every started job is succeeded, failed or tracked,
and there is a single start permit that is either a goroutine waiting on
`finishChan`, the loop about to start a job, a tracked job, or used up by a
failure. -/
def SchedInv (s : Downloader) : Prop :=
  startedCount s.trace = succeededCount s.trace + failedCount s.trace + inflight s ∧
  inflight s + s.finishTokens + waiting s + failedCount s.trace ≤ 1

/-- The counter `total` is the number of submitted sources less the number of
jobs marked succeeded. -/
def TotalInv (M : Nat) (s : Downloader) : Prop :=
  s.total + (succeededCount s.trace : Int) = (M : Int)

/-- A call to the aria2 agent. -/
def isAgentCall : Call → Bool
  | Call.downloadFile _ _ _ _ _ => true
  | Call.downloadStatus _ _ _ _ => true
  | _ => false

/-- The error of a failed job: a start call the agent rejected, or a status
poll that returned an error. -/
def failureErr : Call → Option String
  | Call.downloadFile _ _ _ _ (some e) => some e
  | Call.downloadStatus _ _ _ (some e) => some e
  | _ => none

/-- A status poll of the job with key `u`. -/
def isPollOf (u : String) : Call → Bool
  | Call.downloadStatus key _ _ _ => key == u
  | _ => false

/-- The status poll after which the job with key `u` is marked succeeded. -/
def isSuccessOf (u : String) : Call → Bool
  | Call.downloadStatus key _ true none => key == u
  | _ => false

/-- Field `Status` of the record stored under `u`. -/
def statusOf (s : Downloader) (u : String) : Option Int :=
  (mapGet s.statusMap u).map (fun info => info.Status)

/-- How often the key `u` is still ahead of a terminal state: not yet sent,
queued in a channel, or held by the loop. -/
def liveCount (s : Downloader) (u : String) : Nat :=
  (s.fileURLs.drop s.feedIdx).count u + s.preChan.count u + (pcKeys s).count u +
    s.inChan.count u

/-- Fail-fast invariant: either nothing has failed and `exit` is open, or the
loop has returned nil without a failure, or the last call failed and the loop
has returned its error. -/
def FailFastInv (s : Downloader) : Prop :=
  (s.exitClosed = false ∧ ∀ c ∈ s.trace, failureErr c = none) ∨
  (s.pc = PC.returned none ∧ ∀ c ∈ s.trace, failureErr c = none) ∨
  (∃ pre c e, s.trace = pre ++ [c] ∧ (∀ c' ∈ pre, failureErr c' = none) ∧
    failureErr c = some e ∧ s.pc = PC.returned (some e))

/-- No status poll of `u` follows a poll that marked `u` succeeded. -/
def NoPollAfterSuccess (u : String) (t : List Call) : Prop :=
  ∀ pre c post, t = pre ++ c :: post → isSuccessOf u c = true →
    ∀ c' ∈ post, isPollOf u c' = false

/-- Invariant for one key `u` of a submission without duplicates. -/
def JobInv (u : String) (s : Downloader) : Prop :=
  s.trace.countP (isSuccessOf u) + liveCount s u ≤ 1 ∧
  (statusOf s u = some 1 ↔ s.trace.countP (isSuccessOf u) = 1) ∧
  NoPollAfterSuccess u s.trace

/-! ## Reading the trace of the pipeline -/

/-- A call of the reassembly collaborator (`graphsplit.CarTo`, `graphsplit.Merge`). -/
def isReassembly : Call → Bool
  | Call.carTo _ _ _ => true
  | Call.merge _ _ _ => true
  | _ => false

/-- A call of `BucketClient.UploadFile` or of the SDK behind it. -/
def isUploadCall : Call → Bool
  | Call.uploadFile _ _ => true
  | Call.sdkUploadFile _ _ _ _ _ => true
  | Call.sdkGetFile _ _ _ _ => true
  | Call.sdkGetGateway _ _ => true
  | _ => false

/-- The content address a retrieval call is made for. -/
def retrieveCid : Call → Option String
  | Call.retrieveFile cid _ _ _ => some cid
  | Call.retrieveData _ dataCid _ _ _ => some dataCid
  | _ => none

/-- The providers on which the retrieval collaborator was called for `cid`,
in call order. -/
def retrievedFrom (cid : String) (t : List Call) : List String :=
  t.filterMap (fun c =>
    match c with
    | Call.retrieveData minerId dataCid _ _ _ => if dataCid = cid then some minerId else none
    | _ => none)

/-- The retrieval attempts (calls of `RetrieveFile`) as pairs of content
address and provider, in call order. -/
def attempts (t : List Call) : List (String × String) :=
  t.filterMap (fun c =>
    match c with
    | Call.retrieveFile cid miner _ _ => some (cid, miner)
    | _ => none)

/-- The paths `BucketClient.UploadFile` was called with, in call order. -/
def uploadedPaths (t : List Call) : List String :=
  t.filterMap (fun c =>
    match c with
    | Call.uploadFile path _ => some path
    | _ => none)

/-- The regular files among the visits of a walk. -/
def walkFiles (entries : List WalkEntry) : List String :=
  (entries.filter (fun entry => !entry.isDir)).map (fun entry => entry.path)

/-- Every one of `deals`, attempted in this order starting from trace `t`, fails. -/
def allFail (env : Env) (r : Rebuilder) (cid wallet carDir : String) :
    List CarDeal → List Call → Bool
  | [], _ => true
  | deal :: rest, t =>
    match RetrieveFile env r cid deal.MinerFid wallet carDir t with
    | (none, _) => false
    | (some _, t') => allFail env r cid wallet carDir rest t'

/-- The trace after `RetrieveFile` has been called for each of `deals` in order. -/
def attemptAll (env : Env) (r : Rebuilder) (cid wallet carDir : String) :
    List CarDeal → List Call → List Call
  | [], t => t
  | deal :: rest, t =>
    attemptAll env r cid wallet carDir rest
      (RetrieveFile env r cid deal.MinerFid wallet carDir t).2

/-- The trace after `BucketClient.UploadFile` has been called for each of
`paths` in order, starting from trace `t`. -/
def uploadAll (env : Env) (bc : BucketClient) : List String → List Call → List Call
  | [], t => t
  | path :: rest, t => uploadAll env bc rest (BucketClient.UploadFile env bc path true t).2

/-- Every one of the uploads of `paths`, made in this order starting from
trace `t`, returns a nil error. -/
def allUploaded (env : Env) (bc : BucketClient) : List String → List Call → Bool
  | [], _ => true
  | path :: rest, t =>
    match (BucketClient.UploadFile env bc path true t).1.2 with
    | none => allUploaded env bc rest (BucketClient.UploadFile env bc path true t).2
    | some _ => false

/-- The location left in `downloadURL` by the uploads of `paths`: the one the
last upload returned, and `url` when `paths` is empty. -/
def uploadedURL (env : Env) (bc : BucketClient) : List String → String → List Call → String
  | [], url, _ => url
  | path :: rest, _, t =>
    uploadedURL env bc rest (BucketClient.UploadFile env bc path true t).1.1
      (BucketClient.UploadFile env bc path true t).2

/-! ## Concrete inputs used to run the definitions -/

/-- A world in which every call succeeds and the output directory holds one file. -/
def exampleEnv : Env where
  Base := fun p => p
  Join := fun a b => a ++ "/" ++ b
  UrlJoinPath := fun b es => Except.ok (es.foldl (fun a e => a ++ "/" ++ e) b)
  Stat := fun _ _ => (true, none)
  MkdirAll := fun _ _ => none
  RetrieveData := fun _ _ _ _ _ => none
  WalkDir := fun _ root => [⟨root, true, none⟩, ⟨root ++ "/file", false, none⟩]
  SdkUploadFile := fun _ _ _ _ _ => none
  SdkGetFile := fun _ _ _ => ("bafy-cid", none)
  SdkGetGateway := fun _ => ("https://gateway", none)

/-- The value of `NewDownloader max` for `0 ≤ max`. -/
def exampleDownloader (max : Int) : Downloader :=
  { total := 0, maxNum := max, preChan := [], inChan := [], exitClosed := false,
    statusMap := [], fileURLs := [], feedIdx := 0, feederDone := false,
    temp := [], finishTokens := 0, pc := PC.select, trace := [] }

/-- Three sources under bound 2: the first job has been started and polled as
still active, the ticker has fired once. -/
def exampleSchedule : List Event :=
  [Event.feed, Event.feed, Event.recvFinish, Event.recvPre "gid-1" none, Event.sendIn,
    Event.recvIn false none, Event.tick, Event.tickSend, Event.tickSend]

/-- The state that `exampleSchedule` leads to for `["u1", "u2", "u3"]` under bound 2. -/
def exampleState : Downloader :=
  { total := 3, maxNum := 2, preChan := ["u2"], inChan := ["u1"], exitClosed := false,
    statusMap :=
      [("u1", { DirPath := "dir", FileURL := "u1", Gid := "gid-1", Status := 0, Err := none }),
       ("u2", { DirPath := "dir", FileURL := "u2", Gid := "", Status := 0, Err := none }),
       ("u3", { DirPath := "dir", FileURL := "u3", Gid := "", Status := 0, Err := none })],
    fileURLs := ["u1", "u2", "u3"], feedIdx := 2, feederDone := false, temp := [],
    finishTokens := 0, pc := PC.select,
    trace := [Call.stat "dir" true none, Call.downloadFile "u1" "dir" "u1.car" "gid-1" none,
      Call.downloadStatus "u1" "gid-1" false none] }

/-- Two sources under bound 3: the first job has been marked succeeded, the
agent has rejected the start of the second, and the loop has returned. -/
def failedState : Downloader :=
  { total := 1, maxNum := 3, preChan := [], inChan := [], exitClosed := true,
    statusMap :=
      [("u1", { DirPath := "dir", FileURL := "u1", Gid := "gid-1", Status := 1, Err := none }),
       ("u2", { DirPath := "dir", FileURL := "u2", Gid := "", Status := 0, Err := some "rejected" })],
    fileURLs := ["u1", "u2"], feedIdx := 2, feederDone := false, temp := [],
    finishTokens := 0, pc := PC.returned (some "rejected"),
    trace := [Call.stat "dir" true none, Call.downloadFile "u1" "dir" "u1.car" "gid-1" none,
      Call.downloadStatus "u1" "gid-1" true none,
      Call.downloadFile "u2" "dir" "u2.car" "" (some "rejected")] }

/-- Two sources under bound 3 with an agent that keeps reporting the first job
as active: the state after the first tick has been served. -/
def stuckState : Downloader :=
  { total := 2, maxNum := 3, preChan := ["u2"], inChan := [], exitClosed := false,
    statusMap :=
      [("u1", { DirPath := "dir", FileURL := "u1", Gid := "gid-1", Status := 0, Err := none }),
       ("u2", { DirPath := "dir", FileURL := "u2", Gid := "", Status := 0, Err := none })],
    fileURLs := ["u1", "u2"], feedIdx := 2, feederDone := false, temp := ["u1"],
    finishTokens := 0, pc := PC.select,
    trace := [Call.stat "dir" true none, Call.downloadFile "u1" "dir" "u1.car" "gid-1" none,
      Call.downloadStatus "u1" "gid-1" false none, Call.downloadStatus "u1" "gid-1" false none] }

/-- A rebuilder with distinct directories and a lotus client. -/
def exampleRebuilder : Rebuilder :=
  { inputPath := "in", outputPath := "out", parallel := 3, bucketClient := { bucketName := "bucket" },
    lotusClient := some { nodeApi := "node" }, wallet := "wallet" }

/-- A rebuilder whose input and output directory coincide. -/
def samePathRebuilder : Rebuilder :=
  { exampleRebuilder with outputPath := "in" }

/-- The world of `exampleEnv`, but reassembly leaves two files in the output directory. -/
def twoFilesEnv : Env :=
  { exampleEnv with
    WalkDir := fun _ root =>
      [⟨root, true, none⟩, ⟨root ++ "/a", false, none⟩, ⟨root ++ "/b", false, none⟩] }

/-- One source: it is started, polled as complete, and the loop returns nil. -/
def successSchedule : List Event :=
  [Event.feed, Event.recvFinish, Event.recvPre "gid-1" none, Event.sendIn,
    Event.recvIn true none, Event.recvFinish]

/-- One source: the agent rejects the start call. -/
def rejectSchedule : List Event :=
  [Event.feed, Event.recvFinish, Event.recvPre "" (some "rejected")]

/-- The world of `exampleEnv`, but only the provider `f03` serves the data. -/
def thirdProviderEnv : Env :=
  { exampleEnv with
    RetrieveData := fun _ minerId _ _ _ => if minerId = "f03" then none else some "no route" }

/-- An artifact with four providers. -/
def exampleInfo : CarInfo :=
  { CarFileUrl := "http://host/a.car", CID := "bafy-a",
    Deals := [⟨1, "deal-1", "f01"⟩, ⟨2, "deal-2", "f02"⟩, ⟨3, "deal-3", "f03"⟩,
      ⟨4, "deal-4", "f04"⟩] }

/-- An artifact whose only provider `f03` serves the data in `thirdProviderEnv`. -/
def servedInfo : CarInfo :=
  { CarFileUrl := "http://host/p.car", CID := "bafy-p", Deals := [⟨7, "deal-7", "f03"⟩] }

/-- An artifact none of whose providers serves the data in `thirdProviderEnv`. -/
def unservedInfo : CarInfo :=
  { CarFileUrl := "http://host/z.car", CID := "bafy-z",
    Deals := [⟨9, "deal-9", "f09"⟩, ⟨8, "deal-8", "f08"⟩] }

/-- A second artifact served by `f03`. -/
def laterInfo : CarInfo :=
  { CarFileUrl := "http://host/q.car", CID := "bafy-q", Deals := [⟨6, "deal-6", "f03"⟩] }

/-- The calls of `Retrieve` for the name `name` up to the end of the retrieval
of `servedInfo` in `thirdProviderEnv`. -/
def reachedTrace : List Call :=
  [Call.mkdirAll "in/name" none, Call.retrieveFile "bafy-p" "f03" "" "in/name",
    Call.retrieveData "f03" "bafy-p" "in/name/f03-bafy-p.car" "wallet" none]

/-- The calls of `Build` up to the return of its download, for the source `u1`
under `successSchedule`. -/
def downloadedTrace : List Call :=
  [Call.mkdirAll "out/name" none, Call.mkdirAll "in/name" none,
    Call.stat "in/name" true none, Call.downloadFile "u1" "in/name" "u1.car" "gid-1" none,
    Call.downloadStatus "u1" "gid-1" true none]

/-- The world of `thirdProviderEnv`, but no directory can be created. -/
def noDirEnv : Env :=
  { thirdProviderEnv with MkdirAll := fun _ _ => some "read-only file system" }

/-! ## aria2.go -/

/-- The struct `Aria2StatusResultFile` (without `Uris`). -/
structure Aria2StatusResultFile where
  CompletedLength : String
  Index : String
  Length : String
  Path : String
  Selected : String
deriving DecidableEq, Repr

/-- The fields of the struct `StatusResult` that `DownloadStatus` reads. -/
structure StatusResult where
  DownloadSpeed : String
  ErrorMessage : String
  Status : String
  Files : List Aria2StatusResultFile
deriving DecidableEq, Repr

/-- The struct `Error`. -/
structure Error where
  Code : Int
  Message : String
deriving DecidableEq, Repr

/-- The struct `StatusResp`; a nil pointer is `none`. -/
structure StatusResp where
  Id : String
  JsonRpc : String
  Error : Option Error
  Result : Option StatusResult
deriving DecidableEq, Repr

/-- The struct `Client` of package aria2. -/
structure Client where
  token : String
  serverUrl : String
deriving DecidableEq, Repr

/-- The constant `StatusError`. -/
def StatusError : String := "error"

/-- The constant `StatusWaiting`. -/
def StatusWaiting : String := "waiting"

/-- The constant `StatusActive`. -/
def StatusActive : String := "active"

/-- The constant `StatusComplete`. -/
def StatusComplete : String := "complete"

/-- Value of a run of decimal digits, `none` if another character occurs. -/
def parseDigits : List Char → Nat → Option Nat
  | [], acc => some acc
  | c :: cs, acc =>
    if '0' ≤ c ∧ c ≤ '9' then parseDigits cs (acc * 10 + (c.toNat - '0'.toNat)) else none

/-- Library function `strconv.Atoi` for a 64-bit `int`: an optional sign and
decimal digits; on a syntax error the value is 0, on a range error it is the
nearest bound. -/
def Atoi (s : String) : Int × Option String :=
  let (neg, digits) :=
    match s.data with
    | '-' :: ds => (true, ds)
    | '+' :: ds => (false, ds)
    | ds => (false, ds)
  match digits with
  | [] => (0, some "invalid syntax")
  | _ =>
    match parseDigits digits 0 with
    | none => (0, some "invalid syntax")
    | some n =>
      if neg then
        if 2 ^ 63 < n then (-(2 ^ 63), some "value out of range") else (-(n : Int), none)
      else
        if 2 ^ 63 ≤ n then (2 ^ 63 - 1, some "value out of range") else ((n : Int), none)

/-- Method `Client.DownloadStatus`.  `response` is what `httpRequest` and
`json.Unmarshal` deliver (an error of either is returned as it is); `osStat`
answers `os.Stat` with the size of the file and the error.  The sleep and the
progress line of the `active` case have no effect on the result. -/
def Client.DownloadStatus (_aria2Client : Client) (response : Except String StatusResp)
    (osStat : String → Int × Option String) (gid : String) : Bool × Option String :=
  match response with
  | Except.error err => (false, some err)
  | Except.ok aria2Status =>
    match aria2Status.Error with
    | some e => (false, some e.Message)
    | none =>
      match aria2Status.Result with
      | none => (false, some "invalid response")
      | some result =>
        match result.Files with
        | [file] =>
          if result.Status = StatusError then (false, some result.ErrorMessage)
          else if result.Status = StatusWaiting then (false, none)
          else if result.Status = StatusActive then (false, none)
          else if result.Status = StatusComplete then
            match (osStat file.Path).2 with
            | some err =>
              (false, some ("download gid: " ++ gid ++ ", error: " ++ err ++
                ", please check aria2 services"))
            | none => (true, none)
          else (false, some ("invalid download status: " ++ result.Status))
        | _ => (false, some "invalid response")

/-- A response that reports the single file `/dir/a.car` of length 100 as complete. -/
def completeResp : StatusResp :=
  { Id := "", JsonRpc := "2.0", Error := none,
    Result := some
      { DownloadSpeed := "0", ErrorMessage := "", Status := "complete",
        Files := [⟨"100", "1", "100", "/dir/a.car", "true"⟩] } }

/-! ## config.go and mcs.NewBucketClient -/

/-- The struct `config.Aria2`. -/
structure Aria2 where
  Host : String
  Port : Int
  Secret : String
deriving DecidableEq, Repr

/-- The struct `config.Task`. -/
structure Task where
  InputPath : String
  OutputPath : String
  Parallel : Int
deriving DecidableEq, Repr

/-- The struct `config.MCS`. -/
structure MCS where
  APIKey : String
  APIToken : String
  Network : String
  BucketName : String
deriving DecidableEq, Repr

/-- The struct `config.Lotus`. -/
structure Lotus where
  NodeApi : String
  Wallet : String
  Timeout : Int
deriving DecidableEq, Repr

/-- The struct `config.Config` (without `DataBase` and `Log`); a nil section is `none`. -/
structure Config where
  Aria2 : Option Aria2
  Task : Option Task
  MCS : Option MCS
  Lotus : Option Lotus
deriving DecidableEq, Repr

/-- What the command line tool asks of the outside world: the library
functions `filepath.Ext`, `strings.EqualFold`, `os.ReadFile`, `json.Unmarshal`
(into `[]*CarInfo` and into `[]*CarDeal`), `csv.Reader.ReadAll`, the line
splitting of `bufio.Scanner`, `toml.DecodeFile` behind `config.Init`, the MCS
SDK calls of `mcs.NewBucketClient`, and the dialling of `lotus.NewClient`. -/
structure CmdEnv where
  Ext : String → String
  EqualFold : String → String → Bool
  ReadFile : String → Except String String
  UnmarshalCarInfos : String → Except String (List CarInfo)
  UnmarshalDeals : String → Except String (List CarDeal)
  CsvReadAll : String → Except String (List (List String))
  ScanLines : String → List String
  ConfigInit : String → Except String Config
  SdkLogin : String → String → String → Option String
  SdkGetBucket : String → Option String
  SdkCreateBucket : String → Option String
  LotusNewClient : String → Int → Except String LotusClient

/-- Function `mcs.NewBucketClient`. -/
def NewBucketClient (cmd : CmdEnv) (key token network bucketName : String) :
    Except String BucketClient :=
  match cmd.SdkLogin key token network with
  | some err => Except.error err
  | none =>
    match cmd.SdkGetBucket bucketName with
    | none => Except.ok { bucketName := bucketName }
    | some _ =>
      match cmd.SdkCreateBucket bucketName with
      | some err => Except.error err
      | none => Except.ok { bucketName := bucketName }

/-- Function `NewRebuilder`; `conf = none` is the nil pointer. -/
def NewRebuilder (cmd : CmdEnv) (conf : Option Config) : Except String Rebuilder :=
  match conf with
  | none => Except.error "conf not be nil"
  | some conf =>
    match conf.Task with
    | none => Except.error "conf not set task"
    | some task =>
      let parallet := if task.Parallel = 0 then 3 else task.Parallel
      match conf.Aria2 with
      | none => Except.error "conf not set aria2"
      | some _ =>
        match conf.MCS with
        | none => Except.error "conf not set mcs"
        | some mcs =>
          match NewBucketClient cmd mcs.APIKey mcs.APIToken mcs.Network mcs.BucketName with
          | Except.error err => Except.error err
          | Except.ok bucketClient =>
            match conf.Lotus with
            | some lotus =>
              match cmd.LotusNewClient lotus.NodeApi lotus.Timeout with
              | Except.error err => Except.error err
              | Except.ok lotusClient =>
                Except.ok
                  { inputPath := task.InputPath, outputPath := task.OutputPath,
                    parallel := parallet, bucketClient := bucketClient,
                    lotusClient := some lotusClient, wallet := lotus.Wallet }
            | none =>
              Except.ok
                { inputPath := task.InputPath, outputPath := task.OutputPath,
                  parallel := parallet, bucketClient := bucketClient,
                  lotusClient := none, wallet := "" }

/-! ## cmd/rebuilder/main.go -/

/-- Function `httpDownloadURL`. -/
def httpDownloadURL (url : String) : Bool :=
  "http://".data.isPrefixOf url.data || "https://".data.isPrefixOf url.data

/-- The loop of `readCarJson` over the decoded records.  The Go map `m` holds,
under each URL seen, the pointer of the element of `carInfos` with that URL:
`m` is kept as its list of keys, and appending to `info.Deals` through the
pointer updates that element. -/
def readCarJson_loop : List CarInfo → List CarInfo → List String → Except String (List CarInfo)
  | [], carInfos, _ => Except.ok carInfos
  | cj :: list, carInfos, m =>
    if !httpDownloadURL cj.CarFileUrl then Except.error "invalid download URL"
    else
      let isNew := decide (cj.CarFileUrl ∉ m)
      let carInfos :=
        if isNew then carInfos ++ [{ CarFileUrl := cj.CarFileUrl, CID := "", Deals := [] }]
        else carInfos
      let m := if isNew then cj.CarFileUrl :: m else m
      let carInfos := carInfos.map (fun info =>
        if info.CarFileUrl = cj.CarFileUrl then { info with Deals := info.Deals ++ cj.Deals }
        else info)
      readCarJson_loop list carInfos m

/-- Function `readCarJson`. -/
def readCarJson (cmd : CmdEnv) (filepath : String) : Except String (List CarInfo) :=
  match cmd.ReadFile filepath with
  | Except.error err => Except.error err
  | Except.ok b =>
    match cmd.UnmarshalCarInfos b with
    | Except.error err => Except.error err
    | Except.ok list => readCarJson_loop list [] []

/-- The constant `filedCarFileURL`. -/
def filedCarFileURL : String := "car_file_url"

/-- The constant `fieldCarDeals`. -/
def fieldCarDeals : String := "deals"

/-- The constant `filedPayloadCid`. -/
def filedPayloadCid : String := "pay_load_cid"

/-- Lookup `colMap[name]` after `colMap[field] = i` has been run over the
header from index `i` on: the last column with that name. -/
def colMapGet (name : String) : List String → Nat → Option Nat
  | [], _ => none
  | field :: fields, i =>
    match colMapGet name fields (i + 1) with
    | some j => some j
    | none => if field = name then some i else none

/-- The value that `info.CID = fields[col]` assigns in `readCarCsv`, `none`
when the header has no column `pay_load_cid`.  An index out of range (a
run-time panic) is reported as an error. -/
def readCarCsv_cid (header fields : List String) : Except String (Option String) :=
  match colMapGet filedPayloadCid header 0 with
  | none => Except.ok none
  | some col =>
    match fields[col]? with
    | none => Except.error "panic: index out of range"
    | some v => Except.ok (some v)

/-- The deals that `readCarCsv` decodes from the column `deals` of a row: none
when the column is missing or empty. -/
def readCarCsv_deals (cmd : CmdEnv) (header fields : List String) :
    Except String (List CarDeal) :=
  match colMapGet fieldCarDeals header 0 with
  | none => Except.ok []
  | some col =>
    match fields[col]? with
    | none => Except.error "panic: index out of range"
    | some v => if v ≠ "" then cmd.UnmarshalDeals v else Except.ok []

/-- The loop of `readCarCsv` over the data rows.  A missing key of `colMap`
reads as 0; an index out of range (a run-time panic) is reported as an error. -/
def readCarCsv_loop (cmd : CmdEnv) (header : List String) :
    List (List String) → List CarInfo → List String → Except String (List CarInfo)
  | [], carInfos, _ => Except.ok carInfos
  | fields :: records, carInfos, m =>
    match fields[(colMapGet filedCarFileURL header 0).getD 0]? with
    | none => Except.error "panic: index out of range"
    | some carURL =>
      if !httpDownloadURL carURL then Except.error "invalid download URL"
      else
        let isNew := decide (carURL ∉ m)
        let carInfos :=
          if isNew then carInfos ++ [{ CarFileUrl := carURL, CID := "", Deals := [] }]
          else carInfos
        let m := if isNew then carURL :: m else m
        match readCarCsv_cid header fields with
        | Except.error err => Except.error err
        | Except.ok cid =>
          let carInfos := carInfos.map (fun info =>
            if info.CarFileUrl = carURL then { info with CID := cid.getD info.CID }
            else info)
          match readCarCsv_deals cmd header fields with
          | Except.error err => Except.error err
          | Except.ok deals =>
            let carInfos := carInfos.map (fun info =>
              if info.CarFileUrl = carURL then { info with Deals := info.Deals ++ deals }
              else info)
            readCarCsv_loop cmd header records carInfos m

/-- Library function `strings.Split(line, ",")` on the characters of the line. -/
def splitComma : List Char → List (List Char)
  | [] => [[]]
  | c :: cs =>
    if c = ',' then [] :: splitComma cs
    else
      match splitComma cs with
      | field :: fields => (c :: field) :: fields
      | [] => [[c]]

/-- The text before the first comma and the text after it (`strings.Index`
and the two slices of the line); `none` when there is no comma. -/
def cutComma : List Char → Option (List Char × List Char)
  | [] => none
  | c :: cs =>
    if c = ',' then some ([], cs)
    else
      match cutComma cs with
      | some (field, rest) => some (c :: field, rest)
      | none => none

/-- The loop `for i := 0; i < colsCount; i++` of `readRawCSVFile` on one data
line, with `n = colsCount - i` columns still to fill and `rest = line[index:]`:
the columns `i, i+1, ...` of `cols`.  After a `break` the columns keep the
empty string that `make` gave them. -/
def readRawCSVFile_cols : Nat → List Char → List String
  | 0, _ => []
  | 1, rest => [String.mk rest]
  | n + 2, rest =>
    match cutComma rest with
    | none => List.replicate (n + 2) ""
    | some (field, rest') => String.mk field :: readRawCSVFile_cols (n + 1) rest'

/-- The loop `for scanner.Scan()` of `readRawCSVFile` over the scanned lines. -/
def readRawCSVFile_lines : List String → List (List String) → Nat → List (List String)
  | [], records, _ => records
  | line :: lines, records, colsCount =>
    if records.length = 0 then
      let cols := (splitComma line.data).map String.mk
      readRawCSVFile_lines lines (records ++ [cols]) cols.length
    else
      readRawCSVFile_lines lines (records ++ [readRawCSVFile_cols colsCount line.data])
        colsCount

/-- Function `readRawCSVFile`. -/
def readRawCSVFile (cmd : CmdEnv) (b : String) : List (List String) :=
  readRawCSVFile_lines (cmd.ScanLines b) [] 0

/-- Function `ReadCSVFile`. -/
def ReadCSVFile (cmd : CmdEnv) (filepath : String) : Except String (List (List String)) :=
  match cmd.ReadFile filepath with
  | Except.error err => Except.error err
  | Except.ok b =>
    match cmd.CsvReadAll b with
    | Except.error _ => Except.ok (readRawCSVFile cmd b)
    | Except.ok records => Except.ok records

/-- Function `readCarCsv`. -/
def readCarCsv (cmd : CmdEnv) (filepath : String) : Except String (List CarInfo) :=
  match ReadCSVFile cmd filepath with
  | Except.error err => Except.error err
  | Except.ok records =>
    match records with
    | [] => Except.ok []
    | header :: rows =>
      match colMapGet filedCarFileURL header 0 with
      | none => Except.error ("not found column " ++ filedCarFileURL)
      | some _ => readCarCsv_loop cmd header rows [] []

/-- Function `readCarFile`. -/
def readCarFile (cmd : CmdEnv) (path : String) : Except String (List CarInfo) :=
  let format := cmd.Ext path
  if cmd.EqualFold format ".csv" then readCarCsv cmd path
  else if cmd.EqualFold format ".json" then readCarJson cmd path
  else Except.error ("not supported file format :" ++ format)

/-- The constant `defaultConfPath` of main.go. -/
def defaultConfPath : String := "./rebuilder.conf"

/-- The flags and arguments that the action of `buildCmd` reads from `cli.Context`. -/
structure BuildContext where
  file : String
  conf : String
  name : String
  lotusNode : String
  wallet : String
  timeout : Int
  savePath : String
  args : List String
deriving DecidableEq, Repr

/-- Lines 114-133 of the action of `buildCmd`: the artifacts read from the
records file and the URLs that will be passed to `Build`. -/
def buildCmd_carURLs (cmd : CmdEnv) (ctx : BuildContext) :
    Except String (List CarInfo × List String) :=
  if ctx.file = "" ∧ ctx.args.length = 0 then Except.error "file or download urls is required"
  else
    match (if ctx.file ≠ "" then readCarFile cmd ctx.file else Except.ok []) with
    | Except.error err => Except.error err
    | Except.ok carInfos =>
      let carURLs := carInfos.foldl
        (fun carURLs info =>
          if info.CarFileUrl ≠ "" then carURLs ++ [info.CarFileUrl] else carURLs) ctx.args
      if carURLs.length = 0 then Except.error "no valid car urls"
      else Except.ok (carInfos, carURLs)

/-- The assignment `conf.Lotus.NodeApi = lotusNode`; `none` is the nil
dereference when the section `lotus` is missing. -/
def setLotusNode (conf : Config) (lotusNode : String) : Option Config :=
  if lotusNode ≠ "" then
    match conf.Lotus with
    | none => none
    | some lotus => some { conf with Lotus := some { lotus with NodeApi := lotusNode } }
  else some conf

/-- The assignment `conf.Lotus.Timeout = timeout`; `none` is the nil dereference. -/
def setLotusTimeout (conf : Config) (timeout : Int) : Option Config :=
  if timeout > 0 then
    match conf.Lotus with
    | none => none
    | some lotus => some { conf with Lotus := some { lotus with Timeout := timeout } }
  else some conf

/-- Lines 136-152 of the action of `buildCmd`: the configuration is read, the
lotus flags are applied and the rebuilder is made; `none` is a run-time panic. -/
def buildCmd_rebuilder (cmd : CmdEnv) (ctx : BuildContext) (confPath : String) :
    Option (Except String Rebuilder) :=
  match cmd.ConfigInit confPath with
  | Except.error err => some (Except.error err)
  | Except.ok conf =>
    match setLotusNode conf ctx.lotusNode with
    | none => none
    | some conf =>
      match setLotusTimeout conf ctx.timeout with
      | none => none
      | some conf => some (NewRebuilder cmd (some conf))

/-- Lines 153-172 of the action of `buildCmd`: what is returned after `Build`
has returned `built`. -/
def buildCmd_finish (env : Env) (rebuilder : Rebuilder) (ctx : BuildContext)
    (carInfos : List CarInfo) (built : (String × Option String) × List Call) :
    Option String × List Call :=
  match built.1.2 with
  | none => (none, built.2)
  | some err =>
    match carInfos with
    | first :: _ =>
      if first.Deals.length > 0 then
        let name := if ctx.name = "" then env.Base ctx.file else ctx.name
        let retrieved := Retrieve env rebuilder name carInfos ctx.wallet [] built.2
        (retrieved.1.2, retrieved.2)
      else (some err, built.2)
    | [] => (some err, built.2)

/-- The action of `buildCmd`: the error it returns and the trace; `none` when
it panics or the schedule does not bring the download to return. -/
def buildCmd_Action (env : Env) (cmd : CmdEnv) (ctx : BuildContext) (sched : List Event)
    (t : List Call) : Option (Option String × List Call) :=
  let confPath := if ctx.conf = "" then defaultConfPath else ctx.conf
  if confPath = "" then some (some "need run init before build", t)
  else
    match buildCmd_carURLs cmd ctx with
    | Except.error err => some (some err, t)
    | Except.ok read =>
      match buildCmd_rebuilder cmd ctx confPath with
      | none => none
      | some (Except.error err) => some (some err, t)
      | some (Except.ok rebuilder) =>
        match Build env rebuilder ctx.name read.2 sched t with
        | none => none
        | some built => some (buildCmd_finish env rebuilder ctx read.1 built)

/-- Library function `filepath.Base` for slash-separated paths: trailing
slashes are dropped and the text after the last slash is returned; the empty
path gives `.` and a path of slashes only gives `/`. -/
def filepathBase (path : String) : String :=
  if path = "" then "."
  else
    let stripped := (path.data.reverse.dropWhile (fun c => c = '/')).reverse
    let last := (stripped.reverse.takeWhile (fun c => c ≠ '/')).reverse
    if last = [] then "/" else String.mk last

/-- The file name that `downloadFile` asks the agent to write for `fileURL`. -/
def downloadFile_name (env : Env) (fileURL : String) : String :=
  env.Base fileURL ++ ".car"

/-- The world of `exampleEnv` with `filepath.Base` as the library defines it. -/
def baseEnv : Env :=
  { exampleEnv with Base := filepathBase }

/-- A command-line world: the records file decodes to two records, of which
only the second carries a deal; the configuration asks for 3 parallel jobs. -/
def exampleCmd : CmdEnv where
  Ext := fun _ => ".json"
  EqualFold := fun a b => a == b
  ReadFile := fun _ => Except.ok "[...]"
  UnmarshalCarInfos := fun _ =>
    Except.ok
      [⟨"http://host/a.car", "bafy-a", []⟩,
       ⟨"http://host/b.car", "bafy-b", [⟨1, "deal-1", "f01"⟩]⟩]
  UnmarshalDeals := fun _ => Except.ok []
  CsvReadAll := fun _ => Except.error "bare quote"
  ScanLines := fun _ => ["a,b,c", "x,y"]
  ConfigInit := fun _ =>
    Except.ok
      { Aria2 := some ⟨"localhost", 6800, ""⟩, Task := some ⟨"in", "out", 3⟩,
        MCS := some ⟨"key", "token", "polygon.mainnet", "bucket"⟩,
        Lotus := some ⟨"node", "wallet", 60⟩ }
  SdkLogin := fun _ _ _ => none
  SdkGetBucket := fun _ => none
  SdkCreateBucket := fun _ => none
  LotusNewClient := fun nodeApi _ => Except.ok ⟨nodeApi⟩

/-- A build request that names a records file and no URL. -/
def exampleContext : BuildContext :=
  { file := "cars.json", conf := "", name := "name", lotusNode := "", wallet := "",
    timeout := 0, savePath := "", args := [] }

/-- A build request that names the records file and repeats one of its URLs
on the command line. -/
def duplicateContext : BuildContext :=
  { exampleContext with args := ["http://host/a.car"] }

/-- The URLs of the artifacts read from the records file. -/
def fileURLsOf (carInfos : List CarInfo) : List String :=
  carInfos.map (fun info => info.CarFileUrl)

/-- Invariant of the loops of `readCarJson` and `readCarCsv`: the artifacts
have pairwise different URLs and the keys of `m` are these URLs. -/
def ReadInv (carInfos : List CarInfo) (m : List String) : Prop :=
  (fileURLsOf carInfos).Nodup ∧ ∀ u, u ∈ m ↔ u ∈ fileURLsOf carInfos

/-- A command-line world whose records file decodes to one record with a
content address and a deal. -/
def oneRecordCmd : CmdEnv :=
  { exampleCmd with
    UnmarshalCarInfos := fun _ =>
      Except.ok [⟨"http://host/b.car", "bafy-b", [⟨1, "deal-1", "f01"⟩]⟩] }

/-- A command-line world whose configuration asks for -1 parallel jobs. -/
def negativeParallelCmd : CmdEnv :=
  { exampleCmd with
    ConfigInit := fun _ =>
      Except.ok
        { Aria2 := some ⟨"localhost", 6800, ""⟩, Task := some ⟨"in", "out", -1⟩,
          MCS := some ⟨"key", "token", "polygon.mainnet", "bucket"⟩,
          Lotus := some ⟨"node", "wallet", 60⟩ } }

/-- The configuration of `negativeParallelCmd`. -/
def negativeParallelConfig : Config :=
  { Aria2 := some ⟨"localhost", 6800, ""⟩, Task := some ⟨"in", "out", -1⟩,
    MCS := some ⟨"key", "token", "polygon.mainnet", "bucket"⟩,
    Lotus := some ⟨"node", "wallet", 60⟩ }

/-- The configuration of `exampleCmd`, with `parallel` left at 0. -/
def defaultParallelConfig : Config :=
  { Aria2 := some ⟨"localhost", 6800, ""⟩, Task := some ⟨"in", "out", 0⟩,
    MCS := some ⟨"key", "token", "polygon.mainnet", "bucket"⟩,
    Lotus := some ⟨"node", "wallet", 60⟩ }

/-- A command-line world whose records file is a CSV table of two artifacts:
the first has no deal, the second has one. -/
def csvCmd : CmdEnv :=
  { exampleCmd with
    Ext := fun _ => ".csv"
    CsvReadAll := fun _ =>
      Except.ok
        [["car_file_url", "pay_load_cid", "deals"],
         ["http://host/a.car", "bafy-a", ""],
         ["http://host/b.car", "bafy-b", "[deal-1]"]]
    UnmarshalDeals := fun _ => Except.ok [⟨1, "deal-1", "f01"⟩] }

/-- A build request that names the CSV records file. -/
def csvContext : BuildContext :=
  { exampleContext with file := "cars.csv" }

/-- A command-line world whose CSV records file holds one artifact with a deal. -/
def oneRowCsvCmd : CmdEnv :=
  { csvCmd with
    CsvReadAll := fun _ =>
      Except.ok
        [["car_file_url", "pay_load_cid", "deals"],
         ["http://host/b.car", "bafy-b", "[deal-1]"]] }

/-- The trace of `Build` for the single source `http://host/b.car` whose start
the agent rejects. -/
def rejectedTrace : List Call :=
  [Call.mkdirAll "out/name" none, Call.mkdirAll "in/name" none, Call.stat "in/name" true none,
    Call.downloadFile "http://host/b.car" "in/name" "http://host/b.car.car" "" (some "rejected")]

/-! ## Invariants for a download that returns nil -/

/-- A start call that the agent rejected. -/
def isStartFailure : Call → Bool
  | Call.downloadFile _ _ _ _ (some _) => true
  | _ => false

/-- The sending goroutine has passed `feedIdx` sources; each of them is still
in `preChan` or has been taken for a start call. -/
def FeedInv (s : Downloader) : Prop :=
  s.feedIdx = s.preChan.length + startedCount s.trace + s.trace.countP isStartFailure ∧
  s.feedIdx ≤ s.fileURLs.length

/-- When the loop has returned nil, no started job is tracked any more and
`total` is 0. -/
def DoneInv (s : Downloader) : Prop :=
  s.pc = PC.returned none → inflight s = 0 ∧ s.total = 0

/-- While nothing has failed, every occurrence of the key `u` among the
submitted sources has either been marked succeeded or is still ahead of it. -/
def CountInv (u : String) (s : Downloader) : Prop :=
  (∀ c ∈ s.trace, failureErr c = none) →
    s.trace.countP (isSuccessOf u) + liveCount s u = s.fileURLs.count u

/-- While nothing has failed, the record of `u` has a nil `Err`, and its
`Status` is 1 exactly when `u` has been marked succeeded. -/
def RecordInv (u : String) (s : Downloader) : Prop :=
  (∀ c ∈ s.trace, failureErr c = none) →
    ∀ info, mapGet s.statusMap u = some info →
      (info.Status = 1 ↔ 1 ≤ s.trace.countP (isSuccessOf u)) ∧ info.Err = none

/-- Every submitted source has a record in the status map. -/
def DomainInv (u : String) (s : Downloader) : Prop :=
  u ∈ s.fileURLs → (mapGet s.statusMap u).isSome = true

/-! # Theorems -/

/-! ## Invariants of the scheduler loop -/

theorem run_preserves (env : Env) (P : Downloader → Prop)
    (hstep : ∀ s s' e, step env s e = some s' → P s → P s') :
    ∀ (evs : List Event) (s s' : Downloader), run env s evs = some s' → P s → P s' := by
  intro evs
  induction evs with
  | nil => intro s s' h hp; simp [run] at h; subst h; exact hp
  | cons e es ih =>
    intro s s' h hp
    simp only [run] at h
    cases hs : step env s e with
    | none => simp [hs] at h
    | some s1 =>
      simp [hs] at h
      exact ih s1 s' h (hstep s s1 e hs hp)

theorem init_SchedInv (N : Int) (d : Downloader) (dirPath : String) (fileURLs : List String)
    (hd : NewDownloader N = some d) :
    SchedInv (DownloadFiles_init d dirPath fileURLs [Call.stat dirPath true none]) := by
  unfold NewDownloader at hd
  split at hd
  · simp at hd
  · cases hd
    simp [SchedInv, DownloadFiles_init, inflight, pcKeys, waiting, startedCount, succeededCount,
      failedCount, isStarted, isSucceeded, isFailed]

theorem step_SchedInv (env : Env) (s s' : Downloader) (e : Event)
    (h : step env s e = some s') (hi : SchedInv s) : SchedInv s' := by
  unfold SchedInv at hi ⊢
  cases e <;> simp only [step] at h
  case feed =>
    split at h
    · simp at h
    · split at h
      · simp at h
      · split at h
        · cases h; simpa [inflight, pcKeys, waiting] using hi
        · simp at h
  case feederExit =>
    split at h
    · simp at h
    · split at h
      · cases h; simpa [inflight, pcKeys, waiting] using hi
      · simp at h
  case recvFinish =>
    split at h
    · rename_i hc
      obtain ⟨hpc, htok⟩ := hc
      simp only [doReturn] at h
      split at h
      · split at h <;> cases h <;> simp [inflight, pcKeys, waiting, hpc] at hi ⊢ <;> omega
      · cases h; simp [inflight, pcKeys, waiting, hpc] at hi ⊢; omega
    · simp at h
  case recvPre gid err =>
    split at h
    · rename_i hpc
      split at h
      · simp at h
      · split at h
        · cases h; simp [inflight, pcKeys, waiting, hpc] at hi ⊢; omega
        · simp only [doReturn] at h
          cases err with
          | none =>
            simp at h; cases h
            simp [inflight, pcKeys, waiting, hpc, startedCount, succeededCount, failedCount,
              downloadFile, isStarted, isSucceeded, isFailed, List.countP_append] at hi ⊢
            omega
          | some e =>
            simp at h
            split at h <;> cases h <;>
            simp [inflight, pcKeys, waiting, hpc, startedCount, succeededCount, failedCount,
              downloadFile, isStarted, isSucceeded, isFailed, List.countP_append] at hi ⊢ <;>
            omega
    · simp at h
  case sendIn =>
    split at h
    · rename_i key hpc
      split at h
      · cases h; simp [inflight, pcKeys, waiting, hpc] at hi ⊢; omega
      · simp at h
    · simp at h
  case recvIn ok err =>
    split at h
    · rename_i hpc
      split at h
      · simp at h
      · rename_i key rest hin
        split at h
        · cases h; simp [inflight, pcKeys, waiting, hpc, hin] at hi ⊢; omega
        · simp only [doReturn] at h
          cases ok <;> cases err <;> simp at h <;> (try split at h) <;> cases h <;>
            simp [inflight, pcKeys, waiting, hpc, hin, startedCount, succeededCount, failedCount,
              isStarted, isSucceeded, isFailed, List.countP_append] at hi ⊢ <;> omega
    · simp at h
  case tick =>
    split at h
    · rename_i hpc
      cases h; simp [inflight, pcKeys, waiting, hpc] at hi ⊢; omega
    · simp at h
  case tickSend =>
    split at h
    · rename_i hpc
      cases h; simp [inflight, pcKeys, waiting, hpc] at hi ⊢; omega
    · rename_i key rest hpc
      split at h
      · cases h; simp [inflight, pcKeys, waiting, hpc] at hi ⊢; omega
      · simp at h
    · simp at h
  case recvExit =>
    split at h
    · rename_i hc
      cases h; simp [inflight, pcKeys, waiting, hc.1] at hi ⊢; omega
    · simp at h



theorem step_TotalInv (env : Env) (M : Nat) (s s' : Downloader) (e : Event)
    (h : step env s e = some s') (hi : TotalInv M s) : TotalInv M s' := by
  unfold TotalInv at hi ⊢
  cases e <;> simp only [step] at h
  case feed =>
    split at h
    · simp at h
    · split at h
      · simp at h
      · split at h
        · cases h; simpa [inflight, pcKeys, waiting] using hi
        · simp at h
  case feederExit =>
    split at h
    · simp at h
    · split at h
      · cases h; simpa [inflight, pcKeys, waiting] using hi
      · simp at h
  case recvFinish =>
    split at h
    · rename_i hc
      obtain ⟨hpc, htok⟩ := hc
      simp only [doReturn] at h
      split at h
      · split at h <;> cases h <;> simp [inflight, pcKeys, waiting, hpc] at hi ⊢ <;> omega
      · cases h; simp [inflight, pcKeys, waiting, hpc] at hi ⊢; omega
    · simp at h
  case recvPre gid err =>
    split at h
    · rename_i hpc
      split at h
      · simp at h
      · split at h
        · cases h; simp [inflight, pcKeys, waiting, hpc] at hi ⊢; omega
        · simp only [doReturn] at h
          cases err with
          | none =>
            simp at h; cases h
            simp [inflight, pcKeys, waiting, hpc, startedCount, succeededCount, failedCount,
              downloadFile, isStarted, isSucceeded, isFailed, List.countP_append] at hi ⊢
            omega
          | some e =>
            simp at h
            split at h <;> cases h <;>
            simp [inflight, pcKeys, waiting, hpc, startedCount, succeededCount, failedCount,
              downloadFile, isStarted, isSucceeded, isFailed, List.countP_append] at hi ⊢ <;>
            omega
    · simp at h
  case sendIn =>
    split at h
    · rename_i key hpc
      split at h
      · cases h; simp [inflight, pcKeys, waiting, hpc] at hi ⊢; omega
      · simp at h
    · simp at h
  case recvIn ok err =>
    split at h
    · rename_i hpc
      split at h
      · simp at h
      · rename_i key rest hin
        split at h
        · cases h; simp [inflight, pcKeys, waiting, hpc, hin] at hi ⊢; omega
        · simp only [doReturn] at h
          cases ok <;> cases err <;> simp at h <;> (try split at h) <;> cases h <;>
            simp [inflight, pcKeys, waiting, hpc, hin, startedCount, succeededCount, failedCount,
              isStarted, isSucceeded, isFailed, List.countP_append] at hi ⊢ <;> omega
    · simp at h
  case tick =>
    split at h
    · rename_i hpc
      cases h; simp [inflight, pcKeys, waiting, hpc] at hi ⊢; omega
    · simp at h
  case tickSend =>
    split at h
    · rename_i hpc
      cases h; simp [inflight, pcKeys, waiting, hpc] at hi ⊢; omega
    · rename_i key rest hpc
      split at h
      · cases h; simp [inflight, pcKeys, waiting, hpc] at hi ⊢; omega
      · simp at h
    · simp at h
  case recvExit =>
    split at h
    · rename_i hc
      cases h; simp [inflight, pcKeys, waiting, hc.1] at hi ⊢; omega
    · simp at h




theorem init_TotalInv (d : Downloader) (dirPath : String) (fileURLs : List String) :
    TotalInv fileURLs.length
      (DownloadFiles_init d dirPath fileURLs [Call.stat dirPath true none]) := by
  simp [TotalInv, DownloadFiles_init, succeededCount, isSucceeded]

theorem failureErr_append_none (t : List Call) (c : Call)
    (h : ∀ c' ∈ t, failureErr c' = none) (hc : failureErr c = none) :
    ∀ c' ∈ t ++ [c], failureErr c' = none := by
  intro c' hc'
  rcases List.mem_append.1 hc' with h1 | h1
  · exact h c' h1
  · simp at h1; subst h1; exact hc

theorem FailFastInv_running (s : Downloader) (hpc : ∀ e, s.pc ≠ PC.returned e)
    (hi : FailFastInv s) : s.exitClosed = false ∧ ∀ c ∈ s.trace, failureErr c = none := by
  rcases hi with h | ⟨h1, _⟩ | ⟨_, _, e, _, _, _, h1⟩
  · exact h
  · exact absurd h1 (hpc _)
  · exact absurd h1 (hpc _)

theorem step_FailFastInv (env : Env) (s s' : Downloader) (e : Event)
    (h : step env s e = some s') (hi : FailFastInv s) : FailFastInv s' := by
  cases e <;> simp only [step] at h
  case feed =>
    split at h
    · simp at h
    · split at h
      · simp at h
      · split at h
        · cases h; simpa [FailFastInv] using hi
        · simp at h
  case feederExit =>
    split at h
    · simp at h
    · split at h
      · cases h; simpa [FailFastInv] using hi
      · simp at h
  case recvFinish =>
    split at h
    · rename_i hc
      obtain ⟨hpc, htok⟩ := hc
      simp only [doReturn] at h
      split at h
      · split at h <;> cases h <;> simp_all [FailFastInv]
      · cases h; simp_all [FailFastInv]
    · simp at h
  case recvPre gid err =>
    split at h
    · rename_i hpc
      split at h
      · simp at h
      · split at h
        · cases h; simp_all [FailFastInv]
        · simp only [doReturn] at h
          have hr := FailFastInv_running s (by simp [hpc]) hi
          cases err with
          | none =>
            simp at h; cases h
            exact Or.inl ⟨hr.1, failureErr_append_none _ _ hr.2 rfl⟩
          | some e =>
            simp [hr.1] at h
            cases h
            exact Or.inr (Or.inr ⟨s.trace, _, e, rfl, hr.2, rfl, rfl⟩)
    · simp at h
  case sendIn =>
    split at h
    · rename_i key hpc
      split at h
      · cases h; simp_all [FailFastInv]
      · simp at h
    · simp at h
  case recvIn ok err =>
    split at h
    · rename_i hpc
      split at h
      · simp at h
      · rename_i key rest hin
        split at h
        · cases h; simp_all [FailFastInv]
        · simp only [doReturn] at h
          have hr := FailFastInv_running s (by simp [hpc]) hi
          cases err with
          | none =>
            cases ok <;> simp at h <;> cases h <;>
              exact Or.inl ⟨hr.1, failureErr_append_none _ _ hr.2 rfl⟩
          | some e =>
            simp [hr.1] at h
            cases h
            exact Or.inr (Or.inr ⟨s.trace, _, e, rfl, hr.2, rfl, rfl⟩)
    · simp at h
  case tick =>
    split at h
    · rename_i hpc
      cases h; simp_all [FailFastInv]
    · simp at h
  case tickSend =>
    split at h
    · rename_i hpc
      cases h; simp_all [FailFastInv]
    · rename_i key rest hpc
      split at h
      · cases h; simp_all [FailFastInv]
      · simp at h
    · simp at h
  case recvExit =>
    split at h
    · rename_i hc
      cases h; simp_all [FailFastInv]
    · simp at h


theorem mapGet_mapModify (m : List (String × DownloadInfo)) (k u : String)
    (f : DownloadInfo → DownloadInfo) :
    mapGet (mapModify m k f) u = if u = k then (mapGet m u).map f else mapGet m u := by
  induction m with
  | nil => simp [mapGet, mapModify]
  | cons p m ih =>
    obtain ⟨a, b⟩ := p
    simp only [mapGet, mapModify, List.map_cons] at ih ⊢
    by_cases hak : a = k
    · rw [if_pos hak, List.lookup_cons, List.lookup_cons]
      by_cases hua : u = a
      · subst hua
        subst hak
        simp
      · have h1 : (u == a) = false := by simpa using hua
        simp only [h1]
        exact ih
    · rw [if_neg hak, List.lookup_cons, List.lookup_cons]
      by_cases hua : u = a
      · have h1 : (u == a) = true := by simpa using hua
        have h2 : ¬ u = k := by rw [hua]; exact hak
        simp [h1, h2]
      · have h1 : (u == a) = false := by simpa using hua
        simp only [h1]
        exact ih

theorem statusOf_mapModify_same (m : List (String × DownloadInfo))
    (k u : String) (f : DownloadInfo → DownloadInfo) (hf : ∀ i, (f i).Status = i.Status) :
    (mapGet (mapModify m k f) u).map (fun info => info.Status) =
      (mapGet m u).map (fun info => info.Status) := by
  rw [mapGet_mapModify]
  split
  · cases mapGet m u <;> simp [hf]
  · rfl

theorem drop_of_getElem? (l : List String) (i : Nat) (x : String) (h : l[i]? = some x) :
    l.drop i = x :: l.drop (i + 1) := by
  induction l generalizing i with
  | nil => simp at h
  | cons a l ih =>
    cases i with
    | zero => simp at h; simp [h]
    | succ i => simp at h; simpa using ih i h

theorem NoPollAfterSuccess_append (u : String) (t : List Call) (c : Call)
    (h : NoPollAfterSuccess u t)
    (hc : t.countP (isSuccessOf u) = 0 ∨ isPollOf u c = false) :
    NoPollAfterSuccess u (t ++ [c]) := by
  intro pre c0 post heq hs c' hc'
  rcases List.eq_nil_or_concat post with hp | ⟨post0, x, hp⟩
  · subst hp; simp at hc'
  · rw [List.concat_eq_append] at hp
    subst hp
    have heq' : t ++ [c] = (pre ++ c0 :: post0) ++ [x] := by simpa using heq
    have hinj := List.append_inj' heq' rfl
    obtain ⟨ht, hx⟩ := hinj
    simp at hx
    subst hx
    rcases List.mem_append.1 hc' with h1 | h1
    · exact h pre c0 post0 ht hs c' h1
    · simp at h1
      subst h1
      rcases hc with hc | hc
      · exfalso
        rw [List.countP_eq_zero] at hc
        exact hc c0 (by rw [ht]; simp) hs
      · exact hc


theorem step_JobInv (env : Env) (u : String) (s s' : Downloader) (e : Event)
    (h : step env s e = some s') (hi : JobInv u s) : JobInv u s' := by
  obtain ⟨h1, h2, h3⟩ := hi
  cases e <;> simp only [step] at h
  case feed =>
    split at h
    · simp at h
    · split at h
      · simp at h
      · rename_i fileURL hget
        split at h
        · cases h
          refine ⟨?_, h2, h3⟩
          have hd := drop_of_getElem? _ _ _ hget
          simp only [liveCount, pcKeys, hd, List.count_cons, List.count_append, List.count_nil]
            at h1 ⊢
          omega
        · simp at h
  case feederExit =>
    split at h
    · simp at h
    · split at h
      · cases h; exact ⟨h1, h2, h3⟩
      · simp at h
  case recvFinish =>
    split at h
    · rename_i hc
      obtain ⟨hpc, htok⟩ := hc
      simp only [doReturn] at h
      split at h
      · split at h <;> cases h <;> refine ⟨?_, h2, h3⟩ <;>
          simpa [liveCount, pcKeys, hpc] using h1
      · cases h; refine ⟨?_, h2, h3⟩; simpa [liveCount, pcKeys, hpc] using h1
    · simp at h
  case recvPre gid err =>
    split at h
    · rename_i hpc
      split at h
      · simp at h
      · rename_i key rest hpre
        split at h
        · cases h
          refine ⟨?_, h2, h3⟩
          simpa [liveCount, pcKeys, hpc] using h1
        · rename_i info hget
          have hcnt : (s.trace ++ [downloadFile env info.DirPath info.FileURL gid err]).countP
              (isSuccessOf u) = s.trace.countP (isSuccessOf u) := by
            simp [List.countP_append, downloadFile, isSuccessOf]
          have hst : ∀ m : List (String × DownloadInfo),
              (mapGet (mapModify m key (fun i => { i with Gid := gid, Err := err })) u).map
                (fun info => info.Status) = (mapGet m u).map (fun info => info.Status) :=
            fun m => statusOf_mapModify_same m key u _ (fun _ => rfl)
          have hnp : NoPollAfterSuccess u
              (s.trace ++ [downloadFile env info.DirPath info.FileURL gid err]) :=
            NoPollAfterSuccess_append u _ _ h3 (Or.inr rfl)
          have hlive : (List.drop s.feedIdx s.fileURLs).count u + rest.count u +
              s.temp.count u + s.inChan.count u + (if key = u then 1 else 0)
                = liveCount s u := by
            simp only [liveCount, pcKeys, hpc, hpre, List.count_cons, beq_iff_eq]
            omega
          simp only [doReturn] at h
          split at h
          · split at h <;> cases h <;>
            · refine ⟨?_, ?_, hnp⟩
              · simp only [liveCount, pcKeys, hcnt]
                split_ifs at hlive <;> omega
              · simp only [statusOf, hst, hcnt]; exact h2
          · cases h
            refine ⟨?_, ?_, hnp⟩
            · simp only [liveCount, pcKeys, hcnt, List.count_cons, beq_iff_eq]
              split_ifs at hlive ⊢ <;> omega
            · simp only [statusOf, hst, hcnt]; exact h2
    · simp at h
  case sendIn =>
    split at h
    · rename_i key hpc
      split at h
      · cases h
        refine ⟨?_, h2, h3⟩
        simp only [liveCount, pcKeys, hpc, List.count_cons, List.count_append, List.count_nil]
          at h1 ⊢
        omega
      · simp at h
    · simp at h
  case tick =>
    split at h
    · rename_i hpc
      cases h; refine ⟨?_, h2, h3⟩; simpa [liveCount, pcKeys, hpc] using h1
    · simp at h
  case tickSend =>
    split at h
    · rename_i hpc
      cases h; refine ⟨?_, h2, h3⟩
      simp only [liveCount, pcKeys, hpc, List.count_nil] at h1 ⊢
      omega
    · rename_i key rest hpc
      split at h
      · cases h; refine ⟨?_, h2, h3⟩
        simp only [liveCount, pcKeys, hpc, List.count_cons, List.count_append, List.count_nil]
          at h1 ⊢
        omega
      · simp at h
    · simp at h
  case recvExit =>
    split at h
    · rename_i hc
      cases h; refine ⟨?_, h2, h3⟩; simpa [liveCount, pcKeys, hc.1] using h1
    · simp at h
  case recvIn ok err =>
    split at h
    · rename_i hpc
      split at h
      · simp at h
      · rename_i key rest hin
        split at h
        · cases h; refine ⟨?_, h2, h3⟩; simpa [liveCount, pcKeys, hpc] using h1
        · rename_i info hget
          have hlive : (List.drop s.feedIdx s.fileURLs).count u + s.preChan.count u +
              s.temp.count u + rest.count u + (if key = u then 1 else 0)
                = liveCount s u := by
            simp only [liveCount, pcKeys, hpc, hin, List.count_cons, beq_iff_eq]
            omega
          have hzero : key = u → s.trace.countP (isSuccessOf u) = 0 := by
            intro hk
            rw [if_pos hk] at hlive
            omega
          have hnp : NoPollAfterSuccess u (s.trace ++ [Call.downloadStatus key info.Gid ok err]) := by
            apply NoPollAfterSuccess_append u _ _ h3
            by_cases hk : key = u
            · exact Or.inl (hzero hk)
            · right; simpa [isPollOf] using hk
          simp only [doReturn] at h
          cases err with
          | some e =>
            have hcnt : (s.trace ++ [Call.downloadStatus key info.Gid ok (some e)]).countP
                (isSuccessOf u) = s.trace.countP (isSuccessOf u) := by
              cases ok <;> simp [List.countP_append, isSuccessOf]
            have hst : (mapGet (mapModify s.statusMap key
                (fun i => { i with Status := -1, Err := some e })) u).map
                  (fun info => info.Status) = some 1 ↔
                s.trace.countP (isSuccessOf u) = 1 := by
              by_cases hk : key = u
              · have hz := hzero hk
                subst hk
                simp only [mapGet_mapModify, if_true, hget, hz]
                simp
              · have hk' : ¬ u = key := fun h => hk h.symm
                simp only [mapGet_mapModify, if_neg hk']
                exact h2
            simp only [Option.isSome_some, Bool.and_false, Option.isNone_some] at h
            simp only [Bool.false_eq_true, if_false, if_true] at h
            split at h <;> cases h <;>
            · refine ⟨?_, ?_, hnp⟩
              · simp only [liveCount, pcKeys, hcnt, hpc]
                split_ifs at hlive <;> omega
              · simp only [statusOf, hcnt]; exact hst
          | none =>
            cases ok with
            | false =>
              simp at h
              cases h
              have hcnt : (s.trace ++ [Call.downloadStatus key info.Gid false none]).countP
                  (isSuccessOf u) = s.trace.countP (isSuccessOf u) := by
                simp [List.countP_append, isSuccessOf]
              refine ⟨?_, ?_, hnp⟩
              · simp only [liveCount, pcKeys, hcnt, hpc, List.count_append, List.count_cons,
                  List.count_nil, beq_iff_eq]
                split_ifs at hlive ⊢ <;> omega
              · simp only [statusOf, hcnt]; exact h2
            | true =>
              simp at h
              cases h
              have hcnt : (s.trace ++ [Call.downloadStatus key info.Gid true none]).countP
                  (isSuccessOf u) = s.trace.countP (isSuccessOf u) + (if key = u then 1 else 0) := by
                simp [List.countP_append, isSuccessOf, List.countP_cons]
              refine ⟨?_, ?_, hnp⟩
              · simp only [liveCount, pcKeys, hcnt, hpc]
                split_ifs at hlive ⊢ <;> omega
              · by_cases hk : key = u
                · have hz := hzero hk
                  subst hk
                  simp only [statusOf, mapGet_mapModify, if_true, hget, hcnt, hz]
                  simp
                · have hk' : ¬ u = key := fun h => hk h.symm
                  simp only [statusOf, mapGet_mapModify, if_neg hk', hcnt, if_neg hk, Nat.add_zero]
                  exact h2
    · simp at h


theorem mapSet_status (m : List (String × DownloadInfo)) (k : String) (v : DownloadInfo)
    (hm : ∀ p ∈ m, p.2.Status = 0) (hv : v.Status = 0) :
    ∀ p ∈ mapSet m k v, p.2.Status = 0 := by
  induction m with
  | nil => intro p hp; simp [mapSet] at hp; subst hp; exact hv
  | cons a m ih =>
    obtain ⟨k', v'⟩ := a
    intro p hp
    simp only [mapSet] at hp
    split at hp
    · rcases List.mem_cons.1 hp with h | h
      · subst h; exact hv
      · exact hm p (List.mem_cons_of_mem _ h)
    · rcases List.mem_cons.1 hp with h | h
      · subst h; exact hm _ (List.mem_cons_self _ _)
      · exact ih (fun q hq => hm q (List.mem_cons_of_mem _ hq)) p h

theorem init_statusMap_status (dirPath : String) (fileURLs : List String) :
    ∀ (m : List (String × DownloadInfo)), (∀ p ∈ m, p.2.Status = 0) →
      ∀ p ∈ fileURLs.foldl
        (fun m fileURL => mapSet m fileURL
          { DirPath := dirPath, FileURL := fileURL, Gid := "", Status := 0, Err := none }) m,
        p.2.Status = 0 := by
  induction fileURLs with
  | nil => intro m hm; simpa using hm
  | cons a l ih =>
    intro m hm
    simp only [List.foldl_cons]
    exact ih _ (mapSet_status m a _ hm rfl)

theorem mapGet_mem (m : List (String × DownloadInfo)) (u : String) (i : DownloadInfo)
    (h : mapGet m u = some i) : (u, i) ∈ m := by
  induction m with
  | nil => simp [mapGet] at h
  | cons a m ih =>
    obtain ⟨k, v⟩ := a
    simp only [mapGet, List.lookup_cons] at h ih
    by_cases hk : u = k
    · subst hk
      simp at h
      subst h
      exact List.mem_cons_self _ _
    · have h1 : (u == k) = false := by simpa using hk
      simp only [h1] at h
      exact List.mem_cons_of_mem _ (ih h)

theorem init_FailFastInv (N : Int) (d : Downloader) (dirPath : String) (fileURLs : List String)
    (hd : NewDownloader N = some d) :
    FailFastInv (DownloadFiles_init d dirPath fileURLs [Call.stat dirPath true none]) := by
  unfold NewDownloader at hd
  split at hd
  · simp at hd
  · cases hd
    left
    simp [DownloadFiles_init, failureErr]

theorem init_JobInv (N : Int) (d : Downloader) (dirPath : String) (fileURLs : List String)
    (u : String) (hd : NewDownloader N = some d) (hnodup : fileURLs.Nodup) :
    JobInv u (DownloadFiles_init d dirPath fileURLs [Call.stat dirPath true none]) := by
  unfold NewDownloader at hd
  split at hd
  · simp at hd
  · cases hd
    refine ⟨?_, ?_, ?_⟩
    · have := List.nodup_iff_count_le_one.1 hnodup u
      simpa [DownloadFiles_init, liveCount, pcKeys, isSuccessOf] using this
    · have hcnt : List.countP (isSuccessOf u) [Call.stat dirPath true none] = 0 := by
        simp [isSuccessOf]
      simp only [DownloadFiles_init, hcnt, statusOf]
      constructor
      · intro h
        exfalso
        cases hg : mapGet (fileURLs.foldl
          (fun m fileURL => mapSet m fileURL
            { DirPath := dirPath, FileURL := fileURL, Gid := "", Status := 0, Err := none }) []) u with
        | none => simp [hg] at h
        | some i =>
          simp [hg] at h
          have := init_statusMap_status dirPath fileURLs [] (by simp) _ (mapGet_mem _ _ _ hg)
          simp at this
          omega
      · intro h; omega
    · intro pre c post heq hs
      rcases pre with _ | ⟨a, pre⟩
      · simp [DownloadFiles_init] at heq
        obtain ⟨h1, h2⟩ := heq
        subst h1
        simp [isSuccessOf] at hs
      · simp [DownloadFiles_init] at heq


theorem step_trace_agent (env : Env) (s s' : Downloader) (e : Event)
    (h : step env s e = some s') :
    ∃ added, s'.trace = s.trace ++ added ∧ ∀ c ∈ added, isAgentCall c = true := by
  cases e <;> simp only [step] at h
  case feed =>
    split at h
    · simp at h
    · split at h
      · simp at h
      · split at h
        · cases h; exact ⟨[], by simp, by simp⟩
        · simp at h
  case feederExit =>
    split at h
    · simp at h
    · split at h
      · cases h; exact ⟨[], by simp, by simp⟩
      · simp at h
  case recvFinish =>
    split at h
    · simp only [doReturn] at h
      split at h
      · split at h <;> cases h <;> exact ⟨[], by simp, by simp⟩
      · cases h; exact ⟨[], by simp, by simp⟩
    · simp at h
  case recvPre gid err =>
    split at h
    · split at h
      · simp at h
      · split at h
        · cases h; exact ⟨[], by simp, by simp⟩
        · simp only [doReturn] at h
          split at h
          · split at h <;> cases h <;> exact ⟨[_], rfl, by simp [downloadFile, isAgentCall]⟩
          · cases h; exact ⟨[_], rfl, by simp [downloadFile, isAgentCall]⟩
    · simp at h
  case sendIn =>
    split at h
    · split at h
      · cases h; exact ⟨[], by simp, by simp⟩
      · simp at h
    · simp at h
  case recvIn ok err =>
    split at h
    · split at h
      · simp at h
      · split at h
        · cases h; exact ⟨[], by simp, by simp⟩
        · simp only [doReturn] at h
          split at h
          · cases h; exact ⟨[_], rfl, by simp [isAgentCall]⟩
          · split at h
            · split at h <;> cases h <;> exact ⟨[_], rfl, by simp [isAgentCall]⟩
            · cases h; exact ⟨[_], rfl, by simp [isAgentCall]⟩
    · simp at h
  case tick =>
    split at h
    · cases h; exact ⟨[], by simp, by simp⟩
    · simp at h
  case tickSend =>
    split at h
    · cases h; exact ⟨[], by simp, by simp⟩
    · split at h
      · cases h; exact ⟨[], by simp, by simp⟩
      · simp at h
    · simp at h
  case recvExit =>
    split at h
    · cases h; exact ⟨[], by simp, by simp⟩
    · simp at h

theorem run_trace_agent (env : Env) (evs : List Event) (s s' : Downloader)
    (h : run env s evs = some s') :
    ∃ added, s'.trace = s.trace ++ added ∧ ∀ c ∈ added, isAgentCall c = true := by
  refine run_preserves env
    (fun x => ∃ added, x.trace = s.trace ++ added ∧ ∀ c ∈ added, isAgentCall c = true)
    ?_ evs s s' h ⟨[], by simp, by simp⟩
  intro a b e hab ⟨added, h1, h2⟩
  obtain ⟨more, h3, h4⟩ := step_trace_agent env a b e hab
  refine ⟨added ++ more, by rw [h3, h1, List.append_assoc], ?_⟩
  intro c hc
  rcases List.mem_append.1 hc with hc | hc
  · exact h2 c hc
  · exact h4 c hc

theorem FailFastInv_last (s : Downloader) (c : Call) (e : String) (hi : FailFastInv s)
    (hc : c ∈ s.trace) (hfail : failureErr c = some e) :
    (∃ pre, s.trace = pre ++ [c] ∧ ∀ c' ∈ pre, failureErr c' = none) ∧
      s.pc = PC.returned (some e) := by
  rcases hi with ⟨_, h⟩ | ⟨_, h⟩ | ⟨pre, c0, e0, h1, h2, h3, h4⟩
  · rw [h c hc] at hfail; cases hfail
  · rw [h c hc] at hfail; cases hfail
  · rw [h1] at hc
    rcases List.mem_append.1 hc with hc | hc
    · rw [h2 c hc] at hfail; cases hfail
    · simp at hc
      subst hc
      rw [h3] at hfail
      cases hfail
      exact ⟨⟨pre, h1, h2⟩, h4⟩

theorem reachable_FailFastInv (env : Env) (N : Int) (d : Downloader) (dirPath : String)
    (fileURLs : List String) (evs : List Event) (s : Downloader)
    (hd : NewDownloader N = some d)
    (hrun : run env (DownloadFiles_init d dirPath fileURLs [Call.stat dirPath true none]) evs
      = some s) : FailFastInv s :=
  run_preserves env FailFastInv (step_FailFastInv env) evs _ s hrun
    (init_FailFastInv N d dirPath fileURLs hd)

theorem reachable_SchedInv (env : Env) (N : Int) (d : Downloader) (dirPath : String)
    (fileURLs : List String) (evs : List Event) (s : Downloader)
    (hd : NewDownloader N = some d)
    (hrun : run env (DownloadFiles_init d dirPath fileURLs [Call.stat dirPath true none]) evs
      = some s) : SchedInv s :=
  run_preserves env SchedInv (step_SchedInv env) evs _ s hrun
    (init_SchedInv N d dirPath fileURLs hd)

theorem reachable_JobInv (env : Env) (N : Int) (d : Downloader) (dirPath : String)
    (fileURLs : List String) (evs : List Event) (s : Downloader) (u : String)
    (hd : NewDownloader N = some d) (hnodup : fileURLs.Nodup)
    (hrun : run env (DownloadFiles_init d dirPath fileURLs [Call.stat dirPath true none]) evs
      = some s) : JobInv u s :=
  run_preserves env (JobInv u) (step_JobInv env u) evs _ s hrun
    (init_JobInv N d dirPath fileURLs u hd hnodup)

/-- C2 (fail-fast): in every state that `DownloadFiles` can reach, a failed
job (a start call or a status poll that returned an error) is the last call in
the trace and the first failure; `checkDownload` has returned that error; in
every later state the trace is unchanged, so no further source is started and
no further poll is made; and `DownloadFiles`, run on an existing directory
under the schedule that led here, returns that error. -/
theorem fail_fast (env : Env) (N : Int) (d : Downloader) (dirPath : String)
    (fileURLs : List String) (evs : List Event) (s : Downloader) (c : Call) (e : String)
    (hd : NewDownloader N = some d)
    (hrun : run env (DownloadFiles_init d dirPath fileURLs [Call.stat dirPath true none]) evs
      = some s)
    (hc : c ∈ s.trace) (hfail : failureErr c = some e) :
    (∃ pre, s.trace = pre ++ [c] ∧ ∀ c' ∈ pre, failureErr c' = none) ∧
    s.pc = PC.returned (some e) ∧
    (∀ evs' s', run env s evs' = some s' → s'.trace = s.trace ∧ s'.pc = PC.returned (some e)) ∧
    (env.Stat [] dirPath = (true, none) →
      DownloadFiles env d dirPath fileURLs evs [] = some (some s.statusMap, some e, s.trace)) := by
  have hi := reachable_FailFastInv env N d dirPath fileURLs evs s hd hrun
  obtain ⟨⟨pre, hpre, hclean⟩, hpc⟩ := FailFastInv_last s c e hi hc hfail
  refine ⟨⟨pre, hpre, hclean⟩, hpc, ?_, ?_⟩
  · intro evs' s' hrun'
    have hi' := run_preserves env FailFastInv (step_FailFastInv env) evs' s s' hrun' hi
    obtain ⟨added, hadd, _⟩ := run_trace_agent env evs' s s' hrun'
    have hc' : c ∈ s'.trace := by rw [hadd]; exact List.mem_append_left _ hc
    obtain ⟨⟨pre', hpre', hclean'⟩, hpc'⟩ := FailFastInv_last s' c e hi' hc' hfail
    refine ⟨?_, hpc'⟩
    rcases List.eq_nil_or_concat added with hnil | ⟨a0, x, hx⟩
    · rw [hadd, hnil]; simp
    · exfalso
      rw [List.concat_eq_append] at hx
      rw [hadd, hx, ← List.append_assoc] at hpre'
      have hinj := List.append_inj' hpre' rfl
      have hmem : c ∈ pre' := by
        rw [← hinj.1]; exact List.mem_append_left _ hc
      rw [hclean' c hmem] at hfail
      cases hfail
  · intro hstat
    simp only [DownloadFiles, hstat, List.nil_append, Option.isSome_none, Bool.false_eq_true,
      if_false, Bool.not_true, hrun, hpc]



/-- C1 (concurrency bound): for every bound `N ≥ 1` and every submission (of
more than `N` sources in particular), in every state the dispatch/poll loop
can reach, the jobs marked succeeded or failed are among the started ones and
the number of jobs started on the agent and not yet succeeded or failed is at
most `N`. -/
theorem active_jobs_le_bound (env : Env) (N : Int) (d : Downloader) (dirPath : String)
    (fileURLs : List String) (evs : List Event) (s : Downloader)
    (hN : 1 ≤ N) (hd : NewDownloader N = some d)
    (hrun : run env (DownloadFiles_init d dirPath fileURLs [Call.stat dirPath true none]) evs
      = some s) :
    succeededCount s.trace + failedCount s.trace ≤ startedCount s.trace ∧
      (activeJobs s.trace : Int) ≤ N := by
  have hi := reachable_SchedInv env N d dirPath fileURLs evs s hd hrun
  unfold SchedInv at hi
  unfold activeJobs
  omega

/-- Instance of C1: three sources under bound 2, after the first tick. -/
theorem active_jobs_le_bound_witness :
    succeededCount exampleState.trace + failedCount exampleState.trace
        ≤ startedCount exampleState.trace ∧
      (activeJobs exampleState.trace : Int) ≤ 2 :=
  active_jobs_le_bound exampleEnv 2 (exampleDownloader 2) "dir" ["u1", "u2", "u3"]
    exampleSchedule exampleState (by decide) rfl rfl

/-- Instance of C2: the agent rejects the second of two jobs. -/
theorem fail_fast_witness :
    (∃ pre, failedState.trace = pre ++ [Call.downloadFile "u2" "dir" "u2.car" "" (some "rejected")] ∧
        ∀ c' ∈ pre, failureErr c' = none) ∧
    failedState.pc = PC.returned (some "rejected") ∧
    (∀ evs' s', run exampleEnv failedState evs' = some s' →
      s'.trace = failedState.trace ∧ s'.pc = PC.returned (some "rejected")) ∧
    (exampleEnv.Stat [] "dir" = (true, none) →
      DownloadFiles exampleEnv (exampleDownloader 3) "dir" ["u1", "u2"]
        [Event.feed, Event.feed, Event.recvFinish, Event.recvPre "gid-1" none, Event.sendIn,
          Event.recvIn true none, Event.recvFinish, Event.recvPre "" (some "rejected")] []
        = some (some failedState.statusMap, some "rejected", failedState.trace)) :=
  fail_fast exampleEnv 3 (exampleDownloader 3) "dir" ["u1", "u2"]
    [Event.feed, Event.feed, Event.recvFinish, Event.recvPre "gid-1" none, Event.sendIn,
      Event.recvIn true none, Event.recvFinish, Event.recvPre "" (some "rejected")]
    failedState (Call.downloadFile "u2" "dir" "u2.car" "" (some "rejected")) "rejected"
    rfl rfl (by simp [failedState]) rfl

/-- In every reachable state at most one started job has not been marked
succeeded: a job is started only after all earlier ones were polled as
complete, whatever the bound `maxNum` is. -/
theorem started_le_succeeded_add_one (env : Env) (N : Int) (d : Downloader) (dirPath : String)
    (fileURLs : List String) (evs : List Event) (s : Downloader)
    (hd : NewDownloader N = some d)
    (hrun : run env (DownloadFiles_init d dirPath fileURLs [Call.stat dirPath true none]) evs
      = some s) :
    startedCount s.trace ≤ succeededCount s.trace + 1 := by
  have hi := reachable_SchedInv env N d dirPath fileURLs evs s hd hrun
  unfold SchedInv at hi
  omega

/-- C8 (evaluation at the failing input): two sources under bound 3, both
start permits free.  The first job is started and the agent reports it as
still active at the first status check and again after the first tick.  In the
state reached, only one job has been started, the second source is still
queued in `preChan`, and neither `case <-finishChan` nor the start call can
happen. -/
theorem second_job_waits_for_first :
    run exampleEnv
        (DownloadFiles_init (exampleDownloader 3) "dir" ["u1", "u2"] [Call.stat "dir" true none])
        [Event.feed, Event.feed, Event.recvFinish, Event.recvPre "gid-1" none, Event.sendIn,
          Event.recvIn false none, Event.tick, Event.tickSend, Event.tickSend,
          Event.recvIn false none] = some stuckState ∧
      startedCount stuckState.trace = 1 ∧ stuckState.preChan = ["u2"] ∧
      step exampleEnv stuckState Event.recvFinish = none ∧
      (∀ gid err, step exampleEnv stuckState (Event.recvPre gid err) = none) :=
  ⟨rfl, rfl, rfl, rfl, fun _ _ => rfl⟩

/-- C9 (idempotent terminal detection): for a submission of pairwise distinct
sources and every key `u`, in every reachable state the job `u` has been
marked succeeded at most once; its `Status` is 1 exactly when it has been
marked; no status poll of `u` follows the poll that marked it; once its
`Status` is 1 it stays 1 in every later state; and the counter `total` has
been decremented once for each job marked succeeded. -/
theorem succeeded_at_most_once (env : Env) (N : Int) (d : Downloader) (dirPath : String)
    (fileURLs : List String) (evs : List Event) (s : Downloader) (u : String)
    (hd : NewDownloader N = some d) (hnodup : fileURLs.Nodup)
    (hrun : run env (DownloadFiles_init d dirPath fileURLs [Call.stat dirPath true none]) evs
      = some s) :
    s.trace.countP (isSuccessOf u) ≤ 1 ∧
    (statusOf s u = some 1 ↔ s.trace.countP (isSuccessOf u) = 1) ∧
    (∀ pre c post, s.trace = pre ++ c :: post → isSuccessOf u c = true →
      ∀ c' ∈ post, isPollOf u c' = false) ∧
    (∀ evs' s', run env s evs' = some s' → statusOf s u = some 1 → statusOf s' u = some 1) ∧
    s.total + (succeededCount s.trace : Int) = (fileURLs.length : Int) := by
  have hi := reachable_JobInv env N d dirPath fileURLs evs s u hd hnodup hrun
  have htot := run_preserves env (TotalInv fileURLs.length) (step_TotalInv env fileURLs.length)
    evs _ s hrun (init_TotalInv d dirPath fileURLs)
  refine ⟨by have := hi.1; omega, hi.2.1, hi.2.2, ?_, htot⟩
  intro evs' s' hrun' hst
  have hi' := run_preserves env (JobInv u) (step_JobInv env u) evs' s s' hrun' hi
  obtain ⟨added, hadd, _⟩ := run_trace_agent env evs' s s' hrun'
  have h1 := hi.2.1.1 hst
  have h2 : s'.trace.countP (isSuccessOf u) = 1 := by
    have := hi'.1
    rw [hadd, List.countP_append] at this ⊢
    omega
  exact hi'.2.1.2 h2

/-- Instance of C9: the first of two distinct sources has been marked succeeded. -/
theorem succeeded_at_most_once_witness :
    failedState.trace.countP (isSuccessOf "u1") ≤ 1 ∧
    (statusOf failedState "u1" = some 1 ↔ failedState.trace.countP (isSuccessOf "u1") = 1) ∧
    (∀ pre c post, failedState.trace = pre ++ c :: post → isSuccessOf "u1" c = true →
      ∀ c' ∈ post, isPollOf "u1" c' = false) ∧
    (∀ evs' s', run exampleEnv failedState evs' = some s' →
      statusOf failedState "u1" = some 1 → statusOf s' "u1" = some 1) ∧
    failedState.total + (succeededCount failedState.trace : Int) = (2 : Nat) :=
  succeeded_at_most_once exampleEnv 3 (exampleDownloader 3) "dir" ["u1", "u2"]
    [Event.feed, Event.feed, Event.recvFinish, Event.recvPre "gid-1" none, Event.sendIn,
      Event.recvIn true none, Event.recvFinish, Event.recvPre "" (some "rejected")]
    failedState "u1" rfl (by decide) rfl


/-! ## Lemmas on retrieval, reassembly and upload -/

theorem RetrieveFile_trace (env : Env) (r : Rebuilder) (cid miner wallet savePath : String)
    (t : List Call) :
    ∃ added, (RetrieveFile env r cid miner wallet savePath t).2 = t ++ added ∧
      (∀ c ∈ added, retrieveCid c = some cid) ∧ attempts added = [(cid, miner)] := by
  unfold RetrieveFile
  simp only
  split
  · exact ⟨[_], rfl, by simp [retrieveCid], by simp [attempts]⟩
  · split
    · exact ⟨[_], rfl, by simp [retrieveCid], by simp [attempts]⟩
    · exact ⟨_ ++ _, List.append_assoc _ _ _, by simp [retrieveCid], by simp [attempts]⟩

theorem RetrieveFile_configured (env : Env) (r : Rebuilder) (cid miner wallet savePath : String)
    (t : List Call) (hl : r.lotusClient.isSome = true) (hc : cid ≠ "") (hm : miner ≠ "") :
    ∃ added, (RetrieveFile env r cid miner wallet savePath t).2 = t ++ added ∧
      retrievedFrom cid added = [miner] := by
  unfold RetrieveFile
  have hl' : r.lotusClient.isNone = false := by
    cases h : r.lotusClient <;> simp [h] at hl ⊢
  simp only [hl', Bool.false_eq_true, if_false, hc, hm, or_self]
  exact ⟨_ ++ _, List.append_assoc _ _ _, by simp [retrievedFrom]⟩

theorem attemptAll_trace (env : Env) (r : Rebuilder) (cid wallet carDir : String)
    (deals : List CarDeal) :
    ∀ t, ∃ added, attemptAll env r cid wallet carDir deals t = t ++ added ∧
      (∀ c ∈ added, retrieveCid c = some cid) ∧
      attempts added = deals.map (fun d => (cid, d.MinerFid)) := by
  induction deals with
  | nil => intro t; exact ⟨[], by simp [attemptAll], by simp, by simp [attempts]⟩
  | cons d ds ih =>
    intro t
    obtain ⟨a1, h1, h2, h3⟩ := RetrieveFile_trace env r cid d.MinerFid wallet carDir t
    obtain ⟨a2, h4, h5, h6⟩ := ih (RetrieveFile env r cid d.MinerFid wallet carDir t).2
    refine ⟨a1 ++ a2, ?_, ?_, ?_⟩
    · simp only [attemptAll]; rw [h4, h1, List.append_assoc]
    · intro c hc
      rcases List.mem_append.1 hc with hc | hc
      · exact h2 c hc
      · exact h5 c hc
    · simp only [attempts, List.filterMap_append, List.map_cons] at h3 h6 ⊢
      rw [h3, h6]; rfl

theorem attemptAll_configured (env : Env) (r : Rebuilder) (cid wallet carDir : String)
    (deals : List CarDeal) (hl : r.lotusClient.isSome = true) (hc : cid ≠ "")
    (hm : ∀ d ∈ deals, d.MinerFid ≠ "") :
    ∀ t, ∃ added, attemptAll env r cid wallet carDir deals t = t ++ added ∧
      retrievedFrom cid added = deals.map (fun d => d.MinerFid) := by
  induction deals with
  | nil => intro t; exact ⟨[], by simp [attemptAll], by simp [retrievedFrom]⟩
  | cons d ds ih =>
    intro t
    obtain ⟨a1, h1, h3⟩ := RetrieveFile_configured env r cid d.MinerFid wallet carDir t hl hc
      (hm d (List.mem_cons_self _ _))
    obtain ⟨a2, h4, h6⟩ := ih (fun x hx => hm x (List.mem_cons_of_mem _ hx))
      (RetrieveFile env r cid d.MinerFid wallet carDir t).2
    refine ⟨a1 ++ a2, ?_, ?_⟩
    · simp only [attemptAll]; rw [h4, h1, List.append_assoc]
    · simp only [retrievedFrom, List.filterMap_append, List.map_cons] at h3 h6 ⊢
      rw [h3, h6]; rfl

theorem attemptAll_append (env : Env) (r : Rebuilder) (cid wallet carDir : String)
    (ds es : List CarDeal) :
    ∀ t, attemptAll env r cid wallet carDir (ds ++ es) t =
      attemptAll env r cid wallet carDir es (attemptAll env r cid wallet carDir ds t) := by
  induction ds with
  | nil => intro t; rfl
  | cons d ds ih => intro t; simp only [List.cons_append, attemptAll]; exact ih _

theorem retrieveDeals_allFail (env : Env) (r : Rebuilder) (cid wallet carDir : String)
    (failing rest : List CarDeal) :
    ∀ t, allFail env r cid wallet carDir failing t = true →
      retrieveDeals env r cid wallet carDir (failing ++ rest) t =
        retrieveDeals env r cid wallet carDir rest
          (attemptAll env r cid wallet carDir failing t) := by
  induction failing with
  | nil => intro t _; rfl
  | cons d ds ih =>
    intro t h
    simp only [allFail] at h
    simp only [List.cons_append, retrieveDeals, attemptAll]
    cases hr : RetrieveFile env r cid d.MinerFid wallet carDir t with
    | mk e t' =>
      cases e with
      | none => simp [hr] at h
      | some e =>
        simp only [hr] at h ⊢
        exact ih t' h

theorem retrieveInfos_append (env : Env) (r : Rebuilder) (wallet carDir : String)
    (pre rest : List CarInfo) :
    ∀ t, (retrieveInfos env r wallet carDir pre t).1 = none →
      retrieveInfos env r wallet carDir (pre ++ rest) t =
        retrieveInfos env r wallet carDir rest (retrieveInfos env r wallet carDir pre t).2 := by
  induction pre with
  | nil => intro t _; rfl
  | cons a pre ih =>
    intro t h
    simp only [retrieveInfos, List.cons_append] at h ⊢
    split at h
    · simp at h
    · rename_i hc
      simp only [hc, if_false]
      cases hd : retrieveDeals env r a.CID wallet carDir a.Deals t with
      | mk b t' =>
        cases b with
        | false => simp [hd] at h
        | true =>
          simp only [hd] at h ⊢
          exact ih t' h


theorem retrieveDeals_trace (env : Env) (r : Rebuilder) (cid wallet carDir : String)
    (deals : List CarDeal) :
    ∀ t, ∃ added, (retrieveDeals env r cid wallet carDir deals t).2 = t ++ added ∧
      ∀ c ∈ added, retrieveCid c = some cid := by
  induction deals with
  | nil => intro t; exact ⟨[], by simp [retrieveDeals], by simp⟩
  | cons d ds ih =>
    intro t
    obtain ⟨a1, h1, h2, _⟩ := RetrieveFile_trace env r cid d.MinerFid wallet carDir t
    simp only [retrieveDeals]
    cases hr : RetrieveFile env r cid d.MinerFid wallet carDir t with
    | mk e t' =>
      rw [hr] at h1
      simp only at h1
      cases e with
      | none => exact ⟨a1, h1, h2⟩
      | some e =>
        simp only
        obtain ⟨a2, h3, h4⟩ := ih t'
        refine ⟨a1 ++ a2, by rw [h3, h1, List.append_assoc], ?_⟩
        intro c hc
        rcases List.mem_append.1 hc with hc | hc
        · exact h2 c hc
        · exact h4 c hc

theorem retrieveInfos_trace (env : Env) (r : Rebuilder) (wallet carDir : String)
    (infos : List CarInfo) :
    ∀ t, ∃ added, (retrieveInfos env r wallet carDir infos t).2 = t ++ added ∧
      ∀ c ∈ added, ∃ a ∈ infos, retrieveCid c = some a.CID := by
  induction infos with
  | nil => intro t; exact ⟨[], by simp [retrieveInfos], by simp⟩
  | cons a rest ih =>
    intro t
    simp only [retrieveInfos]
    split
    · exact ⟨[], by simp, by simp⟩
    · obtain ⟨a1, h1, h2⟩ := retrieveDeals_trace env r a.CID wallet carDir a.Deals t
      cases hd : retrieveDeals env r a.CID wallet carDir a.Deals t with
      | mk b t' =>
        rw [hd] at h1
        simp only at h1
        cases b with
        | false =>
          exact ⟨a1, h1, fun c hc => ⟨a, List.mem_cons_self _ _, h2 c hc⟩⟩
        | true =>
          simp only
          obtain ⟨a2, h3, h4⟩ := ih t'
          refine ⟨a1 ++ a2, by rw [h3, h1, List.append_assoc], ?_⟩
          intro c hc
          rcases List.mem_append.1 hc with hc | hc
          · exact ⟨a, List.mem_cons_self _ _, h2 c hc⟩
          · obtain ⟨x, hx, hx'⟩ := h4 c hc
            exact ⟨x, List.mem_cons_of_mem _ hx, hx'⟩

theorem UploadFile_trace (env : Env) (bc : BucketClient) (path : String) (replace : Bool)
    (t : List Call) :
    ∃ sdk, (BucketClient.UploadFile env bc path replace t).2
        = (t ++ [Call.uploadFile path replace]) ++ sdk ∧
      (∀ c ∈ sdk, isUploadCall c = true) ∧ uploadedPaths sdk = [] ∧
      ((BucketClient.UploadFile env bc path replace t).1.2 ≠ none →
        (BucketClient.UploadFile env bc path replace t).1.1 = "") := by
  unfold BucketClient.UploadFile
  simp only
  generalize env.SdkUploadFile _ _ _ _ _ = e1
  cases e1 with
  | some x =>
    exact ⟨[Call.sdkUploadFile bc.bucketName (env.Base path) path replace (some x)],
      by simp, by simp [isUploadCall], by simp [uploadedPaths], by simp⟩
  | none =>
    simp only [Option.isSome_none, Bool.false_eq_true, if_false]
    generalize env.SdkGetFile _ _ _ = p2
    obtain ⟨cid, e2⟩ := p2
    cases e2 with
    | some x =>
      exact ⟨[Call.sdkUploadFile bc.bucketName (env.Base path) path replace none,
          Call.sdkGetFile bc.bucketName (env.Base path) cid (some x)],
        by simp, by simp [isUploadCall], by simp [uploadedPaths], by simp⟩
    | none =>
      simp only [Option.isSome_none, Bool.false_eq_true, if_false]
      generalize env.SdkGetGateway _ = p3
      obtain ⟨gw, e3⟩ := p3
      cases e3 with
      | some x =>
        exact ⟨[Call.sdkUploadFile bc.bucketName (env.Base path) path replace none,
            Call.sdkGetFile bc.bucketName (env.Base path) cid none,
            Call.sdkGetGateway gw (some x)],
          by simp, by simp [isUploadCall], by simp [uploadedPaths], by simp⟩
      | none =>
        simp only [Option.isSome_none, Bool.false_eq_true, if_false]
        cases env.UrlJoinPath gw ["ipfs", cid] <;> simp only <;>
          exact ⟨[Call.sdkUploadFile bc.bucketName (env.Base path) path replace none,
              Call.sdkGetFile bc.bucketName (env.Base path) cid none,
              Call.sdkGetGateway gw none],
            by simp, by simp [isUploadCall], by simp [uploadedPaths], by simp⟩


theorem uploadWalk_trace (env : Env) (bc : BucketClient) (entries : List WalkEntry) :
    ∀ (url : String) (t : List Call),
      ∃ ups, (uploadWalk env bc entries url t).2 = t ++ ups ∧
        (∀ c ∈ ups, isUploadCall c = true) ∧
        uploadedPaths ups <+: walkFiles entries ∧
        ((uploadWalk env bc entries url t).1.2 = none → uploadedPaths ups = walkFiles entries) := by
  induction entries with
  | nil =>
    intro url t
    exact ⟨[], by simp [uploadWalk], by simp, by simp [uploadedPaths, walkFiles],
      by simp [uploadedPaths, walkFiles]⟩
  | cons entry rest ih =>
    intro url t
    simp only [uploadWalk]
    cases herr : entry.err with
    | some e =>
      exact ⟨[], by simp, by simp, by simp [uploadedPaths], by simp⟩
    | none =>
      simp only
      cases hdir : entry.isDir with
      | true =>
        obtain ⟨ups, h1, h2, h3, h4⟩ := ih url t
        refine ⟨ups, by simpa using h1, h2, ?_, ?_⟩
        · simpa [walkFiles, hdir] using h3
        · simpa [walkFiles, hdir] using h4
      | false =>
        simp only [Bool.false_eq_true, if_false]
        obtain ⟨sdk, hs1, hs2, hs3, _⟩ := UploadFile_trace env bc entry.path true t
        cases hu : BucketClient.UploadFile env bc entry.path true t with
        | mk res t' =>
          obtain ⟨url', err'⟩ := res
          rw [hu] at hs1
          simp only at hs1
          have hwf : walkFiles (entry :: rest) = entry.path :: walkFiles rest := by
            simp [walkFiles, hdir]
          have hup : uploadedPaths ([Call.uploadFile entry.path true] ++ sdk) = [entry.path] := by
            simp only [uploadedPaths, List.filterMap_append] at hs3 ⊢
            rw [hs3]; rfl
          have hcls : ∀ c ∈ [Call.uploadFile entry.path true] ++ sdk, isUploadCall c = true := by
            intro c hc
            rcases List.mem_append.1 hc with hc | hc
            · simp at hc; subst hc; rfl
            · exact hs2 c hc
          cases err' with
          | some e =>
            simp only
            refine ⟨[Call.uploadFile entry.path true] ++ sdk, ?_, hcls, ?_, by simp⟩
            · rw [hs1, List.append_assoc]
            · rw [hup, hwf]; simp
          | none =>
            simp only
            obtain ⟨ups, h1, h2, h3, h4⟩ := ih url' t'
            refine ⟨([Call.uploadFile entry.path true] ++ sdk) ++ ups, ?_, ?_, ?_, ?_⟩
            · rw [h1, hs1]; simp only [List.append_assoc]
            · intro c hc
              rcases List.mem_append.1 hc with hc | hc
              · exact hcls c hc
              · exact h2 c hc
            · have : uploadedPaths (([Call.uploadFile entry.path true] ++ sdk) ++ ups)
                  = entry.path :: uploadedPaths ups := by
                have := hup
                simp only [uploadedPaths, List.filterMap_append] at this ⊢
                rw [this]; rfl
              rw [this, hwf]
              exact (List.prefix_cons_inj _).2 h3
            · intro hnone
              have : uploadedPaths (([Call.uploadFile entry.path true] ++ sdk) ++ ups)
                  = entry.path :: uploadedPaths ups := by
                have := hup
                simp only [uploadedPaths, List.filterMap_append] at this ⊢
                rw [this]; rfl
              rw [this, hwf, h4 hnone]

theorem RestoreAndUpload_trace (env : Env) (r : Rebuilder) (carPath outputDir : String)
    (t : List Call) :
    ∃ ups, (RestoreAndUpload env r carPath outputDir t).2 =
        t ++ [Call.carTo carPath outputDir r.parallel, Call.merge outputDir r.parallel true,
          Call.walkDir outputDir] ++ ups ∧
      (∀ c ∈ ups, isUploadCall c = true) ∧
      uploadedPaths ups <+: walkFiles (env.WalkDir
        (t ++ [Call.carTo carPath outputDir r.parallel, Call.merge outputDir r.parallel true])
        outputDir) ∧
      ((RestoreAndUpload env r carPath outputDir t).1.2 = none →
        uploadedPaths ups = walkFiles (env.WalkDir
          (t ++ [Call.carTo carPath outputDir r.parallel, Call.merge outputDir r.parallel true])
          outputDir)) := by
  unfold RestoreAndUpload
  simp only [List.append_assoc, List.singleton_append]
  obtain ⟨ups, h1, h2, h3, h4⟩ := uploadWalk_trace env r.bucketClient
    (env.WalkDir (t ++ [Call.carTo carPath outputDir r.parallel,
      Call.merge outputDir r.parallel true]) outputDir) ""
    (t ++ [Call.carTo carPath outputDir r.parallel, Call.merge outputDir r.parallel true,
      Call.walkDir outputDir])
  exact ⟨ups, by simpa [List.append_assoc] using h1, h2, h3, by simpa [List.append_assoc] using h4⟩

theorem uploadAll_trace (env : Env) (bc : BucketClient) (paths : List String) :
    ∀ t, ∃ ups, uploadAll env bc paths t = t ++ ups ∧
      (∀ c ∈ ups, isUploadCall c = true) ∧ uploadedPaths ups = paths := by
  induction paths with
  | nil => intro t; exact ⟨[], by simp [uploadAll], by simp, by simp [uploadedPaths]⟩
  | cons p ps ih =>
    intro t
    obtain ⟨sdk, hs1, hs2, hs3, _⟩ := UploadFile_trace env bc p true t
    obtain ⟨ups, h1, h2, h3⟩ := ih (BucketClient.UploadFile env bc p true t).2
    refine ⟨([Call.uploadFile p true] ++ sdk) ++ ups, ?_, ?_, ?_⟩
    · simp only [uploadAll]
      rw [h1, hs1]
      simp only [List.append_assoc]
    · intro c hc
      rcases List.mem_append.1 hc with hc | hc
      · rcases List.mem_append.1 hc with hc | hc
        · simp at hc; subst hc; rfl
        · exact hs2 c hc
      · exact h2 c hc
    · simp only [uploadedPaths, List.filterMap_append] at hs3 h3 ⊢
      rw [hs3, h3]
      rfl

theorem walkFiles_append (a b : List WalkEntry) :
    walkFiles (a ++ b) = walkFiles a ++ walkFiles b := by
  simp [walkFiles]

theorem uploadWalk_stop (env : Env) (bc : BucketClient) (entries : List WalkEntry) :
    ∀ (url : String) (t : List Call), ∃ done rest,
      entries = done ++ rest ∧ (∀ x ∈ done, x.err = none) ∧
      (uploadWalk env bc entries url t).2 = uploadAll env bc (walkFiles done) t ∧
      ((rest = [] ∧ allUploaded env bc (walkFiles done) t = true ∧
          (uploadWalk env bc entries url t).1 =
            (uploadedURL env bc (walkFiles done) url t, none)) ∨
        (∃ entry rest' e, rest = entry :: rest' ∧ entry.err = some e ∧
          allUploaded env bc (walkFiles done) t = true ∧
          (uploadWalk env bc entries url t).1 =
            (uploadedURL env bc (walkFiles done) url t, some e)) ∨
        (∃ done' last e, done = done' ++ [last] ∧ last.isDir = false ∧
          allUploaded env bc (walkFiles done') t = true ∧
          (BucketClient.UploadFile env bc last.path true
            (uploadAll env bc (walkFiles done') t)).1 = ("", some e) ∧
          (uploadWalk env bc entries url t).1 = ("", some e))) := by
  induction entries with
  | nil =>
    intro url t
    exact ⟨[], [], rfl, by simp, by simp [uploadWalk, walkFiles, uploadAll],
      Or.inl ⟨rfl, by simp [walkFiles, allUploaded],
        by simp [uploadWalk, walkFiles, uploadedURL]⟩⟩
  | cons entry rest0 ih =>
    intro url t
    cases herr : entry.err with
    | some e =>
      refine ⟨[], entry :: rest0, rfl, by simp, by simp [uploadWalk, herr, walkFiles, uploadAll],
        Or.inr (Or.inl ⟨entry, rest0, e, rfl, herr, by simp [walkFiles, allUploaded],
          by simp [uploadWalk, herr, walkFiles, uploadedURL]⟩)⟩
    | none =>
      cases hdir : entry.isDir with
      | true =>
        obtain ⟨done, rest, h1, h2, h3, h4⟩ := ih url t
        have hwf : ∀ l, walkFiles (entry :: l) = walkFiles l := by
          intro l; simp [walkFiles, hdir]
        have hw : uploadWalk env bc (entry :: rest0) url t = uploadWalk env bc rest0 url t := by
          simp [uploadWalk, herr, hdir]
        refine ⟨entry :: done, rest, by rw [h1]; rfl, ?_, ?_, ?_⟩
        · intro x hx
          rcases List.mem_cons.1 hx with hx | hx
          · subst hx; exact herr
          · exact h2 x hx
        · rw [hw, hwf, h3]
        · rw [hw, hwf]
          rcases h4 with h4 | ⟨en, r', e, h5, h6, h7, h8⟩ | ⟨d', last, e, h5, h6, h7, h8, h9⟩
          · exact Or.inl h4
          · exact Or.inr (Or.inl ⟨en, r', e, h5, h6, h7, h8⟩)
          · refine Or.inr (Or.inr ⟨entry :: d', last, e, by rw [h5]; rfl, h6, ?_, ?_, h9⟩)
            · rw [hwf]; exact h7
            · rw [hwf]; exact h8
      | false =>
        have hwf : ∀ l, walkFiles (entry :: l) = entry.path :: walkFiles l := by
          intro l; simp [walkFiles, hdir]
        obtain ⟨_, _, _, _, hempty⟩ := UploadFile_trace env bc entry.path true t
        cases hu : BucketClient.UploadFile env bc entry.path true t with
        | mk res t' =>
          obtain ⟨url', err'⟩ := res
          rw [hu] at hempty
          simp only at hempty
          cases err' with
          | some e =>
            have hurl : url' = "" := hempty (by simp)
            subst hurl
            have hw : uploadWalk env bc (entry :: rest0) url t = (("", some e), t') := by
              simp [uploadWalk, herr, hdir, hu]
            refine ⟨[entry], rest0, rfl, ?_, ?_, ?_⟩
            · intro x hx
              simp at hx; subst hx; exact herr
            · rw [hw, hwf]
              simp [walkFiles, uploadAll, hu]
            · refine Or.inr (Or.inr ⟨[], entry, e, rfl, hdir, by simp [walkFiles, allUploaded],
                ?_, by rw [hw]⟩)
              simp [walkFiles, uploadAll, hu]
          | none =>
            obtain ⟨done, rest, h1, h2, h3, h4⟩ := ih url' t'
            have hw : uploadWalk env bc (entry :: rest0) url t =
                uploadWalk env bc rest0 url' t' := by
              simp [uploadWalk, herr, hdir, hu]
            have hua : ∀ l, uploadAll env bc (entry.path :: l) t = uploadAll env bc l t' := by
              intro l; simp [uploadAll, hu]
            have hal : ∀ l, allUploaded env bc (entry.path :: l) t = allUploaded env bc l t' := by
              intro l; simp [allUploaded, hu]
            have hur : ∀ l, uploadedURL env bc (entry.path :: l) url t =
                uploadedURL env bc l url' t' := by
              intro l; simp [uploadedURL, hu]
            refine ⟨entry :: done, rest, by rw [h1]; rfl, ?_, ?_, ?_⟩
            · intro x hx
              rcases List.mem_cons.1 hx with hx | hx
              · subst hx; exact herr
              · exact h2 x hx
            · rw [hw, hwf, hua, h3]
            · rw [hw, hwf, hal, hur]
              rcases h4 with h4 | ⟨en, r', e, h5, h6, h7, h8⟩ | ⟨d', last, e, h5, h6, h7, h8, h9⟩
              · exact Or.inl h4
              · exact Or.inr (Or.inl ⟨en, r', e, h5, h6, h7, h8⟩)
              · refine Or.inr (Or.inr ⟨entry :: d', last, e, by rw [h5]; rfl, h6, ?_, ?_, h9⟩)
                · rw [hwf, hal]; exact h7
                · rw [hwf, hua]; exact h8

theorem DownloadFiles_trace (env : Env) (d : Downloader) (dirPath : String)
    (fileURLs : List String) (sched : List Event) (t t' : List Call)
    (m : Option (List (String × DownloadInfo))) (err : Option String)
    (h : DownloadFiles env d dirPath fileURLs sched t = some (m, err, t')) :
    ∃ added, t' = t ++ added ∧
      ∀ c ∈ added, isReassembly c = false ∧ isUploadCall c = false := by
  unfold DownloadFiles at h
  simp only at h
  split at h
  · simp at h
    exact ⟨[Call.stat dirPath (env.Stat t dirPath).1 (env.Stat t dirPath).2], h.2.2.symm,
      by simp [isReassembly, isUploadCall]⟩
  · split at h
    · simp at h
      exact ⟨[Call.stat dirPath (env.Stat t dirPath).1 (env.Stat t dirPath).2], h.2.2.symm,
        by simp [isReassembly, isUploadCall]⟩
    · split at h
      · simp at h
      · rename_i s hrun
        split at h
        · simp at h
          obtain ⟨added, h1, h2⟩ := run_trace_agent env sched _ s hrun
          simp only [DownloadFiles_init] at h1
          refine ⟨Call.stat dirPath (env.Stat t dirPath).1 (env.Stat t dirPath).2 :: added, ?_, ?_⟩
          · rw [← h.2.2, h1]; simp
          · intro c hc
            rcases List.mem_cons.1 hc with hc | hc
            · subst hc; simp [isReassembly, isUploadCall]
            · have := h2 c hc
              cases c <;> simp [isAgentCall] at this <;> simp [isReassembly, isUploadCall]
        · simp at h


/-! ## The pipeline -/


/-- C5 (equal directories rejected): when the input path equals the output
path and the URL list is not empty, `Build` returns the empty location with
the error and leaves the trace as it was: no directory is created, no job is
started, and neither reassembly nor upload is called. -/
theorem build_rejects_equal_paths (env : Env) (r : Rebuilder) (name : String)
    (fileURLs : List String) (sched : List Event) (t : List Call)
    (hsame : r.inputPath = r.outputPath) (hne : fileURLs ≠ []) :
    Build env r name fileURLs sched t =
      some (("", some "input path not be same with output path"), t) := by
  cases fileURLs with
  | nil => exact absurd rfl hne
  | cons first rest => simp [Build, hsame]

/-- Instance of C5: a rebuilder whose two directories are both `in`. -/
theorem build_rejects_equal_paths_witness :
    Build exampleEnv samePathRebuilder "name" ["u1"] successSchedule [] =
      some (("", some "input path not be same with output path"), []) :=
  build_rejects_equal_paths exampleEnv samePathRebuilder "name" ["u1"] successSchedule []
    rfl (by simp)

/-- C6 (download failure stops the pipeline): when `Build` reaches its
download (distinct paths, both directories created) and `DownloadFiles`
returns the error `e`, `Build` returns the empty location together with `e`,
and none of the calls it made is a call of reassembly or of upload. -/
theorem build_download_failure (env : Env) (r : Rebuilder) (name first : String)
    (rest : List String) (sched : List Event) (t t' : List Call) (d : Downloader)
    (m : Option (List (String × DownloadInfo))) (e : String)
    (dirName sourceDir carDir : String)
    (hname : dirName = if name = "" then env.Base first else name)
    (hsource : sourceDir = env.Join r.outputPath dirName)
    (hcar : carDir = env.Join r.inputPath dirName)
    (hpaths : r.inputPath ≠ r.outputPath)
    (hmk1 : env.MkdirAll t sourceDir = none)
    (hmk2 : env.MkdirAll (t ++ [Call.mkdirAll sourceDir none]) carDir = none)
    (hd : NewDownloader r.parallel = some d)
    (hdl : DownloadFiles env d carDir (first :: rest) sched
      (t ++ [Call.mkdirAll sourceDir none, Call.mkdirAll carDir none]) = some (m, some e, t')) :
    Build env r name (first :: rest) sched t = some (("", some e), t') ∧
      ∃ added, t' = t ++ added ∧ ∀ c ∈ added, isReassembly c = false ∧ isUploadCall c = false := by
  constructor
  · subst hname hsource hcar
    simp only [Build, hpaths, if_false, hmk1, hmk2, Option.isSome_none, Bool.false_eq_true, hd,
      List.append_assoc, List.singleton_append, List.cons_append, List.nil_append]
    rw [hdl]
  · obtain ⟨added, h1, h2⟩ := DownloadFiles_trace env d _ _ sched _ t' m (some e) hdl
    refine ⟨[Call.mkdirAll sourceDir none, Call.mkdirAll carDir none] ++ added,
      by rw [h1, List.append_assoc], ?_⟩
    intro c hc
    rcases List.mem_append.1 hc with hc | hc
    · simp at hc
      rcases hc with hc | hc <;> subst hc <;> simp [isReassembly, isUploadCall]
    · exact h2 c hc

/-- Instance of C6: the agent rejects the only download. -/
theorem build_download_failure_witness :
    Build exampleEnv exampleRebuilder "name" ["u1"] rejectSchedule [] =
        some (("", some "rejected"),
          [Call.mkdirAll "out/name" none, Call.mkdirAll "in/name" none,
            Call.stat "in/name" true none,
            Call.downloadFile "u1" "in/name" "u1.car" "" (some "rejected")]) ∧
      ∃ added,
        [Call.mkdirAll "out/name" none, Call.mkdirAll "in/name" none,
            Call.stat "in/name" true none,
            Call.downloadFile "u1" "in/name" "u1.car" "" (some "rejected")] = [] ++ added ∧
          ∀ c ∈ added, isReassembly c = false ∧ isUploadCall c = false :=
  build_download_failure exampleEnv exampleRebuilder "name" "u1" [] rejectSchedule [] _
    (exampleDownloader 3)
    (some [("u1", ⟨"in/name", "u1", "", 0, some "rejected"⟩)])
    "rejected" "name" "out/name" "in/name" rfl rfl rfl (by decide) rfl rfl rfl rfl


/-- C7 (counterexample): the single download succeeds (`DownloadFiles` returns
a nil error) and reassembly leaves two files in the output directory; `Build`
calls `BucketClient.UploadFile` twice. -/
theorem build_uploads_twice :
    (DownloadFiles twoFilesEnv (exampleDownloader 3) "in/name" ["u1"] successSchedule
        [Call.mkdirAll "out/name" none, Call.mkdirAll "in/name" none]).map (fun x => x.2.1)
      = some none ∧
    (Build twoFilesEnv exampleRebuilder "name" ["u1"] successSchedule []).map
        (fun x => (x.1, uploadedPaths x.2))
      = some (("https://gateway/ipfs/bafy-cid", none), ["out/name/a", "out/name/b"]) :=
  ⟨rfl, rfl⟩

theorem RestoreAndUpload_eq (env : Env) (r : Rebuilder) (carPath outputDir : String)
    (t : List Call) :
    RestoreAndUpload env r carPath outputDir t =
      uploadWalk env r.bucketClient (env.WalkDir
        (t ++ [Call.carTo carPath outputDir r.parallel, Call.merge outputDir r.parallel true])
        outputDir) ""
        (t ++ [Call.carTo carPath outputDir r.parallel, Call.merge outputDir r.parallel true,
          Call.walkDir outputDir]) := by
  simp [RestoreAndUpload]

/-- C7 (amended): when all downloads of `Build` succeed, the calls made after
the download are `CarTo`, `Merge` and the walk of the output directory, once
each, and then exactly the calls of `BucketClient.UploadFile` for the regular
files among the visits `done` that the walk makes before it stops, once each
and in walk order.  The walk stops at its end (every upload succeeded and
`Build` returns a nil error), at the first visit `entry` that carries an error
(every upload before it succeeded, nothing is uploaded for it, and `Build`
returns that error), or right after the first upload that fails (`Build`
returns the empty location with that error). -/
theorem build_reassembles_once_then_uploads (env : Env) (r : Rebuilder) (name first : String)
    (rest : List String) (sched : List Event) (t t' : List Call) (d : Downloader)
    (m : Option (List (String × DownloadInfo)))
    (dirName sourceDir carDir : String)
    (hname : dirName = if name = "" then env.Base first else name)
    (hsource : sourceDir = env.Join r.outputPath dirName)
    (hcar : carDir = env.Join r.inputPath dirName)
    (hpaths : r.inputPath ≠ r.outputPath)
    (hmk1 : env.MkdirAll t sourceDir = none)
    (hmk2 : env.MkdirAll (t ++ [Call.mkdirAll sourceDir none]) carDir = none)
    (hd : NewDownloader r.parallel = some d)
    (hdl : DownloadFiles env d carDir (first :: rest) sched
      (t ++ [Call.mkdirAll sourceDir none, Call.mkdirAll carDir none]) = some (m, none, t')) :
    ∃ res dl ups done left,
      Build env r name (first :: rest) sched t =
        some (res, t ++ dl ++ [Call.carTo carDir sourceDir r.parallel,
          Call.merge sourceDir r.parallel true, Call.walkDir sourceDir] ++ ups) ∧
      t' = t ++ dl ∧
      (∀ c ∈ dl, isReassembly c = false ∧ isUploadCall c = false) ∧
      (∀ c ∈ ups, isUploadCall c = true) ∧
      env.WalkDir
        (t' ++ [Call.carTo carDir sourceDir r.parallel, Call.merge sourceDir r.parallel true])
        sourceDir = done ++ left ∧
      (∀ x ∈ done, x.err = none) ∧
      uploadedPaths ups = walkFiles done ∧
      t' ++ [Call.carTo carDir sourceDir r.parallel, Call.merge sourceDir r.parallel true,
          Call.walkDir sourceDir] ++ ups =
        uploadAll env r.bucketClient (walkFiles done)
          (t' ++ [Call.carTo carDir sourceDir r.parallel, Call.merge sourceDir r.parallel true,
            Call.walkDir sourceDir]) ∧
      ((left = [] ∧
          allUploaded env r.bucketClient (walkFiles done)
            (t' ++ [Call.carTo carDir sourceDir r.parallel,
              Call.merge sourceDir r.parallel true, Call.walkDir sourceDir]) = true ∧
          res.2 = none) ∨
        (∃ entry left' e, left = entry :: left' ∧ entry.err = some e ∧
          allUploaded env r.bucketClient (walkFiles done)
            (t' ++ [Call.carTo carDir sourceDir r.parallel,
              Call.merge sourceDir r.parallel true, Call.walkDir sourceDir]) = true ∧
          res.2 = some e) ∨
        (∃ done' last e, done = done' ++ [last] ∧ last.isDir = false ∧
          allUploaded env r.bucketClient (walkFiles done')
            (t' ++ [Call.carTo carDir sourceDir r.parallel,
              Call.merge sourceDir r.parallel true, Call.walkDir sourceDir]) = true ∧
          (BucketClient.UploadFile env r.bucketClient last.path true
            (uploadAll env r.bucketClient (walkFiles done')
              (t' ++ [Call.carTo carDir sourceDir r.parallel,
                Call.merge sourceDir r.parallel true, Call.walkDir sourceDir]))).1
            = ("", some e) ∧
          res = ("", some e))) := by
  obtain ⟨added, h1, h2⟩ := DownloadFiles_trace env d _ _ sched _ t' m none hdl
  obtain ⟨done, left, k1, k2, k3, k4⟩ := uploadWalk_stop env r.bucketClient
    (env.WalkDir
      (t' ++ [Call.carTo carDir sourceDir r.parallel, Call.merge sourceDir r.parallel true])
      sourceDir) ""
    (t' ++ [Call.carTo carDir sourceDir r.parallel, Call.merge sourceDir r.parallel true,
      Call.walkDir sourceDir])
  obtain ⟨ups, u1, u2, u3⟩ := uploadAll_trace env r.bucketClient (walkFiles done)
    (t' ++ [Call.carTo carDir sourceDir r.parallel, Call.merge sourceDir r.parallel true,
      Call.walkDir sourceDir])
  have hb : Build env r name (first :: rest) sched t =
      some (RestoreAndUpload env r carDir sourceDir t') := by
    subst hname hsource hcar
    simp only [Build, hpaths, if_false, hmk1, hmk2, Option.isSome_none, Bool.false_eq_true, hd,
      List.append_assoc, List.singleton_append, List.cons_append, List.nil_append]
    rw [hdl]
  have ht' : t ++ ([Call.mkdirAll sourceDir none, Call.mkdirAll carDir none] ++ added) = t' := by
    rw [h1, List.append_assoc]
  rw [RestoreAndUpload_eq] at hb
  refine ⟨(uploadWalk env r.bucketClient (env.WalkDir
      (t' ++ [Call.carTo carDir sourceDir r.parallel, Call.merge sourceDir r.parallel true])
      sourceDir) ""
      (t' ++ [Call.carTo carDir sourceDir r.parallel, Call.merge sourceDir r.parallel true,
        Call.walkDir sourceDir])).1,
    [Call.mkdirAll sourceDir none, Call.mkdirAll carDir none] ++ added, ups, done, left,
    ?_, ht'.symm, ?_, u2, k1, k2, u3, u1.symm, ?_⟩
  · rw [hb, ht', ← u1, ← k3]
  · intro c hc
    rcases List.mem_append.1 hc with hc | hc
    · simp at hc
      rcases hc with hc | hc <;> subst hc <;> simp [isReassembly, isUploadCall]
    · exact h2 c hc
  · rcases k4 with ⟨k5, k6, k7⟩ | ⟨en, l', e, k5, k6, k7, k8⟩ | ⟨d', last, e, k5, k6, k7, k8, k9⟩
    · exact Or.inl ⟨k5, k6, by rw [k7]⟩
    · exact Or.inr (Or.inl ⟨en, l', e, k5, k6, k7, by rw [k8]⟩)
    · exact Or.inr (Or.inr ⟨d', last, e, k5, k6, k7, k8, k9⟩)

/-- Instance of C7 (amended): one download, one file in the output directory. -/
theorem build_reassembles_once_then_uploads_witness :
    ∃ res dl ups done left,
      Build exampleEnv exampleRebuilder "name" ["u1"] successSchedule [] =
        some (res, [] ++ dl ++ [Call.carTo "in/name" "out/name" exampleRebuilder.parallel,
          Call.merge "out/name" exampleRebuilder.parallel true, Call.walkDir "out/name"] ++ ups) ∧
      downloadedTrace = [] ++ dl ∧
      (∀ c ∈ dl, isReassembly c = false ∧ isUploadCall c = false) ∧
      (∀ c ∈ ups, isUploadCall c = true) ∧
      exampleEnv.WalkDir
        (downloadedTrace ++ [Call.carTo "in/name" "out/name" exampleRebuilder.parallel,
          Call.merge "out/name" exampleRebuilder.parallel true])
        "out/name" = done ++ left ∧
      (∀ x ∈ done, x.err = none) ∧
      uploadedPaths ups = walkFiles done ∧
      downloadedTrace ++ [Call.carTo "in/name" "out/name" exampleRebuilder.parallel,
          Call.merge "out/name" exampleRebuilder.parallel true, Call.walkDir "out/name"] ++ ups =
        uploadAll exampleEnv exampleRebuilder.bucketClient (walkFiles done)
          (downloadedTrace ++ [Call.carTo "in/name" "out/name" exampleRebuilder.parallel,
            Call.merge "out/name" exampleRebuilder.parallel true, Call.walkDir "out/name"]) ∧
      ((left = [] ∧
          allUploaded exampleEnv exampleRebuilder.bucketClient (walkFiles done)
            (downloadedTrace ++ [Call.carTo "in/name" "out/name" exampleRebuilder.parallel,
              Call.merge "out/name" exampleRebuilder.parallel true, Call.walkDir "out/name"])
            = true ∧
          res.2 = none) ∨
        (∃ entry left' e, left = entry :: left' ∧ entry.err = some e ∧
          allUploaded exampleEnv exampleRebuilder.bucketClient (walkFiles done)
            (downloadedTrace ++ [Call.carTo "in/name" "out/name" exampleRebuilder.parallel,
              Call.merge "out/name" exampleRebuilder.parallel true, Call.walkDir "out/name"])
            = true ∧
          res.2 = some e) ∨
        (∃ done' last e, done = done' ++ [last] ∧ last.isDir = false ∧
          allUploaded exampleEnv exampleRebuilder.bucketClient (walkFiles done')
            (downloadedTrace ++ [Call.carTo "in/name" "out/name" exampleRebuilder.parallel,
              Call.merge "out/name" exampleRebuilder.parallel true, Call.walkDir "out/name"])
            = true ∧
          (BucketClient.UploadFile exampleEnv exampleRebuilder.bucketClient last.path true
            (uploadAll exampleEnv exampleRebuilder.bucketClient (walkFiles done')
              (downloadedTrace ++ [Call.carTo "in/name" "out/name" exampleRebuilder.parallel,
                Call.merge "out/name" exampleRebuilder.parallel true,
                Call.walkDir "out/name"]))).1
            = ("", some e) ∧
          res = ("", some e))) :=
  build_reassembles_once_then_uploads exampleEnv exampleRebuilder "name" "u1" [] successSchedule
    [] downloadedTrace (exampleDownloader 3)
    (some [("u1", ⟨"in/name", "u1", "gid-1", 1, none⟩)])
    "name" "out/name" "in/name" rfl rfl rfl (by decide) rfl rfl rfl rfl

theorem retrievedFrom_append (cid : String) (a b : List Call) :
    retrievedFrom cid (a ++ b) = retrievedFrom cid a ++ retrievedFrom cid b := by
  simp [retrievedFrom, List.filterMap_append]

theorem retrievedFrom_eq_nil (cid : String) (l : List Call)
    (h : ∀ c ∈ l, retrieveCid c ≠ some cid) : retrievedFrom cid l = [] := by
  induction l with
  | nil => rfl
  | cons c l ih =>
    have hc := h c (List.mem_cons_self _ _)
    have hl := ih (fun x hx => h x (List.mem_cons_of_mem _ hx))
    simp only [retrievedFrom, List.filterMap_cons] at hl ⊢
    cases c <;> simp [retrieveCid] at hc <;> simp [hl]
    rename_i minerId dataCid savePath wallet err
    simp [hc]

theorem Retrieve_tail (env : Env) (r : Rebuilder) (name : String) (carInfos : List CarInfo)
    (wallet : String) (savePath : List String) (t : List Call) (carDir : String)
    (hne : carInfos ≠ []) (hcar : carDir = env.Join r.inputPath name)
    (hmk : env.MkdirAll t carDir = none) :
    ∃ tail, (Retrieve env r name carInfos wallet savePath t).2 =
        (retrieveInfos env r wallet carDir carInfos (t ++ [Call.mkdirAll carDir none])).2 ++ tail ∧
      ∀ c ∈ tail, retrieveCid c = none := by
  subst hcar
  have hlen : ¬ carInfos.length = 0 := by
    intro h; exact hne (List.length_eq_zero.1 h)
  simp only [Retrieve, hlen, if_false, hmk, Option.isSome_none, Bool.false_eq_true]
  cases hri : retrieveInfos env r wallet (env.Join r.inputPath name) carInfos
      (t ++ [Call.mkdirAll (env.Join r.inputPath name) none]) with
  | mk e t' =>
    cases e with
    | some e => exact ⟨[], by simp, by simp⟩
    | none =>
      simp only
      split
      · exact ⟨[_], rfl, by simp [retrieveCid]⟩
      · rename_i hmk2
        obtain ⟨ups, h1, h2, _, _⟩ := RestoreAndUpload_trace env r (env.Join r.inputPath name)
          (env.Join (Retrieve_path r savePath) name)
          (t' ++ [Call.mkdirAll (env.Join (Retrieve_path r savePath) name)
            (env.MkdirAll t' (env.Join (Retrieve_path r savePath) name))])
        rw [h1]
        refine ⟨_, (by simp only [List.append_assoc]; rfl), ?_⟩
        intro c hc
        rcases List.mem_append.1 hc with hc | hc
        · simp at hc; subst hc; rfl
        · rcases List.mem_append.1 hc with hc | hc
          · simp at hc
            rcases hc with rfl | rfl | rfl <;> rfl
          · have := h2 c hc
            cases c <;> simp [isUploadCall] at this <;> rfl



theorem retrieveInfos_reach (env : Env) (r : Rebuilder) (wallet carDir : String)
    (pre : List CarInfo) (info : CarInfo) (post : List CarInfo) (t t1 : List Call)
    (hcid : info.CID ≠ "") (hK : info.Deals ≠ [])
    (hpre : retrieveInfos env r wallet carDir pre t = (none, t1)) :
    retrieveInfos env r wallet carDir (pre ++ info :: post) t =
      match retrieveDeals env r info.CID wallet carDir info.Deals t1 with
      | (false, t') => (some ("retrieve failed with file :" ++ info.CID), t')
      | (true, t') => retrieveInfos env r wallet carDir post t' := by
  rw [retrieveInfos_append env r wallet carDir pre (info :: post) t (by rw [hpre]), hpre]
  have hlen : ¬ info.Deals.length = 0 := fun h => hK (List.length_eq_zero.1 h)
  simp only [retrieveInfos, hcid, hlen, or_self, if_false]

/-- C3 (amended): the artifact `info` has a non-empty content address,
providers with non-empty ids, and the lotus client is configured; `Retrieve`
reaches it (the shard directory was created and the artifacts `pre` before it
were retrieved, which leaves the trace `t1`).  If the attempts for the
providers `failing` fail in turn and the attempt for the next provider `good`
succeeds, then the calls `seg` that `Retrieve` makes for this artifact are
calls of the retrieval collaborator for exactly the providers
`failing ++ [good]`, in list order, and for none of the providers `later`.
Every retrieval call before `seg` is made for an artifact of `pre` and every
one after it for an artifact of `post`; so when no other artifact of the list
carries the same content address, these are all the calls of the run for it. -/
theorem retrieve_stops_at_first_success (env : Env) (r : Rebuilder) (name : String)
    (pre : List CarInfo) (info : CarInfo) (post : List CarInfo) (wallet : String)
    (savePath : List String) (t t1 : List Call) (carDir : String)
    (failing : List CarDeal) (good : CarDeal) (later : List CarDeal)
    (hlotus : r.lotusClient.isSome = true) (hcid : info.CID ≠ "")
    (hdeals : info.Deals = failing ++ good :: later)
    (hminers : ∀ deal ∈ info.Deals, deal.MinerFid ≠ "")
    (hcar : carDir = env.Join r.inputPath name)
    (hmk : env.MkdirAll t carDir = none)
    (hpre : retrieveInfos env r wallet carDir pre (t ++ [Call.mkdirAll carDir none]) = (none, t1))
    (hfail : allFail env r info.CID wallet carDir failing t1 = true)
    (hgood : (RetrieveFile env r info.CID good.MinerFid wallet carDir
      (attemptAll env r info.CID wallet carDir failing t1)).1 = none) :
    ∃ before seg after,
      (Retrieve env r name (pre ++ info :: post) wallet savePath t).2
        = t ++ before ++ seg ++ after ∧
      t1 = t ++ before ∧
      (∀ c ∈ before, ∀ cid, retrieveCid c = some cid → ∃ a ∈ pre, a.CID = cid) ∧
      (∀ c ∈ seg, retrieveCid c = some info.CID) ∧
      retrievedFrom info.CID seg = (failing ++ [good]).map (fun deal => deal.MinerFid) ∧
      (∀ c ∈ after, ∀ cid, retrieveCid c = some cid → ∃ a ∈ post, a.CID = cid) ∧
      ((∀ a ∈ pre ++ post, a.CID ≠ info.CID) →
        retrievedFrom info.CID (before ++ seg ++ after)
          = (failing ++ [good]).map (fun deal => deal.MinerFid)) := by
  have hK : info.Deals ≠ [] := by rw [hdeals]; simp
  obtain ⟨tail, htail, htailc⟩ := Retrieve_tail env r name (pre ++ info :: post) wallet savePath t
    carDir (by simp) hcar hmk
  have hloop := retrieveInfos_reach env r wallet carDir pre info post _ t1 hcid hK hpre
  have hd : retrieveDeals env r info.CID wallet carDir info.Deals t1 =
      (true, attemptAll env r info.CID wallet carDir (failing ++ [good]) t1) := by
    rw [hdeals, retrieveDeals_allFail env r info.CID wallet carDir failing (good :: later) t1 hfail]
    simp only [retrieveDeals]
    cases hr : RetrieveFile env r info.CID good.MinerFid wallet carDir
        (attemptAll env r info.CID wallet carDir failing t1) with
    | mk e t' =>
      rw [hr] at hgood
      simp only at hgood
      subst hgood
      simp only [attemptAll_append, attemptAll, hr]
  rw [hd] at hloop
  simp only at hloop
  obtain ⟨addPre, hp1, hp2⟩ := retrieveInfos_trace env r wallet carDir pre
    (t ++ [Call.mkdirAll carDir none])
  rw [hpre] at hp1
  simp only at hp1
  obtain ⟨seg, hs1, hs2⟩ := attemptAll_configured env r info.CID wallet carDir (failing ++ [good])
    hlotus hcid (by
      intro x hx
      apply hminers x
      rw [hdeals]
      rcases List.mem_append.1 hx with h | h
      · exact List.mem_append_left _ h
      · simp at h; subst h; simp) t1
  obtain ⟨seg', hs3, hs4, _⟩ := attemptAll_trace env r info.CID wallet carDir (failing ++ [good]) t1
  have hseg : seg' = seg := List.append_cancel_left (hs3.symm.trans hs1)
  subst hseg
  obtain ⟨addPost, hq1, hq2⟩ := retrieveInfos_trace env r wallet carDir post
    (attemptAll env r info.CID wallet carDir (failing ++ [good]) t1)
  have hbefore : ∀ c ∈ [Call.mkdirAll carDir none] ++ addPre, ∀ cid,
      retrieveCid c = some cid → ∃ a ∈ pre, a.CID = cid := by
    intro c hc cid hcc
    rcases List.mem_append.1 hc with hc | hc
    · simp at hc; subst hc; simp [retrieveCid] at hcc
    · obtain ⟨a, ha, hca⟩ := hp2 c hc
      rw [hca] at hcc
      exact ⟨a, ha, Option.some.inj hcc⟩
  have hafter : ∀ c ∈ addPost ++ tail, ∀ cid,
      retrieveCid c = some cid → ∃ a ∈ post, a.CID = cid := by
    intro c hc cid hcc
    rcases List.mem_append.1 hc with hc | hc
    · obtain ⟨a, ha, hca⟩ := hq2 c hc
      rw [hca] at hcc
      exact ⟨a, ha, Option.some.inj hcc⟩
    · rw [htailc c hc] at hcc; simp at hcc
  refine ⟨[Call.mkdirAll carDir none] ++ addPre, seg', addPost ++ tail, ?_, ?_, hbefore, hs4,
    hs2, hafter, ?_⟩
  · rw [htail, hloop, hq1, hs1, hp1]
    simp only [List.append_assoc]
  · rw [hp1]; simp only [List.append_assoc]
  · intro hother
    rw [retrievedFrom_append, retrievedFrom_append,
      retrievedFrom_eq_nil info.CID ([Call.mkdirAll carDir none] ++ addPre),
      retrievedFrom_eq_nil info.CID (addPost ++ tail), hs2]
    · simp
    · intro c hc h
      obtain ⟨a, ha, hca⟩ := hafter c hc _ h
      exact hother a (List.mem_append_right _ ha) hca
    · intro c hc h
      obtain ⟨a, ha, hca⟩ := hbefore c hc _ h
      exact hother a (List.mem_append_left _ ha) hca

/-- Instance of C3 (amended): `exampleInfo` stands between two other artifacts;
of its four providers the third is the first to succeed. -/
theorem retrieve_stops_at_first_success_witness :
    ∃ before seg after,
      (Retrieve thirdProviderEnv exampleRebuilder "name" ([servedInfo] ++ exampleInfo :: [laterInfo])
          "" [] []).2 = [] ++ before ++ seg ++ after ∧
      reachedTrace = [] ++ before ∧
      (∀ c ∈ before, ∀ cid, retrieveCid c = some cid → ∃ a ∈ [servedInfo], a.CID = cid) ∧
      (∀ c ∈ seg, retrieveCid c = some exampleInfo.CID) ∧
      retrievedFrom exampleInfo.CID seg =
        ["f01", "f02", "f03"] ∧
      (∀ c ∈ after, ∀ cid, retrieveCid c = some cid → ∃ a ∈ [laterInfo], a.CID = cid) ∧
      ((∀ a ∈ [servedInfo] ++ [laterInfo], a.CID ≠ exampleInfo.CID) →
        retrievedFrom exampleInfo.CID (before ++ seg ++ after) =
          ["f01", "f02", "f03"]) :=
  retrieve_stops_at_first_success thirdProviderEnv exampleRebuilder "name" [servedInfo]
    exampleInfo [laterInfo] "" [] [] reachedTrace "in/name"
    [⟨1, "deal-1", "f01"⟩, ⟨2, "deal-2", "f02"⟩] ⟨3, "deal-3", "f03"⟩ [⟨4, "deal-4", "f04"⟩]
    rfl (by decide) rfl (by decide) rfl rfl rfl rfl rfl

/-- C3 (counterexample): in a world where the providers `f01` and `f02` fail
for `bafy-a` and `f03` serves it, `exampleInfo` comes second in the list,
behind an artifact that none of its providers serves: `Retrieve` returns at
the first artifact and never calls the collaborator for `bafy-a`, not three
times.  The same happens when the shard directory cannot be created. -/
theorem retrieve_skips_unreached_artifact :
    (∀ t, (RetrieveFile thirdProviderEnv exampleRebuilder "bafy-a" "f01" "" "in/name" t).1
      = some "no route") ∧
    (∀ t, (RetrieveFile thirdProviderEnv exampleRebuilder "bafy-a" "f02" "" "in/name" t).1
      = some "no route") ∧
    (∀ t, (RetrieveFile thirdProviderEnv exampleRebuilder "bafy-a" "f03" "" "in/name" t).1 = none) ∧
    Retrieve thirdProviderEnv exampleRebuilder "name" [unservedInfo, exampleInfo] "" [] [] =
      (("", some "retrieve failed with file :bafy-z"),
        [Call.mkdirAll "in/name" none, Call.retrieveFile "bafy-z" "f09" "" "in/name",
          Call.retrieveData "f09" "bafy-z" "in/name/f09-bafy-z.car" "wallet" (some "no route"),
          Call.retrieveFile "bafy-z" "f08" "" "in/name",
          Call.retrieveData "f08" "bafy-z" "in/name/f08-bafy-z.car" "wallet"
            (some "no route")]) ∧
    retrievedFrom "bafy-a"
      (Retrieve thirdProviderEnv exampleRebuilder "name" [unservedInfo, exampleInfo] "" [] []).2
      = [] ∧
    Retrieve noDirEnv exampleRebuilder "name" [exampleInfo] "" [] [] =
      (("", some "read-only file system"),
        [Call.mkdirAll "in/name" (some "read-only file system")]) :=
  ⟨fun _ => rfl, fun _ => rfl, fun _ => rfl, rfl, rfl, rfl⟩

/-- C11 (counterexample): the agent reports the file as complete with length
100, the file on disk has 5 bytes; `DownloadStatus` reports success. -/
theorem download_status_ignores_size :
    (Atoi "100").1 = 100 ∧
    Client.DownloadStatus ⟨"", "http://localhost:6800/jsonrpc"⟩ (Except.ok completeResp)
      (fun _ => (5, none)) "gid-1" = (true, none) :=
  ⟨rfl, rfl⟩

/-- C11 (amended): for a job whose agent-reported status is `complete`,
`DownloadStatus` reports success exactly when the reply carries no error
object, lists exactly one file, and `os.Stat` finds that file, whatever its
size; in every other case it reports `false` together with an error. -/
theorem download_status_complete (aria2Client : Client) (resp : StatusResp)
    (result : StatusResult) (osStat : String → Int × Option String) (gid : String)
    (hR : resp.Result = some result) (hS : result.Status = StatusComplete) :
    (Client.DownloadStatus aria2Client (Except.ok resp) osStat gid = (true, none) ↔
      (resp.Error = none ∧ ∃ file, result.Files = [file] ∧ (osStat file.Path).2 = none)) ∧
    (¬ (resp.Error = none ∧ ∃ file, result.Files = [file] ∧ (osStat file.Path).2 = none) →
      ∃ msg, Client.DownloadStatus aria2Client (Except.ok resp) osStat gid
        = (false, some msg)) := by
  have h1 : ¬ StatusComplete = StatusError := by decide
  have h2 : ¬ StatusComplete = StatusWaiting := by decide
  have h3 : ¬ StatusComplete = StatusActive := by decide
  cases hE : resp.Error with
  | some e => simp [Client.DownloadStatus, hE]
  | none =>
    cases hF : result.Files with
    | nil => simp [Client.DownloadStatus, hE, hR, hF]
    | cons file rest =>
      cases rest with
      | cons g rest => simp [Client.DownloadStatus, hE, hR, hF]
      | nil =>
        simp only [Client.DownloadStatus, hE, hR, hF, hS, h1, h2, h3, if_false, if_true]
        cases h : (osStat file.Path).2 with
        | none => simp [h]
        | some e => simp [h]

/-- Instance of C11 (amended): the file of `completeResp` is on disk with 5 bytes. -/
theorem download_status_complete_witness :
    (Client.DownloadStatus ⟨"", ""⟩ (Except.ok completeResp) (fun _ => (5, none)) "gid-1"
        = (true, none) ↔
      (completeResp.Error = none ∧
        ∃ file, [(⟨"100", "1", "100", "/dir/a.car", "true"⟩ : Aria2StatusResultFile)] = [file] ∧
          ((fun _ => (5, none) : String → Int × Option String) file.Path).2 = none)) ∧
    (¬ (completeResp.Error = none ∧
        ∃ file, [(⟨"100", "1", "100", "/dir/a.car", "true"⟩ : Aria2StatusResultFile)] = [file] ∧
          ((fun _ => (5, none) : String → Int × Option String) file.Path).2 = none) →
      ∃ msg, Client.DownloadStatus ⟨"", ""⟩ (Except.ok completeResp) (fun _ => (5, none)) "gid-1"
        = (false, some msg)) :=
  download_status_complete ⟨"", ""⟩ completeResp
    ⟨"0", "", "complete", [⟨"100", "1", "100", "/dir/a.car", "true"⟩]⟩
    (fun _ => (5, none)) "gid-1" rfl rfl

/-! ## The build command -/

theorem fileURLsOf_map (carInfos : List CarInfo) (f : CarInfo → CarInfo)
    (hf : ∀ info, (f info).CarFileUrl = info.CarFileUrl) :
    fileURLsOf (carInfos.map f) = fileURLsOf carInfos := by
  simp [fileURLsOf, List.map_map, Function.comp, hf]

theorem ReadInv_step (carInfos : List CarInfo) (m : List String) (url : String)
    (h : ReadInv carInfos m) :
    ReadInv
      (if decide (url ∉ m) = true then carInfos ++ [{ CarFileUrl := url, CID := "", Deals := [] }]
        else carInfos)
      (if decide (url ∉ m) = true then url :: m else m) := by
  obtain ⟨h1, h2⟩ := h
  by_cases hm : url ∈ m
  · simp only [hm, not_true_eq_false, decide_False, Bool.false_eq_true, if_false]
    exact ⟨h1, h2⟩
  · simp only [hm, not_false_eq_true, decide_True, if_true]
    have hnot : url ∉ fileURLsOf carInfos := fun hc => hm ((h2 url).2 hc)
    constructor
    · simp only [fileURLsOf, List.map_append, List.map_cons, List.map_nil] at hnot ⊢
      rw [List.nodup_append]
      refine ⟨h1, by simp, ?_⟩
      intro a ha hb
      simp at hb
      subst hb
      exact hnot ha
    · intro u
      simp only [fileURLsOf, List.map_append, List.map_cons, List.map_nil, List.mem_cons,
        List.mem_append, List.mem_singleton, List.not_mem_nil, or_false]
      rw [h2 u]
      simp only [fileURLsOf]
      tauto

theorem ReadInv_map (carInfos : List CarInfo) (m : List String) (f : CarInfo → CarInfo)
    (hf : ∀ info, (f info).CarFileUrl = info.CarFileUrl) (h : ReadInv carInfos m) :
    ReadInv (carInfos.map f) m := by
  unfold ReadInv
  rw [fileURLsOf_map carInfos f hf]
  exact h

theorem readCarJson_loop_nodup (list : List CarInfo) :
    ∀ (carInfos : List CarInfo) (m : List String) (out : List CarInfo),
      ReadInv carInfos m → readCarJson_loop list carInfos m = Except.ok out →
      (fileURLsOf out).Nodup := by
  induction list with
  | nil =>
    intro carInfos m out hinv h
    simp [readCarJson_loop] at h
    subst h
    exact hinv.1
  | cons cj list ih =>
    intro carInfos m out hinv h
    simp only [readCarJson_loop] at h
    split at h
    · simp at h
    · refine ih _ _ out ?_ h
      apply ReadInv_map
      · intro info; split <;> rfl
      · exact ReadInv_step carInfos m cj.CarFileUrl hinv

theorem readCarCsv_loop_nodup (cmd : CmdEnv) (header : List String)
    (records : List (List String)) :
    ∀ (carInfos : List CarInfo) (m : List String) (out : List CarInfo),
      ReadInv carInfos m → readCarCsv_loop cmd header records carInfos m = Except.ok out →
      (fileURLsOf out).Nodup := by
  induction records with
  | nil =>
    intro carInfos m out hinv h
    simp [readCarCsv_loop] at h
    subst h
    exact hinv.1
  | cons fields records ih =>
    intro carInfos m out hinv h
    simp only [readCarCsv_loop] at h
    split at h
    · simp at h
    · rename_i carURL _
      split at h
      · simp at h
      · split at h
        · simp at h
        · split at h
          · simp at h
          · refine ih _ _ out ?_ h
            apply ReadInv_map
            · intro info; split <;> rfl
            · apply ReadInv_map
              · intro info; split <;> rfl
              · exact ReadInv_step carInfos m carURL hinv

theorem readCarFile_nodup (cmd : CmdEnv) (path : String) (out : List CarInfo)
    (h : readCarFile cmd path = Except.ok out) : (fileURLsOf out).Nodup := by
  have h0 : ReadInv [] [] := ⟨by simp [fileURLsOf], by simp [fileURLsOf]⟩
  simp only [readCarFile] at h
  split at h
  · simp only [readCarCsv] at h
    split at h
    · simp at h
    · split at h
      · simp at h; subst h; simp [fileURLsOf]
      · split at h
        · simp at h
        · exact readCarCsv_loop_nodup cmd _ _ [] [] out h0 h
  · split at h
    · simp only [readCarJson] at h
      split at h
      · simp at h
      · split at h
        · simp at h
        · exact readCarJson_loop_nodup _ [] [] out h0 h
    · simp at h

theorem carURLs_foldl (carInfos : List CarInfo) :
    ∀ (args : List String),
      carInfos.foldl
        (fun carURLs info =>
          if info.CarFileUrl ≠ "" then carURLs ++ [info.CarFileUrl] else carURLs) args
      = args ++ (fileURLsOf carInfos).filter (fun u => u ≠ "") := by
  induction carInfos with
  | nil => intro args; simp [fileURLsOf]
  | cons info rest ih =>
    intro args
    simp only [List.foldl_cons]
    rw [ih]
    by_cases h : info.CarFileUrl = ""
    · simp [fileURLsOf, h]
    · simp [fileURLsOf, h]

/-- C12 (counterexample): the records file holds the URLs of `a.car` and
`b.car`, and the command line repeats the URL of `a.car`; the URLs passed to
`Build` contain it twice. -/
theorem build_urls_repeat_argument :
    (buildCmd_carURLs exampleCmd duplicateContext).map (fun read => read.2) =
      Except.ok ["http://host/a.car", "http://host/a.car", "http://host/b.car"] ∧
    ¬ (["http://host/a.car", "http://host/a.car", "http://host/b.car"] : List String).Nodup :=
  ⟨rfl, by decide⟩

/-- C12 (amended): the URLs passed to `Build` are the URLs of the command
line, as given, followed by the URLs of the artifacts read from the records
file, and among the latter no URL occurs more than once. -/
theorem build_urls_from_file_nodup (cmd : CmdEnv) (ctx : BuildContext)
    (carInfos : List CarInfo) (carURLs : List String)
    (h : buildCmd_carURLs cmd ctx = Except.ok (carInfos, carURLs)) :
    ∃ fromFile, carURLs = ctx.args ++ fromFile ∧ fromFile.Nodup ∧
      fromFile = (fileURLsOf carInfos).filter (fun u => u ≠ "") := by
  simp only [buildCmd_carURLs] at h
  split at h
  · simp at h
  · split at h
    · simp at h
    · rename_i infos hread
      rw [carURLs_foldl] at h
      split at h
      · simp at h
      · simp only [Except.ok.injEq, Prod.mk.injEq] at h
        obtain ⟨h1, h2⟩ := h
        subst h1
        refine ⟨_, h2.symm, ?_, rfl⟩
        have hnd : (fileURLsOf infos).Nodup := by
          split at hread
          · exact readCarFile_nodup cmd ctx.file infos hread
          · simp at hread; subst hread; simp [fileURLsOf]
        exact hnd.filter _

/-- Instance of C12 (amended): the request of `duplicateContext`. -/
theorem build_urls_from_file_nodup_witness :
    ∃ fromFile,
      ["http://host/a.car", "http://host/a.car", "http://host/b.car"]
        = duplicateContext.args ++ fromFile ∧ fromFile.Nodup ∧
      fromFile = (fileURLsOf
        [⟨"http://host/a.car", "", []⟩, ⟨"http://host/b.car", "", [⟨1, "deal-1", "f01"⟩]⟩]).filter
          (fun u => u ≠ "") :=
  build_urls_from_file_nodup exampleCmd duplicateContext
    [⟨"http://host/a.car", "", []⟩, ⟨"http://host/b.car", "", [⟨1, "deal-1", "f01"⟩]⟩]
    ["http://host/a.car", "http://host/a.car", "http://host/b.car"] rfl

theorem append_car_cancel (a b : String) : a ++ ".car" = b ++ ".car" ↔ a = b := by
  constructor
  · intro h
    have h1 : (a ++ ".car").data = (b ++ ".car").data := by rw [h]
    simp only [String.data_append] at h1
    have h2 := List.append_cancel_right h1
    exact String.ext h2
  · intro h; rw [h]

/-- C13 (counterexample): two different URLs with the same last path element
are given the same file name in the same directory. -/
theorem download_names_collide :
    ("http://a.example/shard" : String) ≠ "http://b.example/shard" ∧
    downloadFile baseEnv "dir" "http://a.example/shard" "gid-1" none =
      Call.downloadFile "http://a.example/shard" "dir" "shard.car" "gid-1" none ∧
    downloadFile baseEnv "dir" "http://b.example/shard" "gid-2" none =
      Call.downloadFile "http://b.example/shard" "dir" "shard.car" "gid-2" none :=
  ⟨by decide, rfl, rfl⟩

/-- C13 (amended): `downloadFile` asks the agent to write the file
`filepath.Base(url) + ".car"` in the shared directory, and the names for two
URLs are different exactly when their last path elements are different. -/
theorem download_names_differ_iff (env : Env) (dirPath url1 url2 : String) :
    (∀ gid err, downloadFile env dirPath url1 gid err =
      Call.downloadFile url1 dirPath (downloadFile_name env url1) gid err) ∧
    (∀ gid err, downloadFile env dirPath url2 gid err =
      Call.downloadFile url2 dirPath (downloadFile_name env url2) gid err) ∧
    (downloadFile_name env url1 ≠ downloadFile_name env url2 ↔ env.Base url1 ≠ env.Base url2) := by
  refine ⟨fun _ _ => rfl, fun _ _ => rfl, ?_⟩
  simp only [downloadFile_name, ne_eq, append_car_cancel]

/-- C15 (evaluation at the failing input): a configuration with
`parallel = -1` is accepted by `NewRebuilder`, the rebuilder stores -1 as its
bound, and `NewDownloader` panics on it (`make` of a channel of negative size). -/
theorem new_rebuilder_keeps_negative_parallel :
    (NewRebuilder negativeParallelCmd (some negativeParallelConfig)).map
      (fun r => r.parallel) = Except.ok (-1) ∧
    (NewDownloader (-1)).isNone = true :=
  ⟨rfl, rfl⟩

/-- The bound that `NewRebuilder` stores: for every configuration it accepts,
the bound is 3 when the configured value is 0 and the configured value
otherwise; it is at least 1 whenever the configured value is not negative. -/
theorem new_rebuilder_parallel (cmd : CmdEnv) (conf : Config) (task : Task) (r : Rebuilder)
    (htask : conf.Task = some task)
    (h : NewRebuilder cmd (some conf) = Except.ok r) :
    r.parallel = (if task.Parallel = 0 then 3 else task.Parallel) ∧
      (0 ≤ task.Parallel → 1 ≤ r.parallel) := by
  have hp : r.parallel = (if task.Parallel = 0 then 3 else task.Parallel) := by
    simp only [NewRebuilder, htask] at h
    split at h
    · simp at h
    · split at h
      · simp at h
      · split at h
        · simp at h
        · split at h
          · split at h
            · simp at h
            · simp at h; rw [← h]
          · simp at h; rw [← h]
  refine ⟨hp, ?_⟩
  intro h0
  rw [hp]
  split <;> omega

/-- Instance of `new_rebuilder_parallel`: `parallel` is left at 0 in the configuration. -/
theorem new_rebuilder_parallel_witness :
    exampleRebuilder.parallel = (if (0 : Int) = 0 then 3 else 0) ∧
      ((0 : Int) ≤ 0 → 1 ≤ exampleRebuilder.parallel) :=
  new_rebuilder_parallel exampleCmd defaultParallelConfig ⟨"in", "out", 0⟩ exampleRebuilder
    rfl rfl

/-- C16 (evaluation at the failing input): a rebuilder whose input and output
directory are both `in`; `Retrieve` fetches the shard and then calls
reassembly with the shard directory `in/name` as the output directory too. -/
theorem retrieve_reassembles_into_shard_directory :
    samePathRebuilder.inputPath = samePathRebuilder.outputPath ∧
    (Retrieve thirdProviderEnv samePathRebuilder "name" [exampleInfo] "" [] []).2.filter
        isReassembly =
      [Call.carTo "in/name" "in/name" 3, Call.merge "in/name" 3 true] :=
  ⟨rfl, rfl⟩

/-- C18 (evaluation at the failing input): the records file holds one record
with content address `bafy-b` and one deal; the artifact that `readCarJson`
returns has an empty content address, and `Retrieve` rejects it. -/
theorem read_car_json_drops_cid :
    oneRecordCmd.UnmarshalCarInfos "[...]" =
      Except.ok [⟨"http://host/b.car", "bafy-b", [⟨1, "deal-1", "f01"⟩]⟩] ∧
    readCarJson oneRecordCmd "cars.json" =
      Except.ok [⟨"http://host/b.car", "", [⟨1, "deal-1", "f01"⟩]⟩] ∧
    Retrieve exampleEnv exampleRebuilder "name"
        [⟨"http://host/b.car", "", [⟨1, "deal-1", "f01"⟩]⟩] "" [] [] =
      (("", some "invalid empty cid or miners"), [Call.mkdirAll "in/name" none]) :=
  ⟨rfl, rfl, rfl⟩

/-- C19 (evaluation at the failing input): header `a,b,c` and data line
`x,y`.  The line has the two fields `x` and `y`, but the row returned is
`x`, empty, empty: the field `y` is lost. -/
theorem read_raw_csv_drops_last_field :
    (splitComma "x,y".data).map String.mk = ["x", "y"] ∧
    readRawCSVFile_lines ["a,b,c", "x,y"] [] 0 = [["a", "b", "c"], ["x", "", ""]] :=
  ⟨rfl, rfl⟩


/-- C14 (counterexample): the records file lists an artifact without deals
and then an artifact with a deal; the download fails; the build command
returns the download error and makes no retrieval attempt. -/
theorem build_command_ignores_later_deals :
    (buildCmd_carURLs csvCmd csvContext).map (fun read => read.1) =
      Except.ok
        [⟨"http://host/a.car", "bafy-a", []⟩,
         ⟨"http://host/b.car", "bafy-b", [⟨1, "deal-1", "f01"⟩]⟩] ∧
    (buildCmd_Action exampleEnv csvCmd csvContext rejectSchedule []).map
        (fun res => (res.1, attempts res.2)) = some (some "rejected", []) :=
  ⟨rfl, rfl⟩

/-- C14 (amended): when the download of a build request fails, the build
command falls back to `Retrieve` (and returns its error) exactly when the
first artifact of the records file carries a non-empty deal list; otherwise
it returns the download error. -/
theorem build_command_fallback (env : Env) (cmd : CmdEnv) (ctx : BuildContext)
    (sched : List Event) (t t' : List Call) (carInfos : List CarInfo)
    (carURLs : List String) (r : Rebuilder) (url err : String)
    (hread : buildCmd_carURLs cmd ctx = Except.ok (carInfos, carURLs))
    (hr : buildCmd_rebuilder cmd ctx (if ctx.conf = "" then defaultConfPath else ctx.conf)
      = some (Except.ok r))
    (hb : Build env r ctx.name carURLs sched t = some ((url, some err), t')) :
    (∀ first rest, carInfos = first :: rest → first.Deals ≠ [] →
      buildCmd_Action env cmd ctx sched t =
        some ((Retrieve env r (if ctx.name = "" then env.Base ctx.file else ctx.name)
            carInfos ctx.wallet [] t').1.2,
          (Retrieve env r (if ctx.name = "" then env.Base ctx.file else ctx.name)
            carInfos ctx.wallet [] t').2)) ∧
    ((carInfos = [] ∨ ∃ first rest, carInfos = first :: rest ∧ first.Deals = []) →
      buildCmd_Action env cmd ctx sched t = some (some err, t')) := by
  have hconf : ¬ (if ctx.conf = "" then defaultConfPath else ctx.conf) = "" := by
    split
    · decide
    · assumption
  have hact : buildCmd_Action env cmd ctx sched t =
      some (buildCmd_finish env r ctx carInfos ((url, some err), t')) := by
    simp only [buildCmd_Action, hconf, if_false, hread, hr, hb]
  rw [hact]
  constructor
  · intro first rest hc hd
    subst hc
    have hlen : first.Deals.length > 0 := List.length_pos.2 hd
    simp only [buildCmd_finish, hlen, if_true]
  · rintro (hc | ⟨first, rest, hc, hd⟩)
    · subst hc
      simp only [buildCmd_finish]
    · subst hc
      simp only [buildCmd_finish, hd, List.length_nil, gt_iff_lt, Nat.lt_irrefl, if_false]

/-- Instance of C14 (amended): one artifact with a deal, the download is rejected. -/
theorem build_command_fallback_witness :
    (∀ first rest,
      [(⟨"http://host/b.car", "bafy-b", [⟨1, "deal-1", "f01"⟩]⟩ : CarInfo)] = first :: rest →
      first.Deals ≠ [] →
      buildCmd_Action exampleEnv oneRowCsvCmd csvContext rejectSchedule [] =
        some ((Retrieve exampleEnv exampleRebuilder
            (if csvContext.name = "" then exampleEnv.Base csvContext.file else csvContext.name)
            [⟨"http://host/b.car", "bafy-b", [⟨1, "deal-1", "f01"⟩]⟩] csvContext.wallet []
            rejectedTrace).1.2,
          (Retrieve exampleEnv exampleRebuilder
            (if csvContext.name = "" then exampleEnv.Base csvContext.file else csvContext.name)
            [⟨"http://host/b.car", "bafy-b", [⟨1, "deal-1", "f01"⟩]⟩] csvContext.wallet []
            rejectedTrace).2)) ∧
    (([(⟨"http://host/b.car", "bafy-b", [⟨1, "deal-1", "f01"⟩]⟩ : CarInfo)] = [] ∨
        ∃ first rest,
          [(⟨"http://host/b.car", "bafy-b", [⟨1, "deal-1", "f01"⟩]⟩ : CarInfo)] = first :: rest ∧
            first.Deals = []) →
      buildCmd_Action exampleEnv oneRowCsvCmd csvContext rejectSchedule [] =
        some (some "rejected", rejectedTrace)) :=
  build_command_fallback exampleEnv oneRowCsvCmd csvContext rejectSchedule [] rejectedTrace
    [⟨"http://host/b.car", "bafy-b", [⟨1, "deal-1", "f01"⟩]⟩] ["http://host/b.car"]
    exampleRebuilder "" "rejected" rfl rfl rfl

/-! ## A download that returns nil -/

theorem step_FeedInv (env : Env) (s s' : Downloader) (e : Event)
    (h : step env s e = some s') (hi : FeedInv s) : FeedInv s' := by
  unfold FeedInv at hi ⊢
  cases e <;> simp only [step] at h
  case feed =>
    split at h
    · simp at h
    · split at h
      · simp at h
      · rename_i fileURL hget
        split at h
        · cases h
          have hlt : s.feedIdx < s.fileURLs.length := by
            rcases Nat.lt_or_ge s.feedIdx s.fileURLs.length with hlt | hge
            · exact hlt
            · rw [List.getElem?_eq_none hge] at hget; cases hget
          simp at hi ⊢
          omega
        · simp at h
  case feederExit =>
    split at h
    · simp at h
    · split at h
      · cases h; simpa [inflight, pcKeys, waiting] using hi
      · simp at h
  case recvFinish =>
    split at h
    · rename_i hc
      obtain ⟨hpc, htok⟩ := hc
      simp only [doReturn] at h
      split at h
      · split at h <;> cases h <;> simp [inflight, pcKeys, waiting, hpc] at hi ⊢ <;> omega
      · cases h; simp [inflight, pcKeys, waiting, hpc] at hi ⊢; omega
    · simp at h
  case recvPre gid err =>
    split at h
    · rename_i hpc
      split at h
      · simp at h
      · rename_i key rest hpre
        have hlen : s.preChan.length = rest.length + 1 := by rw [hpre]; simp
        split at h
        · cases h; simp [inflight, pcKeys, waiting, hpc] at hi ⊢; omega
        · simp only [doReturn] at h
          cases err with
          | none =>
            simp at h; cases h
            simp [inflight, pcKeys, waiting, hpc, startedCount, succeededCount, failedCount,
              downloadFile, isStarted, isSucceeded, isFailed, isStartFailure, List.countP_append] at hi ⊢
            omega
          | some e =>
            simp at h
            split at h <;> cases h <;>
            simp [inflight, pcKeys, waiting, hpc, startedCount, succeededCount, failedCount,
              downloadFile, isStarted, isSucceeded, isFailed, isStartFailure, List.countP_append] at hi ⊢ <;>
            omega
    · simp at h
  case sendIn =>
    split at h
    · rename_i key hpc
      split at h
      · cases h; simp [inflight, pcKeys, waiting, hpc] at hi ⊢; omega
      · simp at h
    · simp at h
  case recvIn ok err =>
    split at h
    · rename_i hpc
      split at h
      · simp at h
      · rename_i key rest hin
        split at h
        · cases h; simp [inflight, pcKeys, waiting, hpc, hin] at hi ⊢; omega
        · simp only [doReturn] at h
          cases ok <;> cases err <;> simp at h <;> (try split at h) <;> cases h <;>
            simp [inflight, pcKeys, waiting, hpc, hin, startedCount, succeededCount, failedCount,
              isStarted, isSucceeded, isFailed, isStartFailure, List.countP_append] at hi ⊢ <;> omega
    · simp at h
  case tick =>
    split at h
    · rename_i hpc
      cases h; simp [inflight, pcKeys, waiting, hpc] at hi ⊢; omega
    · simp at h
  case tickSend =>
    split at h
    · rename_i hpc
      cases h; simp [inflight, pcKeys, waiting, hpc] at hi ⊢; omega
    · rename_i key rest hpc
      split at h
      · cases h; simp [inflight, pcKeys, waiting, hpc] at hi ⊢; omega
      · simp at h
    · simp at h
  case recvExit =>
    split at h
    · rename_i hc
      cases h; simp [inflight, pcKeys, waiting, hc.1] at hi ⊢; omega
    · simp at h

theorem step_DoneInv (env : Env) (s s' : Downloader) (e : Event)
    (h : step env s e = some s') (hs : SchedInv s) (hi : DoneInv s) : DoneInv s' := by
  unfold DoneInv at hi ⊢
  unfold SchedInv at hs
  cases e <;> simp only [step] at h
  case feed =>
    split at h
    · simp at h
    · split at h
      · simp at h
      · split at h
        · cases h; simpa [inflight, pcKeys] using hi
        · simp at h
  case feederExit =>
    split at h
    · simp at h
    · split at h
      · cases h; simpa [inflight, pcKeys] using hi
      · simp at h
  case recvFinish =>
    split at h
    · rename_i hc
      obtain ⟨hpc, htok⟩ := hc
      simp only [doReturn] at h
      split at h
      · rename_i htot
        split at h <;> cases h
        · simp
        · intro _
          refine ⟨?_, htot⟩
          simp only [inflight, pcKeys, waiting, hpc] at hs ⊢
          omega
      · cases h; simp
    · simp at h
  case recvPre gid err =>
    split at h
    · rename_i hpc
      split at h
      · simp at h
      · split at h
        · cases h; simp
        · simp only [doReturn] at h
          cases err with
          | none => simp at h; cases h; simp
          | some e => simp at h; split at h <;> cases h <;> simp
    · simp at h
  case sendIn =>
    split at h
    · split at h
      · cases h; simp
      · simp at h
    · simp at h
  case recvIn ok err =>
    split at h
    · rename_i hpc
      split at h
      · simp at h
      · split at h
        · cases h; simp
        · simp only [doReturn] at h
          cases ok <;> cases err <;> simp at h <;> (try split at h) <;> cases h <;> simp [hpc]
    · simp at h
  case tick =>
    split at h
    · cases h; simp
    · simp at h
  case tickSend =>
    split at h
    · cases h; simp
    · split at h
      · cases h; simp
      · simp at h
    · simp at h
  case recvExit =>
    split at h
    · cases h; simp
    · simp at h

theorem step_fileURLs (env : Env) (s s' : Downloader) (e : Event)
    (h : step env s e = some s') : s'.fileURLs = s.fileURLs := by
  cases e <;> simp only [step] at h
  case feed =>
    split at h
    · simp at h
    · split at h
      · simp at h
      · split at h
        · cases h; rfl
        · simp at h
  case feederExit =>
    split at h
    · simp at h
    · split at h
      · cases h; rfl
      · simp at h
  case recvFinish =>
    split at h
    · simp only [doReturn] at h
      split at h
      · split at h <;> cases h <;> rfl
      · cases h; rfl
    · simp at h
  case recvPre gid err =>
    split at h
    · split at h
      · simp at h
      · split at h
        · cases h; rfl
        · simp only [doReturn] at h
          split at h
          · split at h <;> cases h <;> rfl
          · cases h; rfl
    · simp at h
  case sendIn =>
    split at h
    · split at h
      · cases h; rfl
      · simp at h
    · simp at h
  case recvIn ok err =>
    split at h
    · split at h
      · simp at h
      · split at h
        · cases h; rfl
        · simp only [doReturn] at h
          split at h
          · cases h; rfl
          · split at h
            · split at h <;> cases h <;> rfl
            · cases h; rfl
    · simp at h
  case tick =>
    split at h
    · cases h; rfl
    · simp at h
  case tickSend =>
    split at h
    · cases h; rfl
    · split at h
      · cases h; rfl
      · simp at h
    · simp at h
  case recvExit =>
    split at h
    · cases h; rfl
    · simp at h

theorem noFailure_of_append (t : List Call) (c0 : Call)
    (h : ∀ c ∈ t ++ [c0], failureErr c = none) :
    (∀ c ∈ t, failureErr c = none) ∧ failureErr c0 = none :=
  ⟨fun c hc => h c (List.mem_append_left _ hc), h c0 (by simp)⟩

theorem step_CountInv (env : Env) (u : String) (s s' : Downloader) (e : Event)
    (h : step env s e = some s') (hi : CountInv u s) : CountInv u s' := by
  unfold CountInv at hi ⊢
  cases e <;> simp only [step] at h
  case feed =>
    split at h
    · simp at h
    · split at h
      · simp at h
      · rename_i fileURL hget
        split at h
        · cases h
          intro hnf
          have h1 := hi hnf
          have hd := drop_of_getElem? _ _ _ hget
          simp only [liveCount, pcKeys, hd, List.count_cons, List.count_append, List.count_nil]
            at h1 ⊢
          omega
        · simp at h
  case feederExit =>
    split at h
    · simp at h
    · split at h
      · cases h; exact hi
      · simp at h
  case recvFinish =>
    split at h
    · rename_i hc
      obtain ⟨hpc, htok⟩ := hc
      simp only [doReturn] at h
      split at h
      · split at h <;> cases h <;> intro hnf <;> have h1 := hi hnf <;>
          simpa [liveCount, pcKeys, hpc] using h1
      · cases h; intro hnf; have h1 := hi hnf; simpa [liveCount, pcKeys, hpc] using h1
    · simp at h
  case recvPre gid err =>
    split at h
    · rename_i hpc
      split at h
      · simp at h
      · rename_i key rest hpre
        split at h
        · cases h; intro hnf; have h1 := hi hnf; simpa [liveCount, pcKeys, hpc] using h1
        · rename_i info hget
          have hcnt : (s.trace ++ [downloadFile env info.DirPath info.FileURL gid err]).countP
              (isSuccessOf u) = s.trace.countP (isSuccessOf u) := by
            simp [List.countP_append, downloadFile, isSuccessOf]
          simp only [doReturn] at h
          cases err with
          | some e =>
            simp at h
            split at h <;> cases h <;>
            · intro hnf
              have := (noFailure_of_append _ _ hnf).2
              simp [downloadFile, failureErr] at this
          | none =>
            simp at h
            cases h
            intro hnf
            have h1 := hi (noFailure_of_append _ _ hnf).1
            simp only [liveCount, pcKeys, hcnt, hpc, hpre, List.count_cons, beq_iff_eq] at h1 ⊢
            omega
    · simp at h
  case sendIn =>
    split at h
    · rename_i key hpc
      split at h
      · cases h
        intro hnf
        have h1 := hi hnf
        simp only [liveCount, pcKeys, hpc, List.count_cons, List.count_append, List.count_nil]
          at h1 ⊢
        omega
      · simp at h
    · simp at h
  case recvIn ok err =>
    split at h
    · rename_i hpc
      split at h
      · simp at h
      · rename_i key rest hin
        split at h
        · cases h; intro hnf; have h1 := hi hnf; simpa [liveCount, pcKeys, hpc] using h1
        · rename_i info hget
          simp only [doReturn] at h
          cases err with
          | some e =>
            simp at h
            split at h <;> cases h <;>
            · intro hnf
              have := (noFailure_of_append _ _ hnf).2
              simp [failureErr] at this
          | none =>
            cases ok with
            | false =>
              simp at h
              cases h
              have hcnt : (s.trace ++ [Call.downloadStatus key info.Gid false none]).countP
                  (isSuccessOf u) = s.trace.countP (isSuccessOf u) := by
                simp [List.countP_append, isSuccessOf]
              intro hnf
              have h1 := hi (noFailure_of_append _ _ hnf).1
              simp only [liveCount, pcKeys, hcnt, hpc, hin, List.count_append, List.count_cons,
                List.count_nil, beq_iff_eq] at h1 ⊢
              omega
            | true =>
              simp at h
              cases h
              have hcnt : (s.trace ++ [Call.downloadStatus key info.Gid true none]).countP
                  (isSuccessOf u) = s.trace.countP (isSuccessOf u) + (if key = u then 1 else 0) := by
                simp [List.countP_append, isSuccessOf, List.countP_cons]
              intro hnf
              have h1 := hi (noFailure_of_append _ _ hnf).1
              simp only [liveCount, pcKeys, hcnt, hpc, hin, List.count_cons, beq_iff_eq] at h1 ⊢
              omega
    · simp at h
  case tick =>
    split at h
    · rename_i hpc
      cases h; intro hnf; have h1 := hi hnf; simpa [liveCount, pcKeys, hpc] using h1
    · simp at h
  case tickSend =>
    split at h
    · rename_i hpc
      cases h; intro hnf; have h1 := hi hnf
      simp only [liveCount, pcKeys, hpc, List.count_nil] at h1 ⊢
      omega
    · rename_i key rest hpc
      split at h
      · cases h; intro hnf; have h1 := hi hnf
        simp only [liveCount, pcKeys, hpc, List.count_cons, List.count_append, List.count_nil]
          at h1 ⊢
        omega
      · simp at h
    · simp at h
  case recvExit =>
    split at h
    · rename_i hc
      cases h; intro hnf; have h1 := hi hnf; simpa [liveCount, pcKeys, hc.1] using h1
    · simp at h

theorem step_RecordInv (env : Env) (u : String) (s s' : Downloader) (e : Event)
    (h : step env s e = some s') (hi : RecordInv u s) : RecordInv u s' := by
  unfold RecordInv at hi ⊢
  cases e <;> simp only [step] at h
  case feed =>
    split at h
    · simp at h
    · split at h
      · simp at h
      · split at h
        · cases h; exact hi
        · simp at h
  case feederExit =>
    split at h
    · simp at h
    · split at h
      · cases h; exact hi
      · simp at h
  case recvFinish =>
    split at h
    · simp only [doReturn] at h
      split at h
      · split at h <;> cases h <;> exact hi
      · cases h; exact hi
    · simp at h
  case recvPre gid err =>
    split at h
    · split at h
      · simp at h
      · rename_i key rest hpre
        split at h
        · cases h; exact hi
        · rename_i info0 hget
          have hcnt : (s.trace ++ [downloadFile env info0.DirPath info0.FileURL gid err]).countP
              (isSuccessOf u) = s.trace.countP (isSuccessOf u) := by
            simp [List.countP_append, downloadFile, isSuccessOf]
          simp only [doReturn] at h
          cases err with
          | some e =>
            simp at h
            split at h <;> cases h <;>
            · intro hnf
              have := (noFailure_of_append _ _ hnf).2
              simp [downloadFile, failureErr] at this
          | none =>
            simp at h
            cases h
            intro hnf info hinfo
            have h1 := hi (noFailure_of_append _ _ hnf).1
            simp only [mapGet_mapModify] at hinfo
            simp only [hcnt]
            by_cases hk : u = key
            · rw [if_pos hk] at hinfo
              cases hg : mapGet s.statusMap u with
              | none => rw [hg] at hinfo; simp at hinfo
              | some i0 =>
                rw [hg] at hinfo
                simp at hinfo
                subst hinfo
                exact ⟨(h1 i0 hg).1, rfl⟩
            · rw [if_neg hk] at hinfo
              exact h1 info hinfo
    · simp at h
  case sendIn =>
    split at h
    · split at h
      · cases h; exact hi
      · simp at h
    · simp at h
  case recvIn ok err =>
    split at h
    · split at h
      · simp at h
      · rename_i key rest hin
        split at h
        · cases h; exact hi
        · rename_i info0 hget
          simp only [doReturn] at h
          cases err with
          | some e =>
            simp at h
            split at h <;> cases h <;>
            · intro hnf
              have := (noFailure_of_append _ _ hnf).2
              simp [failureErr] at this
          | none =>
            cases ok with
            | false =>
              simp at h
              cases h
              have hcnt : (s.trace ++ [Call.downloadStatus key info0.Gid false none]).countP
                  (isSuccessOf u) = s.trace.countP (isSuccessOf u) := by
                simp [List.countP_append, isSuccessOf]
              intro hnf info hinfo
              simp only [hcnt]
              exact hi (noFailure_of_append _ _ hnf).1 info hinfo
            | true =>
              simp at h
              cases h
              have hcnt : (s.trace ++ [Call.downloadStatus key info0.Gid true none]).countP
                  (isSuccessOf u) = s.trace.countP (isSuccessOf u) + (if key = u then 1 else 0) := by
                simp [List.countP_append, isSuccessOf, List.countP_cons]
              intro hnf info hinfo
              have h1 := hi (noFailure_of_append _ _ hnf).1
              simp only [mapGet_mapModify] at hinfo
              simp only [hcnt]
              by_cases hk : u = key
              · rw [if_pos hk] at hinfo
                cases hg : mapGet s.statusMap u with
                | none => rw [hg] at hinfo; simp at hinfo
                | some i0 =>
                  rw [hg] at hinfo
                  simp at hinfo
                  subst hinfo
                  refine ⟨?_, (h1 i0 hg).2⟩
                  rw [if_pos hk.symm]
                  simp
              · rw [if_neg hk] at hinfo
                have hk' : ¬ key = u := fun h => hk h.symm
                rw [if_neg hk', Nat.add_zero]
                exact h1 info hinfo
    · simp at h
  case tick =>
    split at h
    · cases h; exact hi
    · simp at h
  case tickSend =>
    split at h
    · cases h; exact hi
    · split at h
      · cases h; exact hi
      · simp at h
    · simp at h
  case recvExit =>
    split at h
    · cases h; exact hi
    · simp at h

theorem step_DomainInv (env : Env) (u : String) (s s' : Downloader) (e : Event)
    (h : step env s e = some s') (hi : DomainInv u s) : DomainInv u s' := by
  unfold DomainInv at hi ⊢
  have hmod : ∀ (k : String) (f : DownloadInfo → DownloadInfo),
      (mapGet s.statusMap u).isSome = true →
      (mapGet (mapModify s.statusMap k f) u).isSome = true := by
    intro k f hs
    rw [mapGet_mapModify]
    split
    · cases hg : mapGet s.statusMap u with
      | none => rw [hg] at hs; simp at hs
      | some i => simp
    · exact hs
  cases e <;> simp only [step] at h
  case feed =>
    split at h
    · simp at h
    · split at h
      · simp at h
      · split at h
        · cases h; exact hi
        · simp at h
  case feederExit =>
    split at h
    · simp at h
    · split at h
      · cases h; exact hi
      · simp at h
  case recvFinish =>
    split at h
    · simp only [doReturn] at h
      split at h
      · split at h <;> cases h <;> exact hi
      · cases h; exact hi
    · simp at h
  case recvPre gid err =>
    split at h
    · split at h
      · simp at h
      · split at h
        · cases h; exact hi
        · simp only [doReturn] at h
          split at h
          · split at h <;> cases h <;> (intro hu; dsimp only; exact hmod _ _ (hi hu))
          · cases h; (intro hu; dsimp only; exact hmod _ _ (hi hu))
    · simp at h
  case sendIn =>
    split at h
    · split at h
      · cases h; exact hi
      · simp at h
    · simp at h
  case recvIn ok err =>
    split at h
    · split at h
      · simp at h
      · split at h
        · cases h; exact hi
        · simp only [doReturn] at h
          split at h
          · cases h; exact hi
          · split at h
            · split at h <;> cases h <;> (intro hu; dsimp only; exact hmod _ _ (hi hu))
            · cases h; (intro hu; dsimp only; exact hmod _ _ (hi hu))
    · simp at h
  case tick =>
    split at h
    · cases h; exact hi
    · simp at h
  case tickSend =>
    split at h
    · cases h; exact hi
    · split at h
      · cases h; exact hi
      · simp at h
    · simp at h
  case recvExit =>
    split at h
    · cases h; exact hi
    · simp at h

theorem mapSet_forall (P : DownloadInfo → Prop) (m : List (String × DownloadInfo)) (k : String)
    (v : DownloadInfo) (hm : ∀ p ∈ m, P p.2) (hv : P v) : ∀ p ∈ mapSet m k v, P p.2 := by
  induction m with
  | nil => intro p hp; simp [mapSet] at hp; subst hp; exact hv
  | cons a m ih =>
    obtain ⟨k', v'⟩ := a
    intro p hp
    simp only [mapSet] at hp
    split at hp
    · rcases List.mem_cons.1 hp with h | h
      · subst h; exact hv
      · exact hm p (List.mem_cons_of_mem _ h)
    · rcases List.mem_cons.1 hp with h | h
      · subst h; exact hm _ (List.mem_cons_self _ _)
      · exact ih (fun q hq => hm q (List.mem_cons_of_mem _ hq)) p h

theorem init_statusMap_forall (P : DownloadInfo → Prop) (dirPath : String)
    (hP : ∀ fileURL, P ⟨dirPath, fileURL, "", 0, none⟩)
    (fileURLs : List String) :
    ∀ (m : List (String × DownloadInfo)), (∀ p ∈ m, P p.2) →
      ∀ p ∈ fileURLs.foldl
        (fun m fileURL => mapSet m fileURL
          { DirPath := dirPath, FileURL := fileURL, Gid := "", Status := 0, Err := none }) m,
        P p.2 := by
  induction fileURLs with
  | nil => intro m hm; simpa using hm
  | cons a l ih =>
    intro m hm
    simp only [List.foldl_cons]
    exact ih _ (mapSet_forall P m a _ hm (hP a))

theorem mapGet_mapSet (m : List (String × DownloadInfo)) (k u : String) (v : DownloadInfo) :
    mapGet (mapSet m k v) u = if u = k then some v else mapGet m u := by
  induction m with
  | nil =>
    simp only [mapSet, mapGet, List.lookup_cons, List.lookup_nil]
    by_cases h : u = k
    · simp [h]
    · have h1 : (u == k) = false := by simpa using h
      simp [h, h1]
  | cons a m ih =>
    obtain ⟨k', v'⟩ := a
    simp only [mapSet]
    simp only [mapGet] at ih ⊢
    by_cases hk : k' = k
    · rw [if_pos hk]
      subst hk
      simp only [List.lookup_cons]
      by_cases h : u = k'
      · simp [h]
      · have h1 : (u == k') = false := by simpa using h
        simp [h, h1]
    · rw [if_neg hk]
      simp only [List.lookup_cons]
      by_cases h : u = k'
      · subst h
        simp [hk]
      · have h1 : (u == k') = false := by simpa using h
        simp only [h1]
        exact ih

theorem init_statusMap_domain (dirPath : String) (u : String) (fileURLs : List String) :
    ∀ (m : List (String × DownloadInfo)), (u ∈ fileURLs ∨ (mapGet m u).isSome = true) →
      (mapGet (fileURLs.foldl
        (fun m fileURL => mapSet m fileURL
          { DirPath := dirPath, FileURL := fileURL, Gid := "", Status := 0, Err := none }) m)
        u).isSome = true := by
  induction fileURLs with
  | nil =>
    intro m h
    rcases h with h | h
    · simp at h
    · simpa using h
  | cons a l ih =>
    intro m h
    simp only [List.foldl_cons]
    apply ih
    by_cases hua : u = a
    · right
      rw [mapGet_mapSet, if_pos hua]
      rfl
    · rcases h with h | h
      · left
        rcases List.mem_cons.1 h with h | h
        · exact absurd h hua
        · exact h
      · right
        rw [mapGet_mapSet, if_neg hua]
        exact h

theorem noFailure_counts (t : List Call) (h : ∀ c ∈ t, failureErr c = none) :
    failedCount t = 0 ∧ t.countP isStartFailure = 0 := by
  constructor
  · simp only [failedCount, List.countP_eq_zero]
    intro c hc hf
    have := h c hc
    cases c <;> simp [isFailed] at hf
    rename_i key gid ok err
    cases err <;> simp [isFailed, failureErr] at hf this
  · simp only [List.countP_eq_zero]
    intro c hc hf
    have := h c hc
    cases c <;> simp [isStartFailure] at hf
    rename_i uri outDir outFilename gid err
    cases err <;> simp [isStartFailure, failureErr] at hf this

theorem returned_nil_state (env : Env) (N : Int) (d : Downloader) (dirPath : String)
    (fileURLs : List String) (evs : List Event) (s : Downloader)
    (hd : NewDownloader N = some d)
    (hrun : run env (DownloadFiles_init d dirPath fileURLs [Call.stat dirPath true none]) evs
      = some s)
    (hpc : s.pc = PC.returned none) :
    (∀ u ∈ fileURLs, ∃ info, mapGet s.statusMap u = some info ∧ info.Status = 1 ∧
      info.Err = none) ∧
    startedCount s.trace = fileURLs.length := by
  have hd' : d.preChan = [] ∧ d.inChan = [] := by
    unfold NewDownloader at hd
    split at hd
    · simp at hd
    · cases hd; exact ⟨rfl, rfl⟩
  have hsched := reachable_SchedInv env N d dirPath fileURLs evs s hd hrun
  have hff := reachable_FailFastInv env N d dirPath fileURLs evs s hd hrun
  have htot := run_preserves env (TotalInv fileURLs.length) (step_TotalInv env fileURLs.length)
    evs _ s hrun (init_TotalInv d dirPath fileURLs)
  have hfeed : FeedInv s := by
    refine run_preserves env FeedInv (step_FeedInv env) evs _ s hrun ?_
    simp [FeedInv, DownloadFiles_init, hd'.1, startedCount, isStarted, isStartFailure]
  have hurls : s.fileURLs = fileURLs := by
    refine run_preserves env (fun x => x.fileURLs = fileURLs) ?_ evs _ s hrun rfl
    intro a b e hab ha
    rw [step_fileURLs env a b e hab, ha]
  have hdone : SchedInv s ∧ DoneInv s := by
    refine run_preserves env (fun x => SchedInv x ∧ DoneInv x) ?_ evs _ s hrun
      ⟨init_SchedInv N d dirPath fileURLs hd, ?_⟩
    · intro a b e hab ⟨h1, h2⟩
      exact ⟨step_SchedInv env a b e hab h1, step_DoneInv env a b e hab h1 h2⟩
    · intro hc; simp [DownloadFiles_init] at hc
  have hnf : ∀ c ∈ s.trace, failureErr c = none := by
    rcases hff with ⟨_, h⟩ | ⟨_, h⟩ | ⟨_, _, e, _, _, _, h⟩
    · exact h
    · exact h
    · rw [hpc] at h; cases h
  obtain ⟨hfc, hsf⟩ := noFailure_counts s.trace hnf
  obtain ⟨hinf, htotal⟩ := hdone.2 hpc
  have hstarted : startedCount s.trace = fileURLs.length := by
    have h1 := hsched.1
    unfold TotalInv at htot
    omega
  refine ⟨?_, hstarted⟩
  intro u hu
  have hcount : CountInv u s := by
    refine run_preserves env (CountInv u) (step_CountInv env u) evs _ s hrun ?_
    intro _
    simp [DownloadFiles_init, liveCount, pcKeys, hd'.1, hd'.2, isSuccessOf]
  have hrec : RecordInv u s := by
    refine run_preserves env (RecordInv u) (step_RecordInv env u) evs _ s hrun ?_
    intro _ info hinfo
    have := init_statusMap_forall (fun i => i.Status = 0 ∧ i.Err = none) dirPath
      (fun _ => ⟨rfl, rfl⟩) fileURLs [] (by simp) _ (mapGet_mem _ _ _ hinfo)
    simp only [DownloadFiles_init, List.countP_cons, List.countP_nil]
    simp only at this
    refine ⟨?_, this.2⟩
    rw [this.1]
    simp [isSuccessOf]
  have hdom : DomainInv u s := by
    refine run_preserves env (DomainInv u) (step_DomainInv env u) evs _ s hrun ?_
    intro hmem
    exact init_statusMap_domain dirPath u fileURLs [] (Or.inl hmem)
  have hlive : liveCount s u = 0 := by
    have h1 := hfeed.1
    have h2 := hfeed.2
    rw [hurls] at h2
    have hpre : s.preChan.length = 0 := by omega
    have hidx : s.feedIdx = fileURLs.length := by omega
    have hin : s.inChan.length = 0 := by unfold inflight at hinf; omega
    have hkeys : (pcKeys s).length = 0 := by unfold inflight at hinf; omega
    simp only [liveCount, hurls, hidx, List.drop_length, List.count_nil,
      List.length_eq_zero.1 hpre, List.length_eq_zero.1 hin, List.length_eq_zero.1 hkeys]
  have hsucc : 1 ≤ s.trace.countP (isSuccessOf u) := by
    have h1 := hcount hnf
    rw [hlive, hurls] at h1
    have h2 : 0 < fileURLs.count u := List.count_pos_iff.2 hu
    omega
  have hsome := hdom (by rw [hurls]; exact hu)
  cases hg : mapGet s.statusMap u with
  | none => rw [hg] at hsome; simp at hsome
  | some info =>
    have h1 := hrec hnf info hg
    exact ⟨info, rfl, h1.1.2 hsucc, h1.2⟩

/-- C17: for every submission to `DownloadFiles` (any bound accepted by
`NewDownloader`, any list of sources, repeats included, any schedule of the
goroutines and any answers of the agent), if the call returns a nil error then
the directory exists, a status map is returned in which every submitted source
has a record with `Status = 1` and a nil `Err`, and the number of start calls
made on the agent equals the number of submitted sources. -/
theorem download_nil_all_succeeded (env : Env) (N : Int) (d : Downloader) (dirPath : String)
    (fileURLs : List String) (sched : List Event)
    (m : Option (List (String × DownloadInfo))) (tr : List Call)
    (hd : NewDownloader N = some d)
    (h : DownloadFiles env d dirPath fileURLs sched [] = some (m, none, tr)) :
    env.Stat [] dirPath = (true, none) ∧
    ∃ statusMap, m = some statusMap ∧
      (∀ u ∈ fileURLs, ∃ info, mapGet statusMap u = some info ∧ info.Status = 1 ∧
        info.Err = none) ∧
      startedCount tr = fileURLs.length := by
  unfold DownloadFiles at h
  simp only at h
  split at h
  · rename_i herr
    simp only [Option.some.injEq, Prod.mk.injEq] at h
    rw [h.2.1] at herr
    simp at herr
  · rename_i herr
    split at h
    · simp at h
    · rename_i hdir
      have h1 : (env.Stat [] dirPath).1 = true := by simpa using hdir
      have h2 : (env.Stat [] dirPath).2 = none := by simpa using herr
      have hst : env.Stat [] dirPath = (true, none) := Prod.ext h1 h2
      refine ⟨hst, ?_⟩
      rw [hst] at h
      split at h
      · simp at h
      · rename_i s hrun
        split at h
        · rename_i e hpc
          simp only [Option.some.injEq, Prod.mk.injEq] at h
          obtain ⟨hm, he, htr⟩ := h
          subst he
          have := returned_nil_state env N d dirPath fileURLs sched s hd
            (by simpa using hrun) hpc
          refine ⟨s.statusMap, hm.symm, this.1, ?_⟩
          rw [← htr]
          exact this.2
        · simp at h

theorem download_nil_all_succeeded_witness :
    NewDownloader 3 = some (exampleDownloader 3) ∧
    DownloadFiles exampleEnv (exampleDownloader 3) "dir" ["u1"] successSchedule [] =
      some (some [("u1", ⟨"dir", "u1", "gid-1", 1, none⟩)], none,
        [Call.stat "dir" true none, Call.downloadFile "u1" "dir" "u1.car" "gid-1" none,
          Call.downloadStatus "u1" "gid-1" true none]) ∧
    (exampleEnv.Stat [] "dir" = (true, none) ∧
    ∃ statusMap, some [("u1", (⟨"dir", "u1", "gid-1", 1, none⟩ : DownloadInfo))] = some statusMap ∧
      (∀ u ∈ ["u1"], ∃ info, mapGet statusMap u = some info ∧ info.Status = 1 ∧
        info.Err = none) ∧
      startedCount [Call.stat "dir" true none,
        Call.downloadFile "u1" "dir" "u1.car" "gid-1" none,
        Call.downloadStatus "u1" "gid-1" true none] = ["u1"].length) :=
  ⟨rfl, rfl, download_nil_all_succeeded exampleEnv 3 (exampleDownloader 3) "dir" ["u1"]
    successSchedule _ _ rfl rfl⟩


end RebuilderTools
